import Mathlib

/-!
Asteroid game: simulation core.

A shallow embedding of the simulation core of `lab111/main.cpp` (entities, damage,
bounds culling, firing, collision resolution), followed by theorems about it.

Conventions of the embedding:
* `float` quantities (positions, velocities, timers, asteroid hit points) are read as exact
  rationals; where a statement about the shot timer depends on rounding, the `float`
  operations are made explicit by `binary32` (`volleyLoop32`, `shooting32`);
* `int` quantities (ship hit points, damage, score, size tiers) are integers; none of the
  operations modelled here leaves the `int` range on the inputs the theorems quantify over;
* `std::vector` collections are lists in the same order;
* calls to the random generator are answered by an explicit draw record, so every operation is a
  function of its inputs and of the draws it consumes.
-/

namespace AsteroidGame

/-! ## Vectors and components -/

/-- Raylib two-dimensional vector. -/
structure Vector2 where
  x : ℚ
  y : ℚ
deriving DecidableEq, Repr

/-- Componentwise sum (raymath). -/
def Vector2Add (a b : Vector2) : Vector2 := ⟨a.x + b.x, a.y + b.y⟩

/-- Scaling by a scalar (raymath). -/
def Vector2Scale (v : Vector2) (s : ℚ) : Vector2 := ⟨v.x * s, v.y * s⟩

/-- Squared euclidean distance; `Vector2Distance a b` is its square root. -/
def Vector2DistanceSqr (a b : Vector2) : ℚ :=
  (a.x - b.x) * (a.x - b.x) + (a.y - b.y) * (a.y - b.y)

/-- The test `Vector2Distance a b < r` of the collision code. The square root of the source is
avoided through the equivalence `sqrt d < r ↔ 0 < r ∧ d < r * r`, valid for every `d ≥ 0`
(see `distanceLess_iff_sqrt`). -/
def distanceLess (a b : Vector2) (r : ℚ) : Bool :=
  decide (0 < r) && decide (Vector2DistanceSqr a b < r * r)

/-- Position and rotation of an entity. -/
structure TransformA where
  position : Vector2 := ⟨0, 0⟩
  rotation : ℚ := 0
deriving DecidableEq, Repr

/-- Velocity and rotation speed of an entity. -/
structure Physics where
  velocity : Vector2 := ⟨0, 0⟩
  rotationSpeed : ℚ := 0
deriving DecidableEq, Repr

/-- Size tier holder; the enumerators are SMALL = 1, MEDIUM = 2, LARGE = 4, and the field is
assigned through `static_cast` from an `int`. -/
structure Renderable where
  size : Int := 1
deriving DecidableEq, Repr

/-- Shape selector (`enum class AsteroidShape`). -/
inductive AsteroidShape where
  | TRIANGLE
  | SQUARE
  | PENTAGON
  | RANDOM
deriving DecidableEq, Repr

/-- The enumerator designated by `static_cast<AsteroidShape>(n)`; values without an enumerator are
handled by the `default:` branch of every `switch`, exactly like `RANDOM`. -/
def AsteroidShape.ofInt (n : Int) : AsteroidShape :=
  if n = 3 then .TRIANGLE else if n = 4 then .SQUARE else if n = 5 then .PENTAGON else .RANDOM

/-- Screen size held by the renderer singleton (`Renderer::Width`, `Renderer::Height`). -/
structure Renderer where
  screenW : Int
  screenH : Int
deriving DecidableEq, Repr

/-! ## Random draws -/

/-- Value of `Utils::RandomFloat(min, max)` when `rand() / RAND_MAX` is `u`. -/
def RandomFloat (u min max : ℚ) : ℚ := min + u * (max - min)

/-- Outcomes of the random calls made while one asteroid is built. The velocity is
`Vector2Scale(dir, RandomFloat(SPEED_MIN, SPEED_MAX))` with `dir` the normalised direction to a
jittered screen centre; it goes through `cosf`, `sinf` and a square root, so the resulting vector is
recorded as an outcome instead of being recomputed. -/
structure AsteroidDraw where
  /-- Outcome of `GetRandomValue(0, 2)` in `MakeAsteroid` (used for `RANDOM` only). -/
  shapePick : Fin 3
  /-- Outcome of `GetRandomValue(0, 2)` choosing the size of a fresh spawn. -/
  sizePick : Fin 3
  /-- Outcome of `GetRandomValue(0, 3)` choosing the edge of a fresh spawn. -/
  edgePick : Fin 4
  /-- Unit fraction behind the `RandomFloat` call placing a fresh spawn along its edge. -/
  edgeU : ℚ
  /-- Resulting velocity. -/
  velocity : Vector2
  /-- Unit fraction behind `RandomFloat(ROT_MIN, ROT_MAX)`. -/
  rotSpeedU : ℚ
  /-- Unit fraction behind `RandomFloat(0, 360)`. -/
  rotationU : ℚ
deriving DecidableEq, Repr

/-! ## Asteroids -/

/-- State of `class Asteroid`; `baseDamage` is set by the constructor of the concrete subclass. -/
structure Asteroid where
  crashed : Bool := false
  starting_asteroid_hp : ℚ := 100
  current_asteroid_hp : ℚ := 1
  shape : AsteroidShape
  transform : TransformA := {}
  physics : Physics := {}
  render : Renderable := {}
  baseDamage : Int := 0
deriving DecidableEq, Repr

namespace Asteroid

def ROT_MIN : ℚ := 50
def ROT_MAX : ℚ := 240

/-- Radius `16.f * size`. -/
def GetRadius (a : Asteroid) : ℚ := 16 * (a.render.size : ℚ)

def GetPosition (a : Asteroid) : Vector2 := a.transform.position

def GetDamage (a : Asteroid) : Int := a.baseDamage * a.render.size

def GetSize (a : Asteroid) : Int := a.render.size

def GetShape (a : Asteroid) : AsteroidShape := a.shape

def IsCrashed (a : Asteroid) : Bool := a.crashed

/-- Hit-point factor selected by the `switch (shape)` of `init`. -/
def hpFactor : AsteroidShape → Int
  | .TRIANGLE => 100
  | .SQUARE => 150
  | .PENTAGON => 200
  | .RANDOM => 100

/-- Constructor `Asteroid::Asteroid` together with `Asteroid::init`. -/
def init (screenW screenH : Int) (split : Bool) (pos : Vector2) (split_size : Int)
    (shape : AsteroidShape) (d : AsteroidDraw) : Asteroid :=
  -- choosing size and asteroid HP
  let size : Int := if !split then 2 ^ d.sizePick.val else Int.tdiv split_size 2
  let starting : Int := if !split then hpFactor shape * size else hpFactor shape * split_size
  let radius : ℚ := 16 * (size : ℚ)
  -- spawn at random edge, or at the split place
  let position : Vector2 :=
    if !split then
      match d.edgePick with
      | 0 => ⟨RandomFloat d.edgeU 0 screenW, -radius⟩
      | 1 => ⟨screenW + radius, RandomFloat d.edgeU 0 screenH⟩
      | 2 => ⟨RandomFloat d.edgeU 0 screenW, screenH + radius⟩
      | _ => ⟨-radius, RandomFloat d.edgeU 0 screenH⟩
    else pos
  { crashed := false
    starting_asteroid_hp := (starting : ℚ)
    current_asteroid_hp := (starting : ℚ)
    shape := shape
    transform := { position := position, rotation := RandomFloat d.rotationU 0 360 }
    physics := { velocity := d.velocity, rotationSpeed := RandomFloat d.rotSpeedU ROT_MIN ROT_MAX }
    render := { size := size }
    baseDamage := 0 }

/-- `Asteroid::TakeDamage`. -/
def TakeDamage (a : Asteroid) (dmg : Int) : Asteroid :=
  if a.crashed then a
  else
    let hp := a.current_asteroid_hp - (dmg : ℚ)
    if hp ≤ 0 then { a with current_asteroid_hp := hp, crashed := true }
    else { a with current_asteroid_hp := hp }

/-- `Asteroid::Update`: the moved asteroid and the returned flag (`false` means remove). -/
def Update (r : Renderer) (a : Asteroid) (dt : ℚ) : Asteroid × Bool :=
  let position := Vector2Add a.transform.position (Vector2Scale a.physics.velocity dt)
  let rotation := a.transform.rotation + a.physics.rotationSpeed * dt
  let a1 : Asteroid := { a with transform := { position := position, rotation := rotation } }
  if position.x < -a1.GetRadius ∨ position.x > (r.screenW : ℚ) + a1.GetRadius ∨
      position.y < -a1.GetRadius ∨ position.y > (r.screenH : ℚ) + a1.GetRadius then
    (a1, false)
  else (a1, true)

end Asteroid

/-- Constructors of the three concrete subclasses: the base constructor, then `baseDamage`. -/
def TriangleAsteroid (w h : Int) (split : Bool) (pos : Vector2) (split_size : Int)
    (shape : AsteroidShape) (d : AsteroidDraw) : Asteroid :=
  { Asteroid.init w h split pos split_size shape d with baseDamage := 5 }

def SquareAsteroid (w h : Int) (split : Bool) (pos : Vector2) (split_size : Int)
    (shape : AsteroidShape) (d : AsteroidDraw) : Asteroid :=
  { Asteroid.init w h split pos split_size shape d with baseDamage := 10 }

def PentagonAsteroid (w h : Int) (split : Bool) (pos : Vector2) (split_size : Int)
    (shape : AsteroidShape) (d : AsteroidDraw) : Asteroid :=
  { Asteroid.init w h split pos split_size shape d with baseDamage := 15 }

/-- Factory `MakeAsteroid`. The `default:` branch calls the factory again with the shape
`static_cast<AsteroidShape>(3 + GetRandomValue(0, 2))`. -/
def MakeAsteroid (w h : Int) (shape : AsteroidShape) (split : Bool) (pos : Vector2)
    (split_size : Int) (d : AsteroidDraw) : Asteroid :=
  match hs : shape with
  | .TRIANGLE => TriangleAsteroid w h split pos split_size shape d
  | .SQUARE => SquareAsteroid w h split pos split_size shape d
  | .PENTAGON => PentagonAsteroid w h split pos split_size shape d
  | .RANDOM =>
    MakeAsteroid w h (AsteroidShape.ofInt (3 + (d.shapePick.val : Int))) split pos split_size d
termination_by (if shape = AsteroidShape.RANDOM then 1 else 0 : Nat)
decreasing_by
  have h3 : d.shapePick.val < 3 := d.shapePick.isLt
  have : AsteroidShape.ofInt (3 + (d.shapePick.val : Int)) ≠ AsteroidShape.RANDOM := by
    unfold AsteroidShape.ofInt
    interval_cases d.shapePick.val <;> simp
  simp [this]

/-! ## Projectiles -/

/-- Weapon selector (`enum class WeaponType`); `COUNT` is the number of real weapons. -/
inductive WeaponType where
  | LASER
  | BULLET
  | SHOTGUN
  | COUNT
deriving DecidableEq, Repr

namespace WeaponType

/-- Underlying value `static_cast<int>(wt)`. -/
def toInt : WeaponType → Int
  | .LASER => 0
  | .BULLET => 1
  | .SHOTGUN => 2
  | .COUNT => 3

/-- The enumerator designated by `static_cast<WeaponType>(n)` for `n` in `0..3`; other values
have no enumerator and are never produced by the weapon switch. -/
def ofInt (n : Int) : WeaponType :=
  if n = 0 then .LASER else if n = 1 then .BULLET else if n = 2 then .SHOTGUN else .COUNT

end WeaponType

/-- State of `class Projectile`. -/
structure Projectile where
  transform : TransformA := {}
  physics : Physics := {}
  baseDamage : Int
  type : WeaponType
deriving DecidableEq, Repr

namespace Projectile

/-- Constructor `Projectile(pos, vel, dmg, wt)`. -/
def new (pos vel : Vector2) (dmg : Int) (wt : WeaponType) : Projectile :=
  { transform := { position := pos }, physics := { velocity := vel }, baseDamage := dmg,
    type := wt }

/-- `Projectile::Update`: the moved projectile and the returned flag (`true` means off-bounds). -/
def Update (r : Renderer) (p : Projectile) (dt : ℚ) : Projectile × Bool :=
  let position := Vector2Add p.transform.position (Vector2Scale p.physics.velocity dt)
  let p1 : Projectile := { p with transform := { p.transform with position := position } }
  if position.x < 0 ∨ position.x > (r.screenW : ℚ) ∨
      position.y < 0 ∨ position.y > (r.screenH : ℚ) then
    (p1, true)
  else (p1, false)

def GetPosition (p : Projectile) : Vector2 := p.transform.position

def GetRadius (p : Projectile) : ℚ := if p.type = WeaponType.BULLET then 5 else 2

def GetDamage (p : Projectile) : Int := p.baseDamage

end Projectile

/-- Factory `MakeProjectile`. The `switch` has no case for `COUNT` and control then leaves the
function without a value: `none`. -/
def MakeProjectile (wt : WeaponType) (pos speed : Vector2) : Option Projectile :=
  match wt with
  | .BULLET => some (Projectile.new pos speed 10 wt)
  | .LASER => some (Projectile.new pos speed 200 wt)
  | .SHOTGUN => some (Projectile.new pos speed 5 wt)
  | .COUNT => none

/-! ## Ship -/

/-- State of `class Ship` with the two fields of `PlayerShip` that the simulation reads: the
width of the loaded texture and the draw scale. -/
structure Ship where
  transform : TransformA := {}
  hp : Int
  speed : ℚ
  alive : Bool
  fireRateLaser : ℚ
  fireRateBullet : ℚ
  fireRateShotgun : ℚ
  spacingLaser : ℚ
  spacingBullet : ℚ
  spacingShotgun : ℚ
  textureWidth : Int
  scale : ℚ
deriving DecidableEq, Repr

/-- Constructor `PlayerShip(w, h)`: the `Ship(w, h)` constructor, then the texture and the scale.
The texture comes from an image file; its width is a parameter. -/
def PlayerShip (screenW screenH : Int) (textureWidth : Int) : Ship :=
  { transform := { position := ⟨(screenW : ℚ) * (1 / 2), (screenH : ℚ) * (1 / 2)⟩ }
    hp := 100
    speed := 250
    alive := true
    fireRateLaser := 7
    fireRateBullet := 14
    fireRateShotgun := 10
    spacingLaser := 80
    spacingBullet := 60
    spacingShotgun := 50
    textureWidth := textureWidth
    scale := 1 / 4 }

namespace Ship

/-- `Ship::TakeDamage`. -/
def TakeDamage (s : Ship) (dmg : Int) : Ship :=
  if !s.alive then s
  else
    let hp := s.hp - dmg
    if hp ≤ 0 then { s with alive := false, hp := 0 }
    else { s with hp := hp }

def IsAlive (s : Ship) : Bool := s.alive

def GetPosition (s : Ship) : Vector2 := s.transform.position

/-- `PlayerShip::GetRadius`. -/
def GetRadius (s : Ship) : ℚ := ((s.textureWidth : ℚ) * s.scale) * (1 / 2)

/-- `Ship::GetFireRate`; no case for `COUNT`. -/
def GetFireRate (s : Ship) (wt : WeaponType) : Option ℚ :=
  match wt with
  | .BULLET => some s.fireRateBullet
  | .LASER => some s.fireRateLaser
  | .SHOTGUN => some s.fireRateShotgun
  | .COUNT => none

/-- `Ship::GetSpacing`; no case for `COUNT`. -/
def GetSpacing (s : Ship) (wt : WeaponType) : Option ℚ :=
  match wt with
  | .BULLET => some s.spacingBullet
  | .LASER => some s.spacingLaser
  | .SHOTGUN => some s.spacingShotgun
  | .COUNT => none

end Ship

/-! ## Application state and the steps of one frame of `Application::Run` -/

def C_WIDTH : Int := 1400
def C_HEIGHT : Int := 800
def MAX_AST : Nat := 150
def C_SPAWN_MIN : ℚ := 1 / 2
def C_SPAWN_MAX : ℚ := 3

/-- The renderer after `Init(C_WIDTH, C_HEIGHT, ...)`. -/
def Renderer.Instance : Renderer := ⟨C_WIDTH, C_HEIGHT⟩

/-- Members of `Application` and the locals of `Run` that live across frames. -/
structure Application where
  asteroids : List Asteroid := []
  projectiles : List Projectile := []
  currentShape : AsteroidShape := .TRIANGLE
  score : Int := 0
  player : Ship
  spawnTimer : ℚ := 0
  spawnInterval : ℚ
  currentWeapon : WeaponType := .LASER
  shotTimer : ℚ := 0

/-- What one frame receives from the platform: elapsed time, key states, the width of the ship
texture, and the outcomes of the random calls of the frame. -/
structure FrameInput where
  dt : ℚ
  keyW : Bool := false
  keyS : Bool := false
  keyA : Bool := false
  keyD : Bool := false
  keySpace : Bool := false
  keyR : Bool := false
  keyOne : Bool := false
  keyTwo : Bool := false
  keyThree : Bool := false
  keyFour : Bool := false
  keyTab : Bool := false
  textureWidth : Int
  /-- Unit fraction behind the spawn interval drawn on restart. -/
  restartU : ℚ
  /-- Draws of the asteroid spawned by the timer. -/
  spawnDraw : AsteroidDraw
  /-- Unit fraction behind the spawn interval drawn after a spawn. -/
  spawnU : ℚ
  /-- Draws of the split children, in creation order. -/
  splitDraws : Nat → AsteroidDraw

/-- `PlayerShip::Update`. -/
def Ship.Update (s : Ship) (dt : ℚ) (inp : FrameInput) : Ship :=
  if s.alive then
    let y1 := if inp.keyW then s.transform.position.y - s.speed * dt else s.transform.position.y
    let y2 := if inp.keyS then y1 + s.speed * dt else y1
    let x1 := if inp.keyA then s.transform.position.x - s.speed * dt else s.transform.position.x
    let x2 := if inp.keyD then x1 + s.speed * dt else x1
    { s with transform := { s.transform with position := ⟨x2, y2⟩ } }
  else
    { s with transform :=
        { s.transform with position := ⟨s.transform.position.x, s.transform.position.y + s.speed * dt⟩ } }

/-- Value of `fmodf(x, y)`: `x` minus `y` times the quotient truncated toward zero. -/
def fmodf (x y : ℚ) : ℚ :=
  x - y * (if 0 ≤ x / y then ((⌊x / y⌋ : Int) : ℚ) else ((⌈x / y⌉ : Int) : ℚ))

/-- Body of the firing loop up to the timer update: the projectiles pushed by one volley. -/
def emitVolley (player : Ship) (currentWeapon : WeaponType) (projSpeed : ℚ)
    (projectiles : List Projectile) : Option (List Projectile) :=
  let p : Vector2 := ⟨player.GetPosition.x, player.GetPosition.y - player.GetRadius⟩
  if currentWeapon = WeaponType.SHOTGUN then do
    -- the three iterations of `for (int i = 0; i < 3; i++)`, with `p.x += 20` after each push
    let q0 ← MakeProjectile currentWeapon p ⟨projSpeed, -projSpeed⟩
    let q1 ← MakeProjectile currentWeapon ⟨p.x + 20, p.y⟩ ⟨0, -projSpeed⟩
    let q2 ← MakeProjectile currentWeapon ⟨p.x + 20 + 20, p.y⟩ ⟨-projSpeed, -projSpeed⟩
    some (projectiles ++ [q0, q1, q2])
  else do
    let q ← MakeProjectile currentWeapon p ⟨0, -projSpeed⟩
    some (projectiles ++ [q])

/-- The loop `while (shotTimer >= interval)`, run for at most `fuel` iterations; `none` when
the fuel is exhausted with the condition still true, or when a volley has no value. The timer
is an exact rational here; `volleyLoop32` is the same loop with `shotTimer -= interval` rounded
to `float`. -/
def volleyLoop (player : Ship) (currentWeapon : WeaponType) (interval projSpeed : ℚ) :
    Nat → ℚ → List Projectile → Option (ℚ × List Projectile)
  | fuel, shotTimer, projectiles =>
    if shotTimer ≥ interval then
      match fuel with
      | 0 => none
      | fuel + 1 =>
        match emitVolley player currentWeapon projSpeed projectiles with
        | none => none
        | some ps => volleyLoop player currentWeapon interval projSpeed fuel (shotTimer - interval) ps
    else some (shotTimer, projectiles)

/-- The block `// Shooting`: new shot timer and projectile collection. -/
def shooting (fuel : Nat) (player : Ship) (currentWeapon : WeaponType) (keySpace : Bool) (dt : ℚ)
    (shotTimer : ℚ) (projectiles : List Projectile) : Option (ℚ × List Projectile) :=
  if player.IsAlive && keySpace then
    match player.GetFireRate currentWeapon, player.GetSpacing currentWeapon with
    | some rate, some spacing =>
      volleyLoop player currentWeapon (1 / rate) (spacing * rate) fuel (shotTimer + dt) projectiles
    | _, _ => none
  else
    match player.GetFireRate currentWeapon with
    | some rate =>
      let maxInterval := 1 / rate
      if shotTimer > maxInterval then some (fmodf shotTimer maxInterval, projectiles)
      else some (shotTimer, projectiles)
    | none => none

/-- The block `// Update projectiles`: every projectile is moved, those reporting off-bounds are
erased (`std::remove_if` followed by `erase`). -/
def updateProjectiles (r : Renderer) (dt : ℚ) : List Projectile → List Projectile
  | [] => []
  | p :: ps =>
    let res := p.Update r dt
    if res.2 then updateProjectiles r dt ps else res.1 :: updateProjectiles r dt ps

/-- What the collision loops carry besides the projectiles: the asteroid collection, the score
and the number of split draws consumed so far. -/
structure CollisionState where
  asteroids : List Asteroid
  score : Int
  drawn : Nat

/-- Inner loop of the block `// Projectile-Asteroid collisions` for one projectile: the scan over
the asteroid collection. `pre` holds the asteroids already passed, so the collection is
`pre ++ remaining`. The result is `none` when the scan ends without a hit (`removed` stays false),
and otherwise the state after the hit (`removed = true`, then `break`). The pushes go to the end of
the collection and the erased element is the one under the iterator; the collection is
reserved for 1000 elements, so the pushes do not move it. -/
def scanAsteroids (draws : Nat → AsteroidDraw) (p : Projectile) (score : Int) (drawn : Nat) :
    List Asteroid → List Asteroid → Option CollisionState
  | _, [] => none
  | pre, a :: rest =>
    if distanceLess p.GetPosition a.GetPosition (p.GetRadius + a.GetRadius) then
      let a1 := a.TakeDamage p.GetDamage
      if a1.IsCrashed then
        let score1 := score + a1.GetSize * 5
        if a1.GetSize > 1 then
          let split_position := a1.GetPosition
          let c1 := MakeAsteroid C_WIDTH C_HEIGHT a1.GetShape true split_position a1.GetSize
            (draws drawn)
          let c2 := MakeAsteroid C_WIDTH C_HEIGHT a1.GetShape true split_position a1.GetSize
            (draws (drawn + 1))
          some ⟨pre ++ rest ++ [c1, c2], score1 + a1.GetSize * 2, drawn + 2⟩
        else some ⟨pre ++ rest, score1, drawn⟩
      else some ⟨pre ++ a1 :: rest, score, drawn⟩
    else scanAsteroids draws p score drawn (pre ++ [a]) rest

/-- Outer loop of the block `// Projectile-Asteroid collisions`: a projectile that hit is erased,
the others are kept in order. -/
def projectileAsteroidCollisions (draws : Nat → AsteroidDraw) :
    List Projectile → CollisionState → List Projectile × CollisionState
  | [], st => ([], st)
  | p :: ps, st =>
    match scanAsteroids draws p st.score st.drawn [] st.asteroids with
    | some st1 => projectileAsteroidCollisions draws ps st1
    | none =>
      let res := projectileAsteroidCollisions draws ps st
      (p :: res.1, res.2)

/-- The block `// Asteroid-Ship collisions`: the predicate `remove_collision` is applied to the
asteroids in order by `std::remove_if`; it damages the ship on contact, and otherwise moves the
asteroid and reports whether it left the playfield. -/
def asteroidShipCollisions (r : Renderer) (dt : ℚ) : Ship → List Asteroid → Ship × List Asteroid
  | player, [] => (player, [])
  | player, a :: rest =>
    if player.IsAlive &&
        distanceLess player.GetPosition a.GetPosition (player.GetRadius + a.GetRadius) then
      asteroidShipCollisions r dt (player.TakeDamage a.GetDamage) rest
    else
      let upd := a.Update r dt
      let res := asteroidShipCollisions r dt player rest
      if !upd.2 then res else (res.1, upd.1 :: res.2)

namespace Application

/-- The block `// Restart logic`. -/
def restart (app : Application) (inp : FrameInput) : Application :=
  if !app.player.IsAlive then
    if inp.keyR then
      { app with
        player := PlayerShip C_WIDTH C_HEIGHT inp.textureWidth
        asteroids := []
        projectiles := []
        spawnTimer := 0
        spawnInterval := RandomFloat inp.restartU C_SPAWN_MIN C_SPAWN_MAX
        score := 0 }
    else app
  else app

/-- The block `// Asteroid shape switch`. -/
def shapeSwitch (app : Application) (inp : FrameInput) : Application :=
  let s1 := if inp.keyOne then AsteroidShape.TRIANGLE else app.currentShape
  let s2 := if inp.keyTwo then AsteroidShape.SQUARE else s1
  let s3 := if inp.keyThree then AsteroidShape.PENTAGON else s2
  let s4 := if inp.keyFour then AsteroidShape.RANDOM else s3
  { app with currentShape := s4 }

/-- The block `// Weapon switch`. -/
def weaponSwitch (app : Application) (inp : FrameInput) : Application :=
  if inp.keyTab then
    { app with currentWeapon :=
        WeaponType.ofInt ((app.currentWeapon.toInt + 1) % WeaponType.COUNT.toInt) }
  else app

/-- The block `// Spawn asteroids`. -/
def spawnAsteroids (app : Application) (inp : FrameInput) : Application :=
  if app.spawnTimer ≥ app.spawnInterval ∧ app.asteroids.length < MAX_AST then
    { app with
      asteroids := app.asteroids ++
        [MakeAsteroid C_WIDTH C_HEIGHT app.currentShape false ⟨0, 0⟩ 0 inp.spawnDraw]
      spawnTimer := 0
      spawnInterval := RandomFloat inp.spawnU C_SPAWN_MIN C_SPAWN_MAX }
  else app

/-- The block `// Projectile-Asteroid collisions` on the application state. -/
def collideProjectiles (app : Application) (inp : FrameInput) : Application :=
  let res := projectileAsteroidCollisions inp.splitDraws app.projectiles
    ⟨app.asteroids, app.score, 0⟩
  { app with projectiles := res.1, asteroids := res.2.asteroids, score := res.2.score }

/-- The block `// Asteroid-Ship collisions` on the application state. -/
def collideShip (app : Application) (inp : FrameInput) : Application :=
  let res := asteroidShipCollisions Renderer.Instance inp.dt app.player app.asteroids
  { app with player := res.1, asteroids := res.2 }

/-- One iteration of the frame loop of `Application::Run`, without the drawing. -/
def frame (fuel : Nat) (app : Application) (inp : FrameInput) : Option Application :=
  let app1 := { app with spawnTimer := app.spawnTimer + inp.dt }
  let app2 := { app1 with player := app1.player.Update inp.dt inp }
  let app3 := weaponSwitch (shapeSwitch (restart app2 inp) inp) inp
  match shooting fuel app3.player app3.currentWeapon inp.keySpace inp.dt app3.shotTimer
      app3.projectiles with
  | none => none
  | some (shotTimer, projectiles) =>
    let app4 := { app3 with shotTimer := shotTimer, projectiles := projectiles }
    let app5 := spawnAsteroids app4 inp
    let app6 := { app5 with projectiles := updateProjectiles Renderer.Instance inp.dt app5.projectiles }
    some (collideShip (collideProjectiles app6 inp) inp)

end Application

/-! ## The shot timer in `float` arithmetic -/

/-- Nearest integer, ties to the even one. -/
def roundHalfEven (x : ℚ) : Int :=
  if x - (⌊x⌋ : ℚ) < 1 / 2 then ⌊x⌋
  else if 1 / 2 < x - (⌊x⌋ : ℚ) then ⌊x⌋ + 1
  else if ⌊x⌋ % 2 = 0 then ⌊x⌋ else ⌊x⌋ + 1

/-- The `float` (IEEE 754 binary32) nearest to the rational `x`, ties to even: for
`2 ^ e ≤ |x| < 2 ^ (e + 1)` the multiple of `2 ^ (e - 23)` nearest to `x` (24 significant bits),
with `e` no lower than -126 (subnormal numbers). Overflow is not modelled: the function is
meant for `|x|` below `2 ^ 128`. -/
def binary32 (x : ℚ) : ℚ :=
  if x = 0 then 0
  else
    (roundHalfEven (x / 2 ^ (max (Int.log 2 |x|) (-126) - 23)) : ℚ) *
      2 ^ (max (Int.log 2 |x|) (-126) - 23)

/-- The loop `while (shotTimer >= interval)` as `volleyLoop`, with the result of
`shotTimer -= interval` rounded to `float` as the machine does. The volley is built by
`emitVolley`, whose sums are exact for a ship at integer coordinates. -/
def volleyLoop32 (player : Ship) (currentWeapon : WeaponType) (interval projSpeed : ℚ) :
    Nat → ℚ → List Projectile → Option (ℚ × List Projectile)
  | fuel, shotTimer, projectiles =>
    if shotTimer ≥ interval then
      match fuel with
      | 0 => none
      | fuel + 1 =>
        match emitVolley player currentWeapon projSpeed projectiles with
        | none => none
        | some ps =>
          volleyLoop32 player currentWeapon interval projSpeed fuel
            (binary32 (shotTimer - interval)) ps
    else some (shotTimer, projectiles)

/-- The block `// Shooting` as `shooting`, with every `float` operation on the shot timer
rounded: `shotTimer += dt`, `1.f / rate`, `spacing * rate` and, in the loop,
`shotTimer -= interval`. The result of `fmodf` is a `float` without rounding. -/
def shooting32 (fuel : Nat) (player : Ship) (currentWeapon : WeaponType) (keySpace : Bool)
    (dt : ℚ) (shotTimer : ℚ) (projectiles : List Projectile) : Option (ℚ × List Projectile) :=
  if player.IsAlive && keySpace then
    match player.GetFireRate currentWeapon, player.GetSpacing currentWeapon with
    | some rate, some spacing =>
      volleyLoop32 player currentWeapon (binary32 (1 / rate)) (binary32 (spacing * rate)) fuel
        (binary32 (shotTimer + dt)) projectiles
    | _, _ => none
  else
    match player.GetFireRate currentWeapon with
    | some rate =>
      let maxInterval := binary32 (1 / rate)
      if shotTimer > maxInterval then some (fmodf shotTimer maxInterval, projectiles)
      else some (shotTimer, projectiles)
    | none => none

/-! ## Notions used in the statements -/

/-- The invariant of the data model: current hit points never exceed the starting hit points,
and the crashed flag records exactly that the hit points are exhausted. -/
def Asteroid.hpInvariant (a : Asteroid) : Prop :=
  a.current_asteroid_hp ≤ a.starting_asteroid_hp ∧ (a.crashed = true ↔ a.current_asteroid_hp ≤ 0)

/-- The invariant of the ship: alive exactly with positive hit points, which stay in 0..100. -/
def Ship.hpInvariant (s : Ship) : Prop :=
  (s.alive = true ↔ 0 < s.hp) ∧ 0 ≤ s.hp ∧ s.hp ≤ 100

/-- The shape under which the factory builds: the requested one, or for `RANDOM` (the
`default:` branch) the one designated by the draw. -/
def resolvedShape (shape : AsteroidShape) (d : AsteroidDraw) : AsteroidShape :=
  match shape with
  | .RANDOM => AsteroidShape.ofInt (3 + (d.shapePick.val : Int))
  | sh => sh

/-- Base damage set by the subclass constructor of a resolved shape. -/
def shapeBaseDamage : AsteroidShape → Int
  | .TRIANGLE => 5
  | .SQUARE => 10
  | .PENTAGON => 15
  | .RANDOM => 0

/-- The projectile `p` is within hit distance of the asteroid `a`. -/
def hits (p : Projectile) (a : Asteroid) : Bool :=
  distanceLess p.GetPosition a.GetPosition (p.GetRadius + a.GetRadius)

/-- Number of projectiles pushed by one volley. -/
def pelletsPerVolley (wt : WeaponType) : Nat := if wt = WeaponType.SHOTGUN then 3 else 1

/-- Fire held over a sequence of ticks with the ship and the weapon fixed: the shooting block
is run once per tick duration, threading the shot timer and the projectile collection. -/
def holdFire (fuel : Nat) (player : Ship) (currentWeapon : WeaponType) :
    List ℚ → ℚ → List Projectile → Option (ℚ × List Projectile)
  | [], shotTimer, projectiles => some (shotTimer, projectiles)
  | dt :: dts, shotTimer, projectiles =>
    match shooting fuel player currentWeapon true dt shotTimer projectiles with
    | none => none
    | some res => holdFire fuel player currentWeapon dts res.1 res.2

/-- An asteroid as the factory builds them: a size tier among 1, 2, 4 and a resolved shape. -/
def Asteroid.wellFormed (a : Asteroid) : Prop :=
  (a.GetSize = 1 ∨ a.GetSize = 2 ∨ a.GetSize = 4) ∧ a.GetShape ≠ AsteroidShape.RANDOM

/-- The fire rates and spacings written by the `Ship` constructor. -/
def Ship.constructorRates (s : Ship) : Prop :=
  s.fireRateLaser = 7 ∧ s.fireRateBullet = 14 ∧ s.fireRateShotgun = 10 ∧
    s.spacingLaser = 80 ∧ s.spacingBullet = 60 ∧ s.spacingShotgun = 50

/-- The state in which `Application::Run` enters its frame loop: members at their initialisers,
a fresh ship, timers at zero, weapon Laser, and a drawn spawn interval. -/
def Application.initial (textureWidth : Int) (u : ℚ) : Application :=
  { player := PlayerShip C_WIDTH C_HEIGHT textureWidth
    spawnInterval := RandomFloat u C_SPAWN_MIN C_SPAWN_MAX }

/-- States reachable from the initial state by frames of non-negative duration
(`GetFrameTime` is an elapsed time) under any keys and any random outcomes. -/
inductive Reachable : Application → Prop where
  | initial (textureWidth : Int) (u : ℚ) : Reachable (Application.initial textureWidth u)
  | frame {app app1 : Application} (fuel : Nat) (inp : FrameInput) :
      Reachable app → 0 ≤ inp.dt → Application.frame fuel app inp = some app1 → Reachable app1

/-- What every frame preserves: asteroids as the factory builds them, a real weapon selected,
the fire rates of the constructor, and a non-negative shot timer. -/
def Application.invariant (app : Application) : Prop :=
  (∀ a ∈ app.asteroids, a.wellFormed) ∧ app.currentWeapon ≠ WeaponType.COUNT ∧
    app.player.constructorRates ∧ 0 ≤ app.shotTimer

/-- The state in which a frame enters the shooting block: timers advanced, ship moved, restart,
shape switch and weapon switch applied. -/
def Application.beforeShooting (app : Application) (inp : FrameInput) : Application :=
  Application.weaponSwitch (Application.shapeSwitch (Application.restart
    { app with
      spawnTimer := app.spawnTimer + inp.dt
      player := app.player.Update inp.dt inp } inp) inp) inp

/-- What can happen to the asteroids of one lineage: a run of the projectile-asteroid block with
some projectiles and split draws, a run of the asteroid-ship block (movement, culling, contact
with the ship), or a restart clearing the collection. -/
inductive LineageEvent where
  | shots (draws : Nat → AsteroidDraw) (ps : List Projectile)
  | contact (dt : ℚ) (player : Ship)
  | cleared

/-- The live asteroids of a lineage, the score awarded for it, the number of split children
created in it, and the number of its asteroids removed otherwise than by a projectile. -/
structure LineageState where
  asteroids : List Asteroid
  score : Int
  drawn : Nat
  lost : Nat

/-- One event applied to a lineage, through the collision blocks of the frame. -/
def lineageStep (st : LineageState) : LineageEvent → LineageState
  | .shots draws ps =>
    let res := projectileAsteroidCollisions draws ps ⟨st.asteroids, st.score, st.drawn⟩
    { st with asteroids := res.2.asteroids, score := res.2.score, drawn := res.2.drawn }
  | .contact dt player =>
    let res := asteroidShipCollisions Renderer.Instance dt player st.asteroids
    { st with asteroids := res.2, lost := st.lost + (st.asteroids.length - res.2.length) }
  | .cleared => { st with asteroids := [], lost := st.lost + st.asteroids.length }

/-- The lineage of the asteroid `a0` after a sequence of events, the score counted from 0. -/
def lineageRun (a0 : Asteroid) (events : List LineageEvent) : LineageState :=
  events.foldl lineageStep ⟨[a0], 0, 0, 0⟩

/-- Score still obtainable from an asteroid of a size tier: its own award and that of all its
possible descendants. -/
def scorePotential (size : Int) : Int :=
  if size = 1 then 5 else if size = 2 then 24 else if size = 4 then 76 else 0

/-- Number of descendants an asteroid of a size tier can still produce. -/
def descendantPotential (size : Int) : Nat :=
  if size = 1 then 0 else if size = 2 then 2 else if size = 4 then 6 else 0

/-- Total score potential of a collection. -/
def totalScorePotential (l : List Asteroid) : Int :=
  (l.map (fun a => scorePotential a.GetSize)).sum

/-- Total descendant potential of a collection. -/
def totalDescendantPotential (l : List Asteroid) : Nat :=
  (l.map (fun a => descendantPotential a.GetSize)).sum

/-- The accounts of a lineage started by an asteroid of tier `size0`: score awarded, potential
of the live asteroids and potential lost with the removed ones never exceed the initial
potential, with equality of score plus live potential as long as nothing was removed; children
created and children still possible never exceed the initial number of possible descendants. -/
def LineageState.accounted (size0 : Int) (st : LineageState) : Prop :=
  (∀ a ∈ st.asteroids, a.wellFormed) ∧
    st.score + totalScorePotential st.asteroids + 5 * (st.lost : Int) ≤ scorePotential size0 ∧
    (st.lost = 0 → st.score + totalScorePotential st.asteroids = scorePotential size0) ∧
    st.drawn + totalDescendantPotential st.asteroids ≤ descendantPotential size0

/-- A projectile flying straight up or down: no horizontal velocity. -/
def straightUp (p : Projectile) : Bool := decide (p.physics.velocity.x = 0)

/-- The shooting block with fire held followed by the projectile update block: what one frame
does to the shot timer and to the projectiles when the ship and the weapon do not change and
no projectile meets an asteroid. -/
def fireTick (fuel : Nat) (r : Renderer) (player : Ship) (currentWeapon : WeaponType) (dt : ℚ)
    (st : ℚ × List Projectile) : Option (ℚ × List Projectile) :=
  match shooting fuel player currentWeapon true dt st.1 st.2 with
  | none => none
  | some res => some (res.1, updateProjectiles r dt res.2)

/-- A number of successive frames of the same duration with fire held. -/
def fireRun (fuel : Nat) (r : Renderer) (player : Ship) (currentWeapon : WeaponType) (dt : ℚ) :
    Nat → ℚ × List Projectile → Option (ℚ × List Projectile)
  | 0, st => some st
  | n + 1, st =>
    match fireTick fuel r player currentWeapon dt st with
    | none => none
    | some st1 => fireRun fuel r player currentWeapon dt n st1

/-- Two projectiles of the column of straight-up shots of velocity `(0, -v)` at abscissa `xc`,
the second `s` below the first. -/
def spacedBy (s v xc : ℚ) (p q : Projectile) : Prop :=
  q.transform.position.y = p.transform.position.y + s ∧
    p.physics.velocity = ⟨0, -v⟩ ∧ q.physics.velocity = ⟨0, -v⟩ ∧
    p.transform.position.x = xc ∧ q.transform.position.x = xc

/-- State of a run with fire held, `k` ticks after the last volley (or after the start): the
timer is `tau + k * dt`, and the straight-up shots form a column of shots `spacing` apart at
velocity `(0, -(spacing * rate))`, the last one `(k + 1)` moves above the muzzle, which a shot
can only leave inside the playfield. -/
def columnInvariant (r : Renderer) (player : Ship) (wt : WeaponType) (spacing rate dt tau : ℚ)
    (k : Nat) (st : ℚ × List Projectile) : Prop :=
  st.1 = tau + (k : ℚ) * dt ∧
    List.Chain' (spacedBy spacing (spacing * rate)
      (if wt = WeaponType.SHOTGUN then player.GetPosition.x + 20 else player.GetPosition.x))
      (st.2.filter straightUp) ∧
    (∀ p ∈ st.2.filter straightUp, p.physics.velocity = ⟨0, -(spacing * rate)⟩ ∧
      p.transform.position.x =
        (if wt = WeaponType.SHOTGUN then player.GetPosition.x + 20 else player.GetPosition.x)) ∧
    (∀ L ∈ (st.2.filter straightUp).getLast?,
      L.transform.position.y =
        player.GetPosition.y - player.GetRadius - ((k : ℚ) + 1) * (spacing * rate * dt)) ∧
    (st.2.filter straightUp ≠ [] →
      player.GetPosition.y - player.GetRadius - spacing * rate * dt ≤ (r.screenH : ℚ))

/-! ## Sample inputs used to instantiate the theorems -/

/-- A draw: medium size, top edge, a slow diagonal velocity. -/
def sampleDraw : AsteroidDraw :=
  { shapePick := 1, sizePick := 1, edgePick := 0, edgeU := 1 / 2, velocity := ⟨3, 4⟩,
    rotSpeedU := 0, rotationU := 0 }

/-- The ship of a fresh run with a texture 200 pixels wide (radius 25). -/
def sampleShip : Ship := PlayerShip C_WIDTH C_HEIGHT 200

/-- A laser shot at (100, 100). -/
def sampleLaser : Projectile := Projectile.new ⟨100, 100⟩ ⟨0, -560⟩ 200 .LASER

/-- A small triangle far from the shot. -/
def sampleFar : Asteroid :=
  { shape := .TRIANGLE, transform := { position := ⟨500, 500⟩ }, render := { size := 1 },
    baseDamage := 5, starting_asteroid_hp := 100, current_asteroid_hp := 100 }

/-- A medium triangle within hit distance of the shot, destroyed by one laser hit. -/
def sampleNear : Asteroid :=
  { shape := .TRIANGLE, transform := { position := ⟨100, 110⟩ }, render := { size := 2 },
    baseDamage := 5, starting_asteroid_hp := 200, current_asteroid_hp := 200 }

/-- A large square within hit distance of the shot, surviving one laser hit. -/
def sampleBig : Asteroid :=
  { shape := .SQUARE, transform := { position := ⟨110, 100⟩ }, render := { size := 4 },
    baseDamage := 10, starting_asteroid_hp := 600, current_asteroid_hp := 600 }

/-- An asteroid of tier 2 drifting down and out of the playfield, used to instantiate C8. -/
def sampleLeaving : Asteroid :=
  { shape := .SQUARE, transform := { position := ⟨700, 831⟩ }, physics := { velocity := ⟨0, 0⟩ },
    render := { size := 2 }, baseDamage := 10, starting_asteroid_hp := 300,
    current_asteroid_hp := 300 }

/-- A pentagon of tier 2 touching the sample ship. -/
def samplePentagon : Asteroid :=
  MakeAsteroid C_WIDTH C_HEIGHT .PENTAGON true ⟨700, 420⟩ 4 sampleDraw

/-- A frame of 1/64 s with no key held. -/
def sampleFrame : FrameInput :=
  { dt := 1 / 64, textureWidth := 200, restartU := 0, spawnDraw := sampleDraw, spawnU := 0,
    splitDraws := fun _ => sampleDraw }

/-- A state with the sample ship, two asteroids and a score of 33. -/
def sampleApp : Application :=
  { player := sampleShip, spawnInterval := 1, score := 33,
    asteroids := [] ++ samplePentagon :: [sampleFar] }

/-- A state in which the ship has been destroyed, with a score and live entities left over. -/
def sampleDead : Application :=
  { player := { sampleShip with hp := 0, alive := false }, spawnInterval := 1, spawnTimer := 2,
    score := 33, asteroids := [sampleFar, sampleNear], projectiles := [sampleLaser] }

/-- The sample frame with the restart key pressed. -/
def sampleRestartFrame : FrameInput := { sampleFrame with keyR := true }

/-- A split child of a large triangle (tier 2, 400 starting hit points), after a laser hit that
left it 200 hit points. -/
def sampleChild : Asteroid :=
  (MakeAsteroid C_WIDTH C_HEIGHT .TRIANGLE true ⟨100, 110⟩ 4 sampleDraw).TakeDamage 200

/-- A fresh medium triangle, spawned on the top edge at (700, -32) with 200 hit points. -/
def sampleSpawn : Asteroid := MakeAsteroid C_WIDTH C_HEIGHT .TRIANGLE false ⟨0, 0⟩ 0 sampleDraw

/-- A laser shot within hit distance of the fresh triangle. -/
def sampleShot : Projectile := Projectile.new ⟨700, -30⟩ ⟨0, -560⟩ 200 .LASER

/-! ## Hit-point invariants -/

theorem asteroid_TakeDamage_hpInvariant (a : Asteroid) (dmg : Int) (hd : 0 ≤ dmg)
    (h : a.hpInvariant) : (a.TakeDamage dmg).hpInvariant := by
  obtain ⟨hle, hiff⟩ := h
  have hq : (0 : ℚ) ≤ (dmg : ℚ) := by exact_mod_cast hd
  unfold Asteroid.TakeDamage
  by_cases hc : a.crashed = true
  · simp only [hc, if_true]
    exact ⟨hle, hiff⟩
  · simp only [hc]
    by_cases hz : a.current_asteroid_hp - (dmg : ℚ) ≤ 0
    · simp only [hz, if_true, Bool.false_eq_true, if_false]
      refine ⟨by dsimp only; linarith, ?_⟩
      simp [hz]
    · simp only [hz, if_false, Bool.false_eq_true]
      refine ⟨by dsimp only; linarith, ?_⟩
      simp [hc, hz]

theorem asteroid_foldl_TakeDamage_hpInvariant (dmgs : List Int) (hd : ∀ x ∈ dmgs, 0 ≤ x) :
    ∀ a : Asteroid, a.hpInvariant → (dmgs.foldl Asteroid.TakeDamage a).hpInvariant := by
  induction dmgs with
  | nil => intro a h; simpa using h
  | cons x xs ih =>
    intro a h
    simp only [List.foldl_cons]
    exact ih (fun y hy => hd y (List.mem_cons_of_mem _ hy)) _
      (asteroid_TakeDamage_hpInvariant a x (hd x (List.mem_cons_self _ _)) h)

/-- Hit-point factors are positive. -/
theorem hpFactor_pos (shape : AsteroidShape) : 0 < Asteroid.hpFactor shape := by
  cases shape <;> decide

theorem asteroid_init_hpInvariant (w h : Int) (split : Bool) (pos : Vector2) (split_size : Int)
    (shape : AsteroidShape) (d : AsteroidDraw) (hs : split = true → 0 < split_size) :
    (Asteroid.init w h split pos split_size shape d).hpInvariant := by
  have hf := hpFactor_pos shape
  have hpos : (0 : Int) < (if (!split) = true then Asteroid.hpFactor shape *
      (if (!split) = true then 2 ^ d.sizePick.val else Int.tdiv split_size 2)
      else Asteroid.hpFactor shape * split_size) := by
    cases split with
    | false => simp only [Bool.not_false, if_true]; positivity
    | true =>
      simp only [Bool.not_true, Bool.false_eq_true, if_false]
      exact Int.mul_pos hf (hs rfl)
  have hq : ¬ (((if (!split) = true then Asteroid.hpFactor shape *
      (if (!split) = true then 2 ^ d.sizePick.val else Int.tdiv split_size 2)
      else Asteroid.hpFactor shape * split_size : Int) : ℚ) ≤ 0) := by
    push_neg
    exact_mod_cast hpos
  unfold Asteroid.hpInvariant Asteroid.init
  refine ⟨le_refl _, ?_⟩
  simp only [Bool.false_eq_true, false_iff]
  exact hq

/-- The factory returns the asteroid of the base constructor up to the shape resolution and
the `baseDamage` field, so the hit points and the flag are those of `init`. -/
theorem MakeAsteroid_hpInvariant (w h : Int) (shape : AsteroidShape) (split : Bool)
    (pos : Vector2) (split_size : Int) (d : AsteroidDraw) (hs : split = true → 0 < split_size) :
    (MakeAsteroid w h shape split pos split_size d).hpInvariant := by
  have key : ∀ sh : AsteroidShape, sh ≠ AsteroidShape.RANDOM →
      (MakeAsteroid w h sh split pos split_size d).hpInvariant := by
    intro sh hne
    have hi := asteroid_init_hpInvariant w h split pos split_size sh d hs
    cases sh with
    | TRIANGLE => rw [MakeAsteroid]; exact hi
    | SQUARE => rw [MakeAsteroid]; exact hi
    | PENTAGON => rw [MakeAsteroid]; exact hi
    | RANDOM => exact absurd rfl hne
  cases shape with
  | TRIANGLE => exact key _ (by decide)
  | SQUARE => exact key _ (by decide)
  | PENTAGON => exact key _ (by decide)
  | RANDOM =>
    rw [MakeAsteroid]
    apply key
    have h3 : d.shapePick.val < 3 := d.shapePick.isLt
    unfold AsteroidShape.ofInt
    interval_cases d.shapePick.val <;> simp

theorem ship_TakeDamage_hpInvariant (s : Ship) (dmg : Int) (hd : 0 ≤ dmg) (h : s.hpInvariant) :
    (s.TakeDamage dmg).hpInvariant := by
  obtain ⟨hiff, h0, h100⟩ := h
  unfold Ship.TakeDamage
  by_cases ha : s.alive = true
  · simp only [ha, Bool.not_true, Bool.false_eq_true, if_false]
    by_cases hz : s.hp - dmg ≤ 0
    · simp only [hz, if_true]
      refine ⟨?_, ?_, ?_⟩ <;> simp
    · simp only [hz, if_false]
      refine ⟨?_, ?_, ?_⟩
      · simp only [ha, true_iff]; omega
      · dsimp only; omega
      · dsimp only; omega
  · have hf : s.alive = false := by simpa using ha
    simp only [hf, Bool.not_false, if_true]
    exact ⟨hiff, h0, h100⟩

theorem ship_foldl_TakeDamage_hpInvariant (dmgs : List Int) (hd : ∀ x ∈ dmgs, 0 ≤ x) :
    ∀ s : Ship, s.hpInvariant → (dmgs.foldl Ship.TakeDamage s).hpInvariant := by
  induction dmgs with
  | nil => intro s h; simpa using h
  | cons x xs ih =>
    intro s h
    simp only [List.foldl_cons]
    exact ih (fun y hy => hd y (List.mem_cons_of_mem _ hy)) _
      (ship_TakeDamage_hpInvariant s x (hd x (List.mem_cons_self _ _)) h)

theorem PlayerShip_hpInvariant (w h tw : Int) : (PlayerShip w h tw).hpInvariant := by
  unfold Ship.hpInvariant PlayerShip
  simp

/-- C3: for every asteroid built by the constructor (through the factory or directly, as a fresh
spawn of any shape or as a split child of a parent of tier 2 or 4) and every sequence of
`TakeDamage` calls with non-negative damage, after every call (every prefix of the sequence) the
current hit points are at most the starting hit points and the asteroid is crashed exactly when
its current hit points are at most zero. -/
theorem C3_asteroid_hp_invariant (w h : Int) (shape : AsteroidShape) (split : Bool)
    (pos : Vector2) (split_size : Int) (d : AsteroidDraw) (dmgs : List Int) (n : Nat)
    (hsplit : split = true → split_size = 2 ∨ split_size = 4)
    (hd : ∀ x ∈ dmgs, 0 ≤ x) (a0 : Asteroid)
    (ha0 : a0 = MakeAsteroid w h shape split pos split_size d ∨
      a0 = Asteroid.init w h split pos split_size shape d) :
    ((dmgs.take n).foldl Asteroid.TakeDamage a0).current_asteroid_hp ≤
        ((dmgs.take n).foldl Asteroid.TakeDamage a0).starting_asteroid_hp ∧
      (((dmgs.take n).foldl Asteroid.TakeDamage a0).crashed = true ↔
        ((dmgs.take n).foldl Asteroid.TakeDamage a0).current_asteroid_hp ≤ 0) := by
  have hs : split = true → 0 < split_size := by
    intro ht
    rcases hsplit ht with h2 | h4 <;> omega
  have hinit : a0.hpInvariant := by
    rcases ha0 with rfl | rfl
    · exact MakeAsteroid_hpInvariant w h shape split pos split_size d hs
    · exact asteroid_init_hpInvariant w h split pos split_size shape d hs
  exact asteroid_foldl_TakeDamage_hpInvariant (dmgs.take n)
    (fun x hx => hd x (List.mem_of_mem_take hx)) a0 hinit

theorem C3_asteroid_hp_invariant_witness :
    ((true = true → (4 : Int) = 2 ∨ (4 : Int) = 4) ∧ (∀ x ∈ [(200 : Int), 10, 500], 0 ≤ x)) ∧
    (((([(200 : Int), 10, 500].take 2).foldl Asteroid.TakeDamage
        (MakeAsteroid 1400 800 .SQUARE true ⟨100, 100⟩ 4 sampleDraw)).current_asteroid_hp ≤
      (([(200 : Int), 10, 500].take 2).foldl Asteroid.TakeDamage
        (MakeAsteroid 1400 800 .SQUARE true ⟨100, 100⟩ 4 sampleDraw)).starting_asteroid_hp) ∧
     ((([(200 : Int), 10, 500].take 2).foldl Asteroid.TakeDamage
        (MakeAsteroid 1400 800 .SQUARE true ⟨100, 100⟩ 4 sampleDraw)).crashed = true ↔
      (([(200 : Int), 10, 500].take 2).foldl Asteroid.TakeDamage
        (MakeAsteroid 1400 800 .SQUARE true ⟨100, 100⟩ 4 sampleDraw)).current_asteroid_hp ≤ 0)) :=
  ⟨⟨fun _ => Or.inr rfl, by decide⟩,
    C3_asteroid_hp_invariant 1400 800 .SQUARE true ⟨100, 100⟩ 4 sampleDraw [200, 10, 500] 2
      (fun _ => Or.inr rfl) (by decide) _ (Or.inl rfl)⟩

/-- C4: for every ship built by the constructor and every sequence of `TakeDamage` calls with
non-negative damage, after every call (every prefix of the sequence) the ship is alive exactly
when its hit points are positive, and the hit points lie between 0 and 100. -/
theorem C4_ship_hp_invariant (w h tw : Int) (dmgs : List Int) (n : Nat)
    (hd : ∀ x ∈ dmgs, 0 ≤ x) :
    (((dmgs.take n).foldl Ship.TakeDamage (PlayerShip w h tw)).alive = true ↔
        0 < ((dmgs.take n).foldl Ship.TakeDamage (PlayerShip w h tw)).hp) ∧
      0 ≤ ((dmgs.take n).foldl Ship.TakeDamage (PlayerShip w h tw)).hp ∧
      ((dmgs.take n).foldl Ship.TakeDamage (PlayerShip w h tw)).hp ≤ 100 :=
  ship_foldl_TakeDamage_hpInvariant (dmgs.take n)
    (fun x hx => hd x (List.mem_of_mem_take hx)) _ (PlayerShip_hpInvariant w h tw)

theorem C4_ship_hp_invariant_witness :
    (∀ x ∈ [(30 : Int), 60, 45, 5], 0 ≤ x) ∧
    (((([(30 : Int), 60, 45, 5].take 3).foldl Ship.TakeDamage (PlayerShip 1400 800 200)).alive = true ↔
        0 < (([(30 : Int), 60, 45, 5].take 3).foldl Ship.TakeDamage (PlayerShip 1400 800 200)).hp) ∧
      0 ≤ (([(30 : Int), 60, 45, 5].take 3).foldl Ship.TakeDamage (PlayerShip 1400 800 200)).hp ∧
      (([(30 : Int), 60, 45, 5].take 3).foldl Ship.TakeDamage (PlayerShip 1400 800 200)).hp ≤ 100) :=
  ⟨by decide, C4_ship_hp_invariant 1400 800 200 [30, 60, 45, 5] 3 (by decide)⟩

/-! ## Bounds culling -/

/-- The square-free distance test agrees with the test on the real square root. -/
theorem distanceLess_iff_sqrt (a b : Vector2) (r : ℚ) :
    distanceLess a b r = true ↔ Real.sqrt ((Vector2DistanceSqr a b : ℚ) : ℝ) < (r : ℝ) := by
  unfold distanceLess
  simp only [Bool.and_eq_true, decide_eq_true_eq]
  constructor
  · rintro ⟨hr, hd⟩
    have hr1 : (0 : ℝ) < (r : ℝ) := by exact_mod_cast hr
    rw [Real.sqrt_lt' hr1]
    have : ((Vector2DistanceSqr a b : ℚ) : ℝ) < ((r * r : ℚ) : ℝ) := by exact_mod_cast hd
    simpa [pow_two] using this
  · intro h
    have hr1 : (0 : ℝ) < (r : ℝ) := lt_of_le_of_lt (Real.sqrt_nonneg _) h
    have hr : 0 < r := by exact_mod_cast hr1
    refine ⟨hr, ?_⟩
    rw [Real.sqrt_lt' hr1] at h
    have : ((Vector2DistanceSqr a b : ℚ) : ℝ) < ((r * r : ℚ) : ℝ) := by
      simpa [pow_two] using h
    exact_mod_cast this

theorem updateProjectiles_append (r : Renderer) (dt : ℚ) (ps qs : List Projectile) :
    updateProjectiles r dt (ps ++ qs) = updateProjectiles r dt ps ++ updateProjectiles r dt qs := by
  induction ps with
  | nil => rfl
  | cons p ps ih =>
    simp only [List.cons_append, updateProjectiles]
    split <;> simp [ih]

/-- The flag returned by `Projectile::Update` in terms of the position after the move. -/
theorem projectile_Update_flag (r : Renderer) (p : Projectile) (dt : ℚ) :
    (p.Update r dt).2 = true ↔
      (p.transform.position.x + p.physics.velocity.x * dt < 0 ∨
        p.transform.position.x + p.physics.velocity.x * dt > (r.screenW : ℚ) ∨
        p.transform.position.y + p.physics.velocity.y * dt < 0 ∨
        p.transform.position.y + p.physics.velocity.y * dt > (r.screenH : ℚ)) := by
  unfold Projectile.Update Vector2Add Vector2Scale
  dsimp only
  split <;> simp_all

/-- C7, as stated, fails: a laser shot created at `y = height + 1` (by a ship that has flown
below the playfield) moves up by 8.75 px in a frame of 1/64 s, ends inside the playfield, is
reported in bounds and stays in the collection. -/
theorem C7_counterexample :
    (Projectile.new ⟨700, 801⟩ ⟨0, -560⟩ 200 .LASER).transform.position.y
        = ((Renderer.mk 1400 800).screenH : ℚ) + 1 ∧
      (0 : ℚ) ≤ 1 / 64 ∧
      ((Projectile.new ⟨700, 801⟩ ⟨0, -560⟩ 200 .LASER).Update ⟨1400, 800⟩ (1 / 64)).2 = false ∧
      updateProjectiles ⟨1400, 800⟩ (1 / 64) [Projectile.new ⟨700, 801⟩ ⟨0, -560⟩ 200 .LASER]
        = [Projectile.new ⟨700, 3169 / 4⟩ ⟨0, -560⟩ 200 .LASER] := by
  have hflag : ((Projectile.new ⟨700, 801⟩ ⟨0, -560⟩ 200 .LASER).Update ⟨1400, 800⟩ (1 / 64)).2
      = false := by
    rw [← Bool.not_eq_true, projectile_Update_flag]
    norm_num [Projectile.new]
  refine ⟨by norm_num [Projectile.new], by norm_num, hflag, ?_⟩
  simp only [updateProjectiles, hflag, Bool.false_eq_true, if_false]
  norm_num [Projectile.Update, Projectile.new, Vector2Add, Vector2Scale]

/-- C7 (amended): a projectile whose position at the start of the update has `y = height + 1`
is reported off-bounds and erased from the collection for every tick duration `dt ≥ 0` and every
velocity whose vertical displacement `velocity.y * dt` is greater than `-1` (in particular every
velocity that does not point up); the others of the collection are treated as without it. -/
theorem C7_projectile_culling (r : Renderer) (p : Projectile) (dt : ℚ)
    (hy : p.transform.position.y = (r.screenH : ℚ) + 1) (_hdt : 0 ≤ dt)
    (hv : -1 < p.physics.velocity.y * dt) :
    (p.Update r dt).2 = true ∧
      ∀ pre post : List Projectile,
        updateProjectiles r dt (pre ++ p :: post) =
          updateProjectiles r dt pre ++ updateProjectiles r dt post := by
  have hflag : (p.Update r dt).2 = true := by
    rw [projectile_Update_flag]
    right; right; right
    rw [hy]; linarith
  refine ⟨hflag, fun pre post => ?_⟩
  rw [updateProjectiles_append]
  simp [updateProjectiles, hflag]

theorem C7_projectile_culling_witness :
    ((Projectile.new ⟨700, 801⟩ ⟨0, 560⟩ 200 .LASER).transform.position.y
        = ((Renderer.mk 1400 800).screenH : ℚ) + 1 ∧ (0 : ℚ) ≤ 1 / 64 ∧
      (-1 : ℚ) < (Projectile.new ⟨700, 801⟩ ⟨0, 560⟩ 200 .LASER).physics.velocity.y * (1 / 64)) ∧
    (((Projectile.new ⟨700, 801⟩ ⟨0, 560⟩ 200 .LASER).Update ⟨1400, 800⟩ (1 / 64)).2 = true ∧
      ∀ pre post : List Projectile,
        updateProjectiles ⟨1400, 800⟩ (1 / 64)
            (pre ++ Projectile.new ⟨700, 801⟩ ⟨0, 560⟩ 200 .LASER :: post) =
          updateProjectiles ⟨1400, 800⟩ (1 / 64) pre ++
            updateProjectiles ⟨1400, 800⟩ (1 / 64) post) :=
  ⟨⟨by norm_num [Projectile.new], by norm_num, by norm_num [Projectile.new]⟩,
    C7_projectile_culling ⟨1400, 800⟩ (Projectile.new ⟨700, 801⟩ ⟨0, 560⟩ 200 .LASER) (1 / 64)
      (by norm_num [Projectile.new]) (by norm_num) (by norm_num [Projectile.new])⟩

/-- The flag returned by `Asteroid::Update` in terms of the position after the move. -/
theorem asteroid_Update_flag (r : Renderer) (a : Asteroid) (dt : ℚ) :
    (a.Update r dt).2 = false ↔
      (a.transform.position.x + a.physics.velocity.x * dt < -(16 * (a.render.size : ℚ)) ∨
        a.transform.position.x + a.physics.velocity.x * dt
          > (r.screenW : ℚ) + 16 * (a.render.size : ℚ) ∨
        a.transform.position.y + a.physics.velocity.y * dt < -(16 * (a.render.size : ℚ)) ∨
        a.transform.position.y + a.physics.velocity.y * dt
          > (r.screenH : ℚ) + 16 * (a.render.size : ℚ)) := by
  unfold Asteroid.Update Vector2Add Vector2Scale Asteroid.GetRadius
  dsimp only
  split <;> simp_all

/-- C8: with `rad = 16 * size` and `q` the position after integrating `velocity * dt`,
`Asteroid::Update` returns false exactly when `q` lies outside the rectangle
`[-rad, width + rad] x [-rad, height + rad]`; in particular it returns false when
`q.y = height + rad + 1`, and returns true when `q.y = height + rad - 1` with `q.x` inside
`[-rad, width + rad]` (for a playfield of non-negative height and a size tier of at least 1). -/
theorem C8_asteroid_culling (r : Renderer) (a : Asteroid) (dt : ℚ) :
    ((a.Update r dt).2 = false ↔
        ¬ (-(16 * (a.render.size : ℚ)) ≤ a.transform.position.x + a.physics.velocity.x * dt ∧
          a.transform.position.x + a.physics.velocity.x * dt
            ≤ (r.screenW : ℚ) + 16 * (a.render.size : ℚ) ∧
          -(16 * (a.render.size : ℚ)) ≤ a.transform.position.y + a.physics.velocity.y * dt ∧
          a.transform.position.y + a.physics.velocity.y * dt
            ≤ (r.screenH : ℚ) + 16 * (a.render.size : ℚ))) ∧
      (a.Update r dt).1.transform.position =
        ⟨a.transform.position.x + a.physics.velocity.x * dt,
          a.transform.position.y + a.physics.velocity.y * dt⟩ ∧
      (a.Update r dt).1.GetRadius = 16 * (a.render.size : ℚ) ∧
      (a.transform.position.y + a.physics.velocity.y * dt
          = (r.screenH : ℚ) + 16 * (a.render.size : ℚ) + 1 → (a.Update r dt).2 = false) ∧
      (0 ≤ r.screenH → 1 ≤ a.render.size →
        a.transform.position.y + a.physics.velocity.y * dt
          = (r.screenH : ℚ) + 16 * (a.render.size : ℚ) - 1 →
        -(16 * (a.render.size : ℚ)) ≤ a.transform.position.x + a.physics.velocity.x * dt →
        a.transform.position.x + a.physics.velocity.x * dt
          ≤ (r.screenW : ℚ) + 16 * (a.render.size : ℚ) →
        (a.Update r dt).2 = true) := by
  refine ⟨?_, ?_, ?_, ?_, ?_⟩
  · rw [asteroid_Update_flag]
    constructor
    · rintro (h | h | h | h) ⟨h1, h2, h3, h4⟩ <;> linarith
    · intro h
      by_contra hcon
      push_neg at hcon
      exact h ⟨hcon.1, hcon.2.1, hcon.2.2.1, hcon.2.2.2⟩
  · unfold Asteroid.Update Vector2Add Vector2Scale
    dsimp only
    split <;> rfl
  · unfold Asteroid.Update Asteroid.GetRadius
    dsimp only
    split <;> rfl
  · intro hy
    rw [asteroid_Update_flag]
    right; right; right
    rw [hy]; linarith
  · intro hH hs hy hx1 hx2
    rw [← Bool.not_eq_false, asteroid_Update_flag]
    have hHq : (0 : ℚ) ≤ (r.screenH : ℚ) := by exact_mod_cast hH
    have hsq : (1 : ℚ) ≤ (a.render.size : ℚ) := by exact_mod_cast hs
    rintro (h | h | h | h) <;> linarith

theorem C8_asteroid_culling_witness :
    (sampleLeaving.Update ⟨1400, 800⟩ (1 / 64)).2 = true ∧
      ((sampleLeaving.Update ⟨1400, 800⟩ (1 / 64)).2 = false ↔
        ¬ (-(16 * (sampleLeaving.render.size : ℚ)) ≤
              sampleLeaving.transform.position.x + sampleLeaving.physics.velocity.x * (1 / 64) ∧
          sampleLeaving.transform.position.x + sampleLeaving.physics.velocity.x * (1 / 64)
            ≤ ((Renderer.mk 1400 800).screenW : ℚ) + 16 * (sampleLeaving.render.size : ℚ) ∧
          -(16 * (sampleLeaving.render.size : ℚ)) ≤
              sampleLeaving.transform.position.y + sampleLeaving.physics.velocity.y * (1 / 64) ∧
          sampleLeaving.transform.position.y + sampleLeaving.physics.velocity.y * (1 / 64)
            ≤ ((Renderer.mk 1400 800).screenH : ℚ) + 16 * (sampleLeaving.render.size : ℚ))) :=
  ⟨(C8_asteroid_culling ⟨1400, 800⟩ sampleLeaving (1 / 64)).2.2.2.2 (by decide) (by decide)
      (by norm_num [sampleLeaving]) (by norm_num [sampleLeaving]) (by norm_num [sampleLeaving]),
    (C8_asteroid_culling ⟨1400, 800⟩ sampleLeaving (1 / 64)).1⟩

/-! ## The factory -/

theorem resolvedShape_ne_RANDOM (shape : AsteroidShape) (d : AsteroidDraw) :
    resolvedShape shape d ≠ AsteroidShape.RANDOM := by
  have h3 : d.shapePick.val < 3 := d.shapePick.isLt
  cases shape <;> simp only [resolvedShape, ne_eq, reduceCtorEq, not_false_eq_true]
  unfold AsteroidShape.ofInt
  interval_cases d.shapePick.val <;> simp

/-- The factory returns the base-constructor asteroid of the resolved shape with the base damage
of that shape. -/
theorem MakeAsteroid_eq (w h : Int) (shape : AsteroidShape) (split : Bool) (pos : Vector2)
    (split_size : Int) (d : AsteroidDraw) :
    MakeAsteroid w h shape split pos split_size d =
      { Asteroid.init w h split pos split_size (resolvedShape shape d) d with
        baseDamage := shapeBaseDamage (resolvedShape shape d) } := by
  have key : ∀ sh : AsteroidShape, sh ≠ AsteroidShape.RANDOM →
      MakeAsteroid w h sh split pos split_size d =
        { Asteroid.init w h split pos split_size sh d with baseDamage := shapeBaseDamage sh } := by
    intro sh hne
    cases sh with
    | TRIANGLE => rw [MakeAsteroid]; rfl
    | SQUARE => rw [MakeAsteroid]; rfl
    | PENTAGON => rw [MakeAsteroid]; rfl
    | RANDOM => exact absurd rfl hne
  cases shape with
  | TRIANGLE => exact key _ (by decide)
  | SQUARE => exact key _ (by decide)
  | PENTAGON => exact key _ (by decide)
  | RANDOM =>
    rw [MakeAsteroid]
    exact key _ (resolvedShape_ne_RANDOM .RANDOM d)

theorem MakeAsteroid_split_size (w h : Int) (shape : AsteroidShape) (pos : Vector2)
    (split_size : Int) (d : AsteroidDraw) :
    (MakeAsteroid w h shape true pos split_size d).GetSize = Int.tdiv split_size 2 := by
  rw [MakeAsteroid_eq]
  simp [Asteroid.GetSize, Asteroid.init]

theorem MakeAsteroid_split_position (w h : Int) (shape : AsteroidShape) (pos : Vector2)
    (split_size : Int) (d : AsteroidDraw) :
    (MakeAsteroid w h shape true pos split_size d).GetPosition = pos := by
  rw [MakeAsteroid_eq]
  simp [Asteroid.GetPosition, Asteroid.init]

/-! ## Projectile-asteroid collisions -/

/-- `TakeDamage` changes neither size, position nor shape. -/
theorem TakeDamage_fields (a : Asteroid) (dmg : Int) :
    (a.TakeDamage dmg).GetSize = a.GetSize ∧ (a.TakeDamage dmg).GetPosition = a.GetPosition ∧
      (a.TakeDamage dmg).GetShape = a.GetShape := by
  unfold Asteroid.TakeDamage Asteroid.GetSize Asteroid.GetPosition Asteroid.GetShape
  split
  · exact ⟨rfl, rfl, rfl⟩
  · dsimp only
    split <;> exact ⟨rfl, rfl, rfl⟩

/-- Asteroids out of hit distance are passed over by the scan. -/
theorem scanAsteroids_skip (draws : Nat → AsteroidDraw) (p : Projectile) (score : Int)
    (drawn : Nat) (pre : List Asteroid) (hmiss : ∀ b ∈ pre, hits p b = false) :
    ∀ (acc tail : List Asteroid),
      scanAsteroids draws p score drawn acc (pre ++ tail) =
        scanAsteroids draws p score drawn (acc ++ pre) tail := by
  induction pre with
  | nil => intro acc tail; simp
  | cons b bs ih =>
    intro acc tail
    have hb : hits p b = false := hmiss b (List.mem_cons_self _ _)
    unfold hits at hb
    rw [List.cons_append, scanAsteroids]
    simp only [hb, Bool.false_eq_true, if_false]
    rw [ih (fun c hc => hmiss c (List.mem_cons_of_mem _ hc))]
    simp

/-- The scan ends without a hit exactly when no asteroid is within hit distance. -/
theorem scanAsteroids_none_iff (draws : Nat → AsteroidDraw) (p : Projectile) (score : Int)
    (drawn : Nat) (l : List Asteroid) :
    ∀ acc : List Asteroid,
      scanAsteroids draws p score drawn acc l = none ↔ ∀ b ∈ l, hits p b = false := by
  induction l with
  | nil => intro acc; simp [scanAsteroids]
  | cons b bs ih =>
    intro acc
    rw [scanAsteroids]
    by_cases hb : hits p b = true
    · have hb1 := hb
      unfold hits at hb1
      simp only [hb1, if_true]
      constructor
      · intro h
        exfalso
        split at h
        · split at h <;> simp at h
        · simp at h
      · intro h
        have := h b (List.mem_cons_self _ _)
        rw [hb] at this
        exact absurd this (by decide)
    · have hb0 : hits p b = false := by simpa using hb
      have hb1 := hb0
      unfold hits at hb1
      simp only [hb1, Bool.false_eq_true, if_false]
      rw [ih]
      simp [hb0]

/-- Outcome of the scan when `a` is the first asteroid within hit distance. -/
theorem scanAsteroids_first_hit (draws : Nat → AsteroidDraw) (p : Projectile) (score : Int)
    (drawn : Nat) (pre : List Asteroid) (a : Asteroid) (rest : List Asteroid)
    (hmiss : ∀ b ∈ pre, hits p b = false) (hhit : hits p a = true) :
    scanAsteroids draws p score drawn [] (pre ++ a :: rest) =
      if (a.TakeDamage p.GetDamage).IsCrashed then
        if (a.TakeDamage p.GetDamage).GetSize > 1 then
          some ⟨pre ++ rest ++
              [MakeAsteroid C_WIDTH C_HEIGHT (a.TakeDamage p.GetDamage).GetShape true
                  (a.TakeDamage p.GetDamage).GetPosition (a.TakeDamage p.GetDamage).GetSize
                  (draws drawn),
                MakeAsteroid C_WIDTH C_HEIGHT (a.TakeDamage p.GetDamage).GetShape true
                  (a.TakeDamage p.GetDamage).GetPosition (a.TakeDamage p.GetDamage).GetSize
                  (draws (drawn + 1))],
            score + (a.TakeDamage p.GetDamage).GetSize * 5
              + (a.TakeDamage p.GetDamage).GetSize * 2, drawn + 2⟩
        else some ⟨pre ++ rest, score + (a.TakeDamage p.GetDamage).GetSize * 5, drawn⟩
      else some ⟨pre ++ (a.TakeDamage p.GetDamage) :: rest, score, drawn⟩ := by
  rw [scanAsteroids_skip draws p score drawn pre hmiss [] (a :: rest)]
  unfold hits at hhit
  rw [scanAsteroids]
  simp only [hhit, if_true, List.nil_append]

/-- Radius of a projectile by weapon. -/
theorem projectile_GetRadius_new (pos vel : Vector2) (dmg : Int) (wt : WeaponType) :
    (Projectile.new pos vel dmg wt).GetRadius = if wt = WeaponType.BULLET then 5 else 2 := rfl

theorem sampleFar_miss : ∀ b ∈ [sampleFar], hits sampleLaser b = false := by
  intro b hb
  rw [List.mem_singleton] at hb
  subst hb
  have hr : sampleLaser.GetRadius = 2 := rfl
  rw [hits, hr]
  norm_num [distanceLess, Vector2DistanceSqr, sampleLaser, sampleFar, Projectile.new,
    Projectile.GetPosition, Asteroid.GetPosition, Asteroid.GetRadius]

theorem sampleNear_hit : hits sampleLaser sampleNear = true := by
  have hr : sampleLaser.GetRadius = 2 := rfl
  rw [hits, hr]
  norm_num [distanceLess, Vector2DistanceSqr, sampleLaser, sampleNear, Projectile.new,
    Projectile.GetPosition, Asteroid.GetPosition, Asteroid.GetRadius]

theorem sampleBig_hit : hits sampleLaser sampleBig = true := by
  have hr : sampleLaser.GetRadius = 2 := rfl
  rw [hits, hr]
  norm_num [distanceLess, Vector2DistanceSqr, sampleLaser, sampleBig, Projectile.new,
    Projectile.GetPosition, Asteroid.GetPosition, Asteroid.GetRadius]

theorem sampleNear_crashes : (sampleNear.TakeDamage sampleLaser.GetDamage).IsCrashed = true := by
  simp only [Asteroid.TakeDamage, Asteroid.IsCrashed, sampleNear, sampleLaser, Projectile.new,
    Projectile.GetDamage]
  norm_num

theorem sampleBig_survives : (sampleBig.TakeDamage sampleLaser.GetDamage).IsCrashed = false := by
  simp only [Asteroid.TakeDamage, Asteroid.IsCrashed, sampleBig, sampleLaser, Projectile.new,
    Projectile.GetDamage]
  norm_num

/-- C1: when a projectile hits its first asteroid within hit distance and the hit leaves it
crashed, an asteroid of size tier `s > 1` is erased and exactly two asteroids are pushed, each of
size tier `s / 2` and placed at the position of the destroyed asteroid; an asteroid of size tier 1
is erased and nothing is pushed. A hit that does not crash the asteroid erases and pushes
nothing: the collection keeps its asteroids, the hit one with its reduced hit points. -/
theorem C1_split_on_crash (draws : Nat → AsteroidDraw) (p : Projectile) (score : Int)
    (drawn : Nat) (pre : List Asteroid) (a : Asteroid) (rest : List Asteroid)
    (hmiss : ∀ b ∈ pre, hits p b = false) (hhit : hits p a = true) :
    ((a.TakeDamage p.GetDamage).IsCrashed = true → 1 < a.GetSize →
        ∃ c1 c2 st, scanAsteroids draws p score drawn [] (pre ++ a :: rest) = some st ∧
          st.asteroids = pre ++ rest ++ [c1, c2] ∧
          c1.GetSize = a.GetSize / 2 ∧ c2.GetSize = a.GetSize / 2 ∧
          c1.GetPosition = a.GetPosition ∧ c2.GetPosition = a.GetPosition) ∧
      ((a.TakeDamage p.GetDamage).IsCrashed = true → a.GetSize = 1 →
        ∃ st, scanAsteroids draws p score drawn [] (pre ++ a :: rest) = some st ∧
          st.asteroids = pre ++ rest) ∧
      ((a.TakeDamage p.GetDamage).IsCrashed = false →
        ∃ st, scanAsteroids draws p score drawn [] (pre ++ a :: rest) = some st ∧
          st.asteroids = pre ++ a.TakeDamage p.GetDamage :: rest ∧
          st.asteroids.length = (pre ++ a :: rest).length) := by
  have hscan := scanAsteroids_first_hit draws p score drawn pre a rest hmiss hhit
  obtain ⟨hsz, hpos, _⟩ := TakeDamage_fields a p.GetDamage
  refine ⟨?_, ?_, ?_⟩
  · intro hc hs
    have hs1 : (a.TakeDamage p.GetDamage).GetSize > 1 := by rw [hsz]; exact hs
    rw [if_pos hc, if_pos hs1] at hscan
    refine ⟨_, _, _, hscan, rfl, ?_, ?_, ?_, ?_⟩
    · rw [MakeAsteroid_split_size, hsz]
      exact Int.tdiv_eq_ediv (by omega) (by decide)
    · rw [MakeAsteroid_split_size, hsz]
      exact Int.tdiv_eq_ediv (by omega) (by decide)
    · rw [MakeAsteroid_split_position, hpos]
    · rw [MakeAsteroid_split_position, hpos]
  · intro hc hs
    have hs1 : ¬ (a.TakeDamage p.GetDamage).GetSize > 1 := by rw [hsz, hs]; decide
    rw [if_pos hc, if_neg hs1] at hscan
    exact ⟨_, hscan, rfl⟩
  · intro hc
    have hc1 : ¬ (a.TakeDamage p.GetDamage).IsCrashed = true := by rw [hc]; decide
    rw [if_neg hc1] at hscan
    exact ⟨_, hscan, rfl, by simp⟩

theorem C1_split_on_crash_witness :
    ((∀ b ∈ [sampleFar], hits sampleLaser b = false) ∧ hits sampleLaser sampleNear = true) ∧
    ∃ c1 c2 st,
      scanAsteroids (fun _ => sampleDraw) sampleLaser 0 0 [] ([sampleFar] ++ sampleNear :: [sampleBig])
        = some st ∧
      st.asteroids = [sampleFar] ++ [sampleBig] ++ [c1, c2] ∧
      c1.GetSize = sampleNear.GetSize / 2 ∧ c2.GetSize = sampleNear.GetSize / 2 ∧
      c1.GetPosition = sampleNear.GetPosition ∧ c2.GetPosition = sampleNear.GetPosition :=
  ⟨⟨sampleFar_miss, sampleNear_hit⟩,
    (C1_split_on_crash (fun _ => sampleDraw) sampleLaser 0 0 [sampleFar] sampleNear [sampleBig]
      sampleFar_miss sampleNear_hit).1 sampleNear_crashes (by decide)⟩

/-- C2: when a projectile hits its first asteroid within hit distance and the hit leaves it
crashed, the score grows by `5 * s` for size tier `s = 1` (that is 5) and by `5 * s + 2 * s`
for `s > 1` (14 for tier 2, 28 for tier 4), whatever the shape; a hit that does not crash the
asteroid leaves the score unchanged. -/
theorem C2_score_on_crash (draws : Nat → AsteroidDraw) (p : Projectile) (score : Int)
    (drawn : Nat) (pre : List Asteroid) (a : Asteroid) (rest : List Asteroid)
    (hmiss : ∀ b ∈ pre, hits p b = false) (hhit : hits p a = true) :
    ∃ st, scanAsteroids draws p score drawn [] (pre ++ a :: rest) = some st ∧
      ((a.TakeDamage p.GetDamage).IsCrashed = true → a.GetSize = 1 → st.score = score + 5) ∧
      ((a.TakeDamage p.GetDamage).IsCrashed = true → 1 < a.GetSize →
        st.score = score + (5 * a.GetSize + 2 * a.GetSize)) ∧
      ((a.TakeDamage p.GetDamage).IsCrashed = true → a.GetSize = 2 → st.score = score + 14) ∧
      ((a.TakeDamage p.GetDamage).IsCrashed = true → a.GetSize = 4 → st.score = score + 28) ∧
      ((a.TakeDamage p.GetDamage).IsCrashed = false → st.score = score) := by
  have hscan := scanAsteroids_first_hit draws p score drawn pre a rest hmiss hhit
  obtain ⟨hsz, _, _⟩ := TakeDamage_fields a p.GetDamage
  rw [hsz] at hscan
  by_cases hc : (a.TakeDamage p.GetDamage).IsCrashed = true
  · by_cases hs : a.GetSize > 1
    · rw [if_pos hc, if_pos hs] at hscan
      refine ⟨_, hscan, ?_, ?_, ?_, ?_, ?_⟩
      · intro _ h1; omega
      · intro _ _; dsimp only; omega
      · intro _ h2; dsimp only; omega
      · intro _ h4; dsimp only; omega
      · intro hf; rw [hc] at hf; exact absurd hf (by decide)
    · rw [if_pos hc, if_neg hs] at hscan
      refine ⟨_, hscan, ?_, ?_, ?_, ?_, ?_⟩
      · intro _ h1; dsimp only; omega
      · intro _ h1; omega
      · intro _ h2; omega
      · intro _ h4; omega
      · intro hf; rw [hc] at hf; exact absurd hf (by decide)
  · rw [if_neg hc] at hscan
    refine ⟨_, hscan, ?_, ?_, ?_, ?_, ?_⟩
    · intro h; exact absurd h hc
    · intro h; exact absurd h hc
    · intro h; exact absurd h hc
    · intro h; exact absurd h hc
    · intro _; rfl

theorem C2_score_on_crash_witness :
    ((∀ b ∈ [sampleFar], hits sampleLaser b = false) ∧ hits sampleLaser sampleNear = true) ∧
    ∃ st,
      scanAsteroids (fun _ => sampleDraw) sampleLaser 7 0 []
          ([sampleFar] ++ sampleNear :: [sampleBig]) = some st ∧
      st.score = 7 + 14 :=
  ⟨⟨sampleFar_miss, sampleNear_hit⟩,
    (C2_score_on_crash (fun _ => sampleDraw) sampleLaser 7 0 [sampleFar] sampleNear [sampleBig]
      sampleFar_miss sampleNear_hit).elim
      (fun st h => ⟨st, h.1, h.2.2.2.1 sampleNear_crashes rfl⟩)⟩

/-- A projectile whose scan hits is erased: the outer loop goes on with the others. -/
theorem projectileAsteroidCollisions_hit (draws : Nat → AsteroidDraw) (p : Projectile)
    (ps : List Projectile) (st st1 : CollisionState)
    (h : scanAsteroids draws p st.score st.drawn [] st.asteroids = some st1) :
    projectileAsteroidCollisions draws (p :: ps) st = projectileAsteroidCollisions draws ps st1 := by
  rw [projectileAsteroidCollisions, h]

/-- A projectile whose scan hits nothing is kept, and the state is untouched by it. -/
theorem projectileAsteroidCollisions_miss (draws : Nat → AsteroidDraw) (p : Projectile)
    (ps : List Projectile) (st : CollisionState)
    (h : scanAsteroids draws p st.score st.drawn [] st.asteroids = none) :
    projectileAsteroidCollisions draws (p :: ps) st =
      (p :: (projectileAsteroidCollisions draws ps st).1,
        (projectileAsteroidCollisions draws ps st).2) := by
  rw [projectileAsteroidCollisions, h]

/-- Asteroids built by the factory start undamaged. -/
theorem MakeAsteroid_full_hp (w h : Int) (shape : AsteroidShape) (split : Bool) (pos : Vector2)
    (split_size : Int) (d : AsteroidDraw) :
    (MakeAsteroid w h shape split pos split_size d).current_asteroid_hp =
      (MakeAsteroid w h shape split pos split_size d).starting_asteroid_hp := by
  rw [MakeAsteroid_eq]
  rfl

/-- C6: when `a` is the first asteroid of the collection within hit distance of the projectile
`p`, whatever other asteroids further on are within hit distance too, the scan applies
`TakeDamage` to `a` only: the collection afterwards is the asteroids before `a` unchanged, then
`a` damaged (or nothing when it crashed), then the asteroids after `a` unchanged, then the
undamaged split children if any. The projectile is erased once: the loop over `p :: ps` goes on
as the loop over `ps`, and the loop over `p` alone leaves no projectile. -/
theorem C6_first_match_wins (draws : Nat → AsteroidDraw) (p : Projectile) (ps : List Projectile)
    (score : Int) (drawn : Nat) (pre : List Asteroid) (a : Asteroid) (rest : List Asteroid)
    (hmiss : ∀ b ∈ pre, hits p b = false) (hhit : hits p a = true) :
    ∃ (st : CollisionState) (mid children : List Asteroid),
      scanAsteroids draws p score drawn [] (pre ++ a :: rest) = some st ∧
      st.asteroids = pre ++ mid ++ rest ++ children ∧
      (mid = [] ∨ mid = [a.TakeDamage p.GetDamage]) ∧
      (∀ c ∈ children, c.current_asteroid_hp = c.starting_asteroid_hp ∧ c.crashed = false) ∧
      projectileAsteroidCollisions draws (p :: ps) ⟨pre ++ a :: rest, score, drawn⟩ =
        projectileAsteroidCollisions draws ps st ∧
      (projectileAsteroidCollisions draws [p] ⟨pre ++ a :: rest, score, drawn⟩).1 = [] := by
  have hscan := scanAsteroids_first_hit draws p score drawn pre a rest hmiss hhit
  have hloop : ∀ st1 : CollisionState,
      scanAsteroids draws p score drawn [] (pre ++ a :: rest) = some st1 →
      projectileAsteroidCollisions draws (p :: ps) ⟨pre ++ a :: rest, score, drawn⟩ =
          projectileAsteroidCollisions draws ps st1 ∧
        (projectileAsteroidCollisions draws [p] ⟨pre ++ a :: rest, score, drawn⟩).1 = [] := by
    intro st1 h1
    constructor
    · exact projectileAsteroidCollisions_hit draws p ps ⟨pre ++ a :: rest, score, drawn⟩ st1 h1
    · rw [projectileAsteroidCollisions_hit draws p [] ⟨pre ++ a :: rest, score, drawn⟩ st1 h1]
      rfl
  by_cases hc : (a.TakeDamage p.GetDamage).IsCrashed = true
  · by_cases hs : (a.TakeDamage p.GetDamage).GetSize > 1
    · rw [if_pos hc, if_pos hs] at hscan
      refine ⟨_, [],
        [MakeAsteroid C_WIDTH C_HEIGHT (a.TakeDamage p.GetDamage).GetShape true
            (a.TakeDamage p.GetDamage).GetPosition (a.TakeDamage p.GetDamage).GetSize
            (draws drawn),
          MakeAsteroid C_WIDTH C_HEIGHT (a.TakeDamage p.GetDamage).GetShape true
            (a.TakeDamage p.GetDamage).GetPosition (a.TakeDamage p.GetDamage).GetSize
            (draws (drawn + 1))], hscan, by simp, Or.inl rfl, ?_, hloop _ hscan⟩
      intro c hcmem
      simp only [List.mem_cons, List.mem_singleton, List.not_mem_nil, or_false] at hcmem
      rcases hcmem with rfl | rfl
      · exact ⟨MakeAsteroid_full_hp _ _ _ _ _ _ _, by rw [MakeAsteroid_eq]; rfl⟩
      · exact ⟨MakeAsteroid_full_hp _ _ _ _ _ _ _, by rw [MakeAsteroid_eq]; rfl⟩
    · rw [if_pos hc, if_neg hs] at hscan
      exact ⟨_, [], [], hscan, by simp, Or.inl rfl, by simp, hloop _ hscan⟩
  · rw [if_neg hc] at hscan
    exact ⟨_, [a.TakeDamage p.GetDamage], [], hscan, by simp, Or.inr rfl, by simp, hloop _ hscan⟩

theorem C6_first_match_wins_witness :
    ((∀ b ∈ [sampleFar], hits sampleLaser b = false) ∧ hits sampleLaser sampleBig = true ∧
      hits sampleLaser sampleNear = true) ∧
    ∃ (st : CollisionState) (mid children : List Asteroid),
      scanAsteroids (fun _ => sampleDraw) sampleLaser 0 0 []
          ([sampleFar] ++ sampleBig :: [sampleNear]) = some st ∧
      st.asteroids = [sampleFar] ++ mid ++ [sampleNear] ++ children ∧
      (mid = [] ∨ mid = [sampleBig.TakeDamage sampleLaser.GetDamage]) ∧
      (∀ c ∈ children, c.current_asteroid_hp = c.starting_asteroid_hp ∧ c.crashed = false) ∧
      projectileAsteroidCollisions (fun _ => sampleDraw) (sampleLaser :: [sampleLaser])
          ⟨[sampleFar] ++ sampleBig :: [sampleNear], 0, 0⟩ =
        projectileAsteroidCollisions (fun _ => sampleDraw) [sampleLaser] st ∧
      (projectileAsteroidCollisions (fun _ => sampleDraw) [sampleLaser]
          ⟨[sampleFar] ++ sampleBig :: [sampleNear], 0, 0⟩).1 = [] :=
  ⟨⟨sampleFar_miss, sampleBig_hit, sampleNear_hit⟩,
    C6_first_match_wins (fun _ => sampleDraw) sampleLaser [sampleLaser] 0 0 [sampleFar] sampleBig
      [sampleNear] sampleFar_miss sampleBig_hit⟩

/-- C9: for every position and velocity, `MakeProjectile` yields a projectile of damage 200 for
Laser, 10 for Bullet and 5 for Shotgun; and when that projectile hits (as its first asteroid
within hit distance) an asteroid that is not crashed, the asteroid comes out of `TakeDamage`
with its current hit points lowered by exactly that amount, and is the element left in the
collection when it survives. -/
theorem C9_damage_table (pos vel : Vector2) (wt : WeaponType) (n : Int)
    (hwt : (wt, n) ∈ [(WeaponType.LASER, (200 : Int)), (WeaponType.BULLET, 10),
      (WeaponType.SHOTGUN, 5)]) :
    ∃ p : Projectile, MakeProjectile wt pos vel = some p ∧ p.GetDamage = n ∧
      ∀ (draws : Nat → AsteroidDraw) (score : Int) (drawn : Nat) (pre : List Asteroid)
        (a : Asteroid) (rest : List Asteroid),
        (∀ b ∈ pre, hits p b = false) → hits p a = true → a.IsCrashed = false →
        (a.TakeDamage p.GetDamage).current_asteroid_hp = a.current_asteroid_hp - (n : ℚ) ∧
        ((a.TakeDamage p.GetDamage).IsCrashed = true ↔ a.current_asteroid_hp - (n : ℚ) ≤ 0) ∧
        (0 < a.current_asteroid_hp - (n : ℚ) →
          scanAsteroids draws p score drawn [] (pre ++ a :: rest) =
            some ⟨pre ++ { a with current_asteroid_hp := a.current_asteroid_hp - (n : ℚ) } :: rest,
              score, drawn⟩) := by
  have hmk : ∃ p : Projectile, MakeProjectile wt pos vel = some p ∧ p.GetDamage = n := by
    simp only [List.mem_cons, Prod.mk.injEq, List.mem_singleton, List.not_mem_nil, or_false] at hwt
    rcases hwt with ⟨rfl, rfl⟩ | ⟨rfl, rfl⟩ | ⟨rfl, rfl⟩
    · exact ⟨_, rfl, rfl⟩
    · exact ⟨_, rfl, rfl⟩
    · exact ⟨_, rfl, rfl⟩
  obtain ⟨p, hp, hdmg⟩ := hmk
  refine ⟨p, hp, hdmg, ?_⟩
  intro draws score drawn pre a rest hmiss hhit hnc
  have hnc1 : a.crashed = false := hnc
  have hscan := scanAsteroids_first_hit draws p score drawn pre a rest hmiss hhit
  rw [hdmg] at hscan ⊢
  by_cases hz : a.current_asteroid_hp - (n : ℚ) ≤ 0
  · have htd : a.TakeDamage n =
        { a with current_asteroid_hp := a.current_asteroid_hp - (n : ℚ), crashed := true } := by
      simp [Asteroid.TakeDamage, hnc1, hz]
    rw [htd]
    refine ⟨rfl, ?_, ?_⟩
    · simp [Asteroid.IsCrashed, hz]
    · intro hpos
      exact absurd hpos (not_lt.mpr hz)
  · have htd : a.TakeDamage n =
        { a with current_asteroid_hp := a.current_asteroid_hp - (n : ℚ) } := by
      simp [Asteroid.TakeDamage, hnc1, hz]
    rw [htd] at hscan ⊢
    refine ⟨rfl, ?_, ?_⟩
    · simp [Asteroid.IsCrashed, hz, hnc1]
    · intro _
      have hc : ¬ (Asteroid.IsCrashed
          { a with current_asteroid_hp := a.current_asteroid_hp - (n : ℚ) } = true) := by
        simp [Asteroid.IsCrashed, hnc1]
      rw [if_neg hc] at hscan
      exact hscan

theorem C9_damage_table_witness :
    (WeaponType.LASER, (200 : Int)) ∈ [(WeaponType.LASER, (200 : Int)), (WeaponType.BULLET, 10),
      (WeaponType.SHOTGUN, 5)] ∧
    ∃ p : Projectile, MakeProjectile .LASER ⟨100, 100⟩ ⟨0, -560⟩ = some p ∧ p.GetDamage = 200 ∧
      ∀ (draws : Nat → AsteroidDraw) (score : Int) (drawn : Nat) (pre : List Asteroid)
        (a : Asteroid) (rest : List Asteroid),
        (∀ b ∈ pre, hits p b = false) → hits p a = true → a.IsCrashed = false →
        (a.TakeDamage p.GetDamage).current_asteroid_hp = a.current_asteroid_hp - ((200 : Int) : ℚ) ∧
        ((a.TakeDamage p.GetDamage).IsCrashed = true ↔
          a.current_asteroid_hp - ((200 : Int) : ℚ) ≤ 0) ∧
        (0 < a.current_asteroid_hp - ((200 : Int) : ℚ) →
          scanAsteroids draws p score drawn [] (pre ++ a :: rest) =
            some ⟨pre ++ { a with
                current_asteroid_hp := a.current_asteroid_hp - ((200 : Int) : ℚ) } :: rest,
              score, drawn⟩) :=
  ⟨by simp, C9_damage_table ⟨100, 100⟩ ⟨0, -560⟩ .LASER 200 (by simp)⟩

/-! ## Asteroid-ship collisions -/

/-- The step at an asteroid in contact with an alive ship. -/
theorem asteroidShipCollisions_cons_hit (r : Renderer) (dt : ℚ) (player : Ship) (a : Asteroid)
    (rest : List Asteroid)
    (h : (player.IsAlive &&
      distanceLess player.GetPosition a.GetPosition (player.GetRadius + a.GetRadius)) = true) :
    asteroidShipCollisions r dt player (a :: rest) =
      asteroidShipCollisions r dt (player.TakeDamage a.GetDamage) rest := by
  rw [asteroidShipCollisions, if_pos h]

/-- The step at an asteroid that does not damage the ship: it is moved, and kept when it is
still in bounds. -/
theorem asteroidShipCollisions_cons_miss (r : Renderer) (dt : ℚ) (player : Ship) (a : Asteroid)
    (rest : List Asteroid)
    (h : ¬ (player.IsAlive &&
      distanceLess player.GetPosition a.GetPosition (player.GetRadius + a.GetRadius)) = true) :
    asteroidShipCollisions r dt player (a :: rest) =
      if (a.Update r dt).2 = true then
        ((asteroidShipCollisions r dt player rest).1,
          (a.Update r dt).1 :: (asteroidShipCollisions r dt player rest).2)
      else asteroidShipCollisions r dt player rest := by
  rw [asteroidShipCollisions, if_neg h]
  cases hu : (a.Update r dt).2 <;> simp [hu]

/-- The step over a concatenation: the second part is processed with the ship left by the
first. -/
theorem asteroidShipCollisions_append (r : Renderer) (dt : ℚ) (l1 l2 : List Asteroid) :
    ∀ player : Ship,
      asteroidShipCollisions r dt player (l1 ++ l2) =
        ((asteroidShipCollisions r dt (asteroidShipCollisions r dt player l1).1 l2).1,
          (asteroidShipCollisions r dt player l1).2 ++
            (asteroidShipCollisions r dt (asteroidShipCollisions r dt player l1).1 l2).2) := by
  induction l1 with
  | nil => intro player; simp [asteroidShipCollisions]
  | cons b bs ih =>
    intro player
    rw [List.cons_append]
    by_cases h : (player.IsAlive &&
        distanceLess player.GetPosition b.GetPosition (player.GetRadius + b.GetRadius)) = true
    · rw [asteroidShipCollisions_cons_hit r dt player b _ h,
        asteroidShipCollisions_cons_hit r dt player b _ h]
      exact ih _
    · rw [asteroidShipCollisions_cons_miss r dt player b _ h,
        asteroidShipCollisions_cons_miss r dt player b _ h, ih player]
      cases hu : (b.Update r dt).2 <;> simp [hu]

/-- The step creates no asteroid: the collection never grows. -/
theorem asteroidShipCollisions_length (r : Renderer) (dt : ℚ) (l : List Asteroid) :
    ∀ player : Ship, (asteroidShipCollisions r dt player l).2.length ≤ l.length := by
  induction l with
  | nil => intro player; simp [asteroidShipCollisions]
  | cons b bs ih =>
    intro player
    by_cases h : (player.IsAlive &&
        distanceLess player.GetPosition b.GetPosition (player.GetRadius + b.GetRadius)) = true
    · rw [asteroidShipCollisions_cons_hit r dt player b _ h]
      exact le_trans (ih _) (by simp)
    · rw [asteroidShipCollisions_cons_miss r dt player b _ h]
      cases hu : (b.Update r dt).2
      · simpa [hu] using le_trans (ih player) (Nat.le_succ _)
      · simpa [hu] using ih player

/-- Hit points of an alive ship after `TakeDamage`. -/
theorem ship_TakeDamage_hp (s : Ship) (dmg : Int) (h : s.IsAlive = true) :
    (s.TakeDamage dmg).hp = max 0 (s.hp - dmg) := by
  have ha : s.alive = true := h
  unfold Ship.TakeDamage
  simp only [ha, Bool.not_true, Bool.false_eq_true, if_false]
  by_cases hz : s.hp - dmg ≤ 0
  · simp only [hz, if_true]
    exact (max_eq_left hz).symm
  · simp only [hz, if_false]
    exact (max_eq_right (le_of_lt (not_le.mp hz))).symm

/-- C10: in the asteroid-ship step, an asteroid examined while the ship is alive and within
contact distance (centre distance less than the sum of the radii) lowers the hit points of the
ship to `max 0 (hp - baseDamage * size)`, with base damage 5, 10, 15 for an asteroid built as
triangle, square, pentagon; the asteroid is erased (the step goes on with the asteroids after it
and the damaged ship), no asteroid is created, and the score is unchanged. -/
theorem C10_ship_collision (app : Application) (inp : FrameInput) (pre : List Asteroid)
    (a : Asteroid) (rest : List Asteroid) (has : app.asteroids = pre ++ a :: rest)
    (halive :
      (asteroidShipCollisions Renderer.Instance inp.dt app.player pre).1.IsAlive = true)
    (hnear : distanceLess
      (asteroidShipCollisions Renderer.Instance inp.dt app.player pre).1.GetPosition a.GetPosition
      ((asteroidShipCollisions Renderer.Instance inp.dt app.player pre).1.GetRadius + a.GetRadius)
        = true) :
    (((asteroidShipCollisions Renderer.Instance inp.dt app.player pre).1.TakeDamage
          a.GetDamage).hp =
        max 0 ((asteroidShipCollisions Renderer.Instance inp.dt app.player pre).1.hp
          - a.baseDamage * a.render.size)) ∧
      (app.collideShip inp).player =
        (asteroidShipCollisions Renderer.Instance inp.dt
          ((asteroidShipCollisions Renderer.Instance inp.dt app.player pre).1.TakeDamage
            a.GetDamage) rest).1 ∧
      (app.collideShip inp).asteroids =
        (asteroidShipCollisions Renderer.Instance inp.dt app.player pre).2 ++
          (asteroidShipCollisions Renderer.Instance inp.dt
            ((asteroidShipCollisions Renderer.Instance inp.dt app.player pre).1.TakeDamage
              a.GetDamage) rest).2 ∧
      (app.collideShip inp).asteroids.length ≤ pre.length + rest.length ∧
      (app.collideShip inp).score = app.score ∧
      (∀ (w h : Int) (split : Bool) (pos : Vector2) (split_size : Int) (d : AsteroidDraw),
        (MakeAsteroid w h .TRIANGLE split pos split_size d).baseDamage = 5 ∧
        (MakeAsteroid w h .SQUARE split pos split_size d).baseDamage = 10 ∧
        (MakeAsteroid w h .PENTAGON split pos split_size d).baseDamage = 15) := by
  have hstep : asteroidShipCollisions Renderer.Instance inp.dt app.player (pre ++ a :: rest) =
      ((asteroidShipCollisions Renderer.Instance inp.dt
          ((asteroidShipCollisions Renderer.Instance inp.dt app.player pre).1.TakeDamage
            a.GetDamage) rest).1,
        (asteroidShipCollisions Renderer.Instance inp.dt app.player pre).2 ++
          (asteroidShipCollisions Renderer.Instance inp.dt
            ((asteroidShipCollisions Renderer.Instance inp.dt app.player pre).1.TakeDamage
              a.GetDamage) rest).2) := by
    rw [asteroidShipCollisions_append]
    have hhead : ∀ s : Ship, s.IsAlive = true →
        distanceLess s.GetPosition a.GetPosition (s.GetRadius + a.GetRadius) = true →
        asteroidShipCollisions Renderer.Instance inp.dt s (a :: rest) =
          asteroidShipCollisions Renderer.Instance inp.dt (s.TakeDamage a.GetDamage) rest := by
      intro s h1 h2
      exact asteroidShipCollisions_cons_hit _ _ s a rest (by simp [h1, h2])
    rw [hhead _ halive hnear]
  refine ⟨?_, ?_, ?_, ?_, rfl, ?_⟩
  · exact ship_TakeDamage_hp _ _ halive
  · simp only [Application.collideShip, has, hstep]
  · simp only [Application.collideShip, has, hstep]
  · simp only [Application.collideShip, has, hstep, List.length_append]
    exact Nat.add_le_add (asteroidShipCollisions_length _ _ _ _)
      (asteroidShipCollisions_length _ _ _ _)
  · intro w h split pos split_size d
    simp only [MakeAsteroid_eq]
    exact ⟨rfl, rfl, rfl⟩

theorem samplePentagon_fields :
    samplePentagon.GetPosition = ⟨700, 420⟩ ∧ samplePentagon.GetRadius = 32 ∧
      samplePentagon.baseDamage = 15 ∧ samplePentagon.render.size = 2 ∧
      samplePentagon.GetDamage = 30 := by
  unfold samplePentagon
  rw [MakeAsteroid_eq]
  refine ⟨?_, ?_, ?_, ?_, ?_⟩
  · simp [Asteroid.GetPosition, Asteroid.init]
  · norm_num [Asteroid.GetRadius, Asteroid.init, Int.tdiv]
  · rfl
  · simp [Asteroid.init, Int.tdiv]
  · simp [Asteroid.GetDamage, Asteroid.init, Int.tdiv, resolvedShape, shapeBaseDamage]

theorem sampleApp_contact :
    distanceLess
      (asteroidShipCollisions Renderer.Instance sampleFrame.dt sampleApp.player []).1.GetPosition
      samplePentagon.GetPosition
      ((asteroidShipCollisions Renderer.Instance sampleFrame.dt sampleApp.player []).1.GetRadius
        + samplePentagon.GetRadius) = true := by
  rw [samplePentagon_fields.1, samplePentagon_fields.2.1]
  norm_num [asteroidShipCollisions, sampleApp, sampleShip, PlayerShip, Ship.GetPosition,
    Ship.GetRadius, distanceLess, Vector2DistanceSqr, C_WIDTH, C_HEIGHT]

theorem C10_ship_collision_witness :
    (sampleApp.asteroids = [] ++ samplePentagon :: [sampleFar] ∧
      (asteroidShipCollisions Renderer.Instance sampleFrame.dt sampleApp.player []).1.IsAlive
        = true ∧
      distanceLess
        (asteroidShipCollisions Renderer.Instance sampleFrame.dt sampleApp.player []).1.GetPosition
        samplePentagon.GetPosition
        ((asteroidShipCollisions Renderer.Instance sampleFrame.dt sampleApp.player []).1.GetRadius
          + samplePentagon.GetRadius) = true) ∧
    (((asteroidShipCollisions Renderer.Instance sampleFrame.dt sampleApp.player []).1.TakeDamage
          samplePentagon.GetDamage).hp =
        max 0 ((asteroidShipCollisions Renderer.Instance sampleFrame.dt sampleApp.player []).1.hp
          - samplePentagon.baseDamage * samplePentagon.render.size)) ∧
    (sampleApp.collideShip sampleFrame).score = sampleApp.score :=
  ⟨⟨rfl, rfl, sampleApp_contact⟩,
    (C10_ship_collision sampleApp sampleFrame [] samplePentagon [sampleFar] rfl rfl
      sampleApp_contact).1,
    (C10_ship_collision sampleApp sampleFrame [] samplePentagon [sampleFar] rfl rfl
      sampleApp_contact).2.2.2.2.1⟩

/-- The scenario of the specification: a ship at 100 hit points touched by a pentagon of tier 2
is left with 70. -/
theorem sampleShip_after_pentagon :
    sampleShip.hp = 100 ∧ (sampleShip.TakeDamage samplePentagon.GetDamage).hp = 70 := by
  rw [samplePentagon_fields.2.2.2.2]
  exact ⟨rfl, rfl⟩

/-! ## Firing -/

/-- A volley of a real weapon appends its pellets to the collection. -/
theorem emitVolley_spec (player : Ship) (wt : WeaponType) (projSpeed : ℚ)
    (ps : List Projectile) (hw : wt ≠ WeaponType.COUNT) :
    ∃ v : List Projectile, emitVolley player wt projSpeed ps = some (ps ++ v) ∧
      v.length = pelletsPerVolley wt := by
  cases wt with
  | LASER => exact ⟨_, rfl, rfl⟩
  | BULLET => exact ⟨_, rfl, rfl⟩
  | SHOTGUN => exact ⟨_, rfl, rfl⟩
  | COUNT => exact absurd rfl hw

/-- The firing loop with enough fuel: it runs some number `n` of iterations, each taking one
interval off the timer and appending one volley, and stops with the timer below the interval. -/
theorem volleyLoop_spec (player : Ship) (wt : WeaponType) (interval projSpeed : ℚ)
    (hw : wt ≠ WeaponType.COUNT) :
    ∀ (fuel : Nat) (t : ℚ) (ps : List Projectile), t < ((fuel : ℚ) + 1) * interval →
      ∃ (n : Nat) (new : List Projectile), n ≤ fuel ∧
        volleyLoop player wt interval projSpeed fuel t ps
          = some (t - (n : ℚ) * interval, ps ++ new) ∧
        new.length = n * pelletsPerVolley wt ∧ t - (n : ℚ) * interval < interval ∧
        (0 ≤ t → 0 ≤ t - (n : ℚ) * interval) := by
  intro fuel
  induction fuel with
  | zero =>
    intro t ps ht
    have hlt : ¬ t ≥ interval := by
      simp only [Nat.cast_zero, zero_add, one_mul] at ht
      exact not_le.mpr ht
    refine ⟨0, [], le_refl _, ?_, by simp, ?_, ?_⟩
    · rw [volleyLoop, if_neg hlt]; simp
    · simpa using not_le.mp hlt
    · intro h0; simpa using h0
  | succ f ih =>
    intro t ps ht
    by_cases hge : t ≥ interval
    · obtain ⟨v, hv, hvlen⟩ := emitVolley_spec player wt projSpeed ps hw
      have ht1 : t - interval < ((f : ℚ) + 1) * interval := by
        push_cast at ht
        linarith
      obtain ⟨n, new, hn, hloop, hlen, hlt, hnn⟩ := ih (t - interval) (ps ++ v) ht1
      refine ⟨n + 1, v ++ new, Nat.succ_le_succ hn, ?_, ?_, ?_, ?_⟩
      · rw [volleyLoop, if_pos hge]
        simp only [hv, hloop]
        congr 1
        simp only [Prod.mk.injEq, List.append_assoc, and_true]
        push_cast
        ring
      · simp only [List.length_append, hvlen, hlen]
        ring
      · push_cast
        linarith
      · intro _
        have := hnn (by linarith)
        push_cast
        linarith
    · refine ⟨0, [], Nat.zero_le _, ?_, by simp, ?_, ?_⟩
      · rw [volleyLoop, if_neg hge]; simp
      · simpa using not_le.mp hge
      · intro h0; simpa using h0

/-- The shooting block with fire held, an alive ship and a real weapon is the firing loop on
the advanced timer. -/
theorem shooting_held (fuel : Nat) (player : Ship) (wt : WeaponType) (rate dt t : ℚ)
    (ps : List Projectile) (halive : player.IsAlive = true) (hw : wt ≠ WeaponType.COUNT)
    (hrate : player.GetFireRate wt = some rate) :
    ∃ projSpeed : ℚ, shooting fuel player wt true dt t ps =
      volleyLoop player wt (1 / rate) projSpeed fuel (t + dt) ps := by
  have hsp : ∃ spacing, player.GetSpacing wt = some spacing := by
    cases wt with
    | LASER => exact ⟨_, rfl⟩
    | BULLET => exact ⟨_, rfl⟩
    | SHOTGUN => exact ⟨_, rfl⟩
    | COUNT => exact absurd rfl hw
  obtain ⟨spacing, hspacing⟩ := hsp
  refine ⟨spacing * rate, ?_⟩
  unfold shooting
  simp only [halive, Bool.and_self, if_true, hrate, hspacing]

/-- Fire held over ticks whose durations, added to the timer, make up exactly `k` intervals:
with fuel for `k` iterations per tick, exactly `k` volleys are appended and the timer ends
at zero. -/
theorem holdFire_spec (fuel : Nat) (player : Ship) (wt : WeaponType) (rate : ℚ)
    (halive : player.IsAlive = true) (hw : wt ≠ WeaponType.COUNT)
    (hrate : player.GetFireRate wt = some rate) (hpos : 0 < rate) :
    ∀ (dts : List ℚ) (t : ℚ) (ps : List Projectile) (k : Nat),
      (∀ dt ∈ dts, 0 < dt) → 0 ≤ t → t < 1 / rate → t + dts.sum = (k : ℚ) * (1 / rate) →
      k ≤ fuel →
      ∃ new : List Projectile, holdFire fuel player wt dts t ps = some (0, ps ++ new) ∧
        new.length = k * pelletsPerVolley wt := by
  have hI : (0 : ℚ) < 1 / rate := one_div_pos.mpr hpos
  intro dts
  induction dts with
  | nil =>
    intro t ps k _ h0 hlt hsum hk
    simp only [List.sum_nil, add_zero] at hsum
    have hk0 : k = 0 := by
      by_contra hne
      have h1 : (1 : ℚ) ≤ (k : ℚ) := by exact_mod_cast Nat.one_le_iff_ne_zero.mpr hne
      have : 1 / rate ≤ (k : ℚ) * (1 / rate) := by nlinarith
      linarith
    subst hk0
    have ht : t = 0 := by simpa using hsum
    subst ht
    exact ⟨[], by simp [holdFire], by simp⟩
  | cons dt dts ih =>
    intro t ps k hall h0 hlt hsum hk
    have hdt : 0 < dt := hall dt (List.mem_cons_self _ _)
    have hall1 : ∀ x ∈ dts, 0 < x := fun x hx => hall x (List.mem_cons_of_mem _ hx)
    have hrest : 0 ≤ dts.sum := List.sum_nonneg (fun x hx => le_of_lt (hall1 x hx))
    simp only [List.sum_cons] at hsum
    have hkf : (k : ℚ) ≤ (fuel : ℚ) := by exact_mod_cast hk
    have hfuel : t + dt < ((fuel : ℚ) + 1) * (1 / rate) := by nlinarith
    obtain ⟨projSpeed, hshoot⟩ := shooting_held fuel player wt rate dt t ps halive hw hrate
    obtain ⟨n, new1, _, hloop, hlen1, hlt1, hnn1⟩ :=
      volleyLoop_spec player wt (1 / rate) projSpeed hw fuel (t + dt) ps hfuel
    have hnn : 0 ≤ t + dt - (n : ℚ) * (1 / rate) := hnn1 (by linarith)
    have hnk : n ≤ k := by
      have : (n : ℚ) * (1 / rate) ≤ (k : ℚ) * (1 / rate) := by linarith
      have h2 : (n : ℚ) ≤ (k : ℚ) := le_of_mul_le_mul_right this hI
      exact_mod_cast h2
    have hsum1 : t + dt - (n : ℚ) * (1 / rate) + dts.sum = ((k - n : Nat) : ℚ) * (1 / rate) := by
      rw [Nat.cast_sub hnk]
      linarith
    obtain ⟨new2, hrun, hlen2⟩ := ih (t + dt - (n : ℚ) * (1 / rate)) (ps ++ new1) (k - n) hall1
      hnn hlt1 hsum1 (le_trans (Nat.sub_le _ _) hk)
    refine ⟨new1 ++ new2, ?_, ?_⟩
    · rw [holdFire, hshoot, hloop]
      simp only [hrun, List.append_assoc]
    · rw [List.length_append, hlen1, hlen2, ← Nat.add_mul, Nat.add_sub_cancel' hnk]

/-- C5, as stated, fails for the Shotgun: holding fire for exactly one interval (N = 1,
one tick of 1/10 s, shot timer 0, ship alive) emits three projectiles, not one. -/
theorem C5_counterexample :
    sampleShip.IsAlive = true ∧ sampleShip.GetFireRate .SHOTGUN = some 10 ∧
      (∀ dt ∈ [(1 / 10 : ℚ)], 0 < dt) ∧ [(1 / 10 : ℚ)].sum = ((1 : Nat) : ℚ) / 10 ∧
      holdFire 1 sampleShip .SHOTGUN [1 / 10] 0 [] =
        some (0, [Projectile.new ⟨700, 375⟩ ⟨500, -500⟩ 5 .SHOTGUN,
          Projectile.new ⟨720, 375⟩ ⟨0, -500⟩ 5 .SHOTGUN,
          Projectile.new ⟨740, 375⟩ ⟨-500, -500⟩ 5 .SHOTGUN]) ∧
      [Projectile.new ⟨700, 375⟩ ⟨500, -500⟩ 5 .SHOTGUN,
        Projectile.new ⟨720, 375⟩ ⟨0, -500⟩ 5 .SHOTGUN,
        Projectile.new ⟨740, 375⟩ ⟨-500, -500⟩ 5 .SHOTGUN].length ≠ 1 := by
  refine ⟨rfl, rfl, by norm_num, by norm_num, ?_, by decide⟩
  have h1 : ((0 : ℚ) + 1 / 10 ≥ 1 / 10) := by norm_num
  have h2 : ¬ ((0 : ℚ) + 1 / 10 - 1 / 10 ≥ 1 / 10) := by norm_num
  have h3 : (0 : ℚ) + 1 / 10 - 1 / 10 = 0 := by norm_num
  simp only [holdFire, shooting, sampleShip, PlayerShip, Ship.IsAlive, Ship.GetFireRate,
    Ship.GetSpacing, Bool.and_self, if_true, volleyLoop, h1, h2, h3, if_false, emitVolley,
    MakeProjectile, Option.bind_eq_bind, Option.some_bind, List.nil_append, Ship.GetPosition,
    Ship.GetRadius, C_WIDTH, C_HEIGHT]
  norm_num

/-- C5 (amended): for every real weapon with fire rate `rate`, every `N` and every sequence of
positive tick durations whose sum is exactly `N / rate`, holding fire from shot timer 0 with
the ship alive and the weapon fixed makes the shooting block run exactly `N` volleys over the
whole sequence, however the duration is cut into ticks: `N` projectiles are appended for Laser
and Bullet, `3 * N` for Shotgun, and the timer ends at 0. Each tick needs fuel for at most `N`
iterations of the firing loop. -/
theorem C5_catch_up (fuel : Nat) (player : Ship) (wt : WeaponType) (rate : ℚ) (N : Nat)
    (dts : List ℚ) (ps0 : List Projectile) (halive : player.IsAlive = true)
    (hw : wt ≠ WeaponType.COUNT) (hrate : player.GetFireRate wt = some rate) (hpos : 0 < rate)
    (hdts : ∀ dt ∈ dts, 0 < dt) (hsum : dts.sum = (N : ℚ) / rate) (hfuel : N ≤ fuel) :
    ∃ new : List Projectile, holdFire fuel player wt dts 0 ps0 = some (0, ps0 ++ new) ∧
      new.length = N * (if wt = WeaponType.SHOTGUN then 3 else 1) ∧
      (wt ≠ WeaponType.SHOTGUN → new.length = N) ∧
      (wt = WeaponType.SHOTGUN → new.length = 3 * N) := by
  have hI : (0 : ℚ) < 1 / rate := one_div_pos.mpr hpos
  obtain ⟨new, hrun, hlen⟩ := holdFire_spec fuel player wt rate halive hw hrate hpos dts 0 ps0 N
    hdts (le_refl _) hI (by rw [hsum]; ring) hfuel
  refine ⟨new, hrun, hlen, ?_, ?_⟩
  · intro hns
    rw [hlen, pelletsPerVolley, if_neg hns, Nat.mul_one]
  · intro hs
    rw [hlen, pelletsPerVolley, if_pos hs, Nat.mul_comm]

theorem C5_catch_up_witness :
    (sampleShip.IsAlive = true ∧ WeaponType.LASER ≠ WeaponType.COUNT ∧
      sampleShip.GetFireRate .LASER = some 7 ∧ (0 : ℚ) < 7 ∧
      (∀ dt ∈ [(1 / 7 : ℚ), 1 / 14, 1 / 14], 0 < dt) ∧
      [(1 / 7 : ℚ), 1 / 14, 1 / 14].sum = ((2 : Nat) : ℚ) / 7 ∧ 2 ≤ 2) ∧
    ∃ new : List Projectile,
      holdFire 2 sampleShip .LASER [1 / 7, 1 / 14, 1 / 14] 0 [] = some (0, [] ++ new) ∧
      new.length = 2 * (if WeaponType.LASER = WeaponType.SHOTGUN then 3 else 1) ∧
      (WeaponType.LASER ≠ WeaponType.SHOTGUN → new.length = 2) ∧
      (WeaponType.LASER = WeaponType.SHOTGUN → new.length = 3 * 2) :=
  ⟨⟨rfl, by decide, rfl, by norm_num, by norm_num, by norm_num, le_refl _⟩,
    C5_catch_up 2 sampleShip .LASER 7 2 [1 / 7, 1 / 14, 1 / 14] [] rfl (by decide) rfl
      (by norm_num) (by norm_num) (by norm_num) (le_refl _)⟩

/-! ## Restart and spawning -/

/-- C11: when the ship is dead and the restart key is pressed, the restart block leaves score 0,
no asteroid, no projectile, a fresh ship (100 hit points, alive) and spawn timer 0; when the
ship is alive the block changes nothing, whatever the keys. -/
theorem C11_restart (app : Application) (inp : FrameInput) :
    (app.player.IsAlive = false → inp.keyR = true →
        (app.restart inp).score = 0 ∧ (app.restart inp).asteroids = [] ∧
        (app.restart inp).projectiles = [] ∧ (app.restart inp).player.hp = 100 ∧
        (app.restart inp).player.alive = true ∧ (app.restart inp).spawnTimer = 0 ∧
        (app.restart inp).player = PlayerShip C_WIDTH C_HEIGHT inp.textureWidth) ∧
      (app.player.IsAlive = true → app.restart inp = app) := by
  constructor
  · intro hdead hr
    simp [Application.restart, hdead, hr, PlayerShip]
  · intro halive
    simp [Application.restart, halive]

theorem C11_restart_witness :
    (sampleDead.player.IsAlive = false ∧ sampleRestartFrame.keyR = true) ∧
    (sampleDead.restart sampleRestartFrame).score = 0 ∧
    (sampleDead.restart sampleRestartFrame).asteroids = [] ∧
    (sampleDead.restart sampleRestartFrame).projectiles = [] ∧
    (sampleDead.restart sampleRestartFrame).player.hp = 100 ∧
    (sampleDead.restart sampleRestartFrame).player.alive = true ∧
    (sampleDead.restart sampleRestartFrame).spawnTimer = 0 ∧
    (sampleDead.restart sampleRestartFrame).player =
      PlayerShip C_WIDTH C_HEIGHT sampleRestartFrame.textureWidth :=
  ⟨⟨rfl, rfl⟩, (C11_restart sampleDead sampleRestartFrame).1 rfl rfl⟩

/-- C18: the spawn block appends exactly one asteroid, built by the factory as a fresh
(non-split) spawn of the selected shape, and resets the spawn timer to 0 exactly when the
spawn timer has reached the spawn interval and fewer than 150 asteroids are live; otherwise the
asteroid collection and the spawn timer are unchanged. Hence a collection of at most 150
asteroids stays at most 150 after the block. -/
theorem C18_spawn_policy (app : Application) (inp : FrameInput) :
    ((app.spawnTimer ≥ app.spawnInterval ∧ app.asteroids.length < 150) →
        (app.spawnAsteroids inp).asteroids = app.asteroids ++
          [MakeAsteroid C_WIDTH C_HEIGHT app.currentShape false ⟨0, 0⟩ 0 inp.spawnDraw] ∧
        (app.spawnAsteroids inp).spawnTimer = 0) ∧
      (¬ (app.spawnTimer ≥ app.spawnInterval ∧ app.asteroids.length < 150) →
        (app.spawnAsteroids inp).asteroids = app.asteroids ∧
        (app.spawnAsteroids inp).spawnTimer = app.spawnTimer) ∧
      ((app.spawnAsteroids inp).asteroids.length = app.asteroids.length + 1 ↔
        (app.spawnTimer ≥ app.spawnInterval ∧ app.asteroids.length < 150)) ∧
      ((app.spawnAsteroids inp).asteroids.length ≤ app.asteroids.length + 1) ∧
      (app.asteroids.length ≤ 150 → (app.spawnAsteroids inp).asteroids.length ≤ 150) := by
  by_cases h : app.spawnTimer ≥ app.spawnInterval ∧ app.asteroids.length < 150
  · have hs : app.spawnAsteroids inp =
        { app with
          asteroids := app.asteroids ++
            [MakeAsteroid C_WIDTH C_HEIGHT app.currentShape false ⟨0, 0⟩ 0 inp.spawnDraw]
          spawnTimer := 0
          spawnInterval := RandomFloat inp.spawnU C_SPAWN_MIN C_SPAWN_MAX } := by
      unfold Application.spawnAsteroids
      rw [if_pos (by simpa [MAX_AST] using h)]
    rw [hs]
    refine ⟨fun _ => ⟨rfl, rfl⟩, fun hn => absurd h hn, ?_, ?_, ?_⟩
    · simp [h]
    · simp
    · intro _
      have := h.2
      simp only [List.length_append, List.length_singleton]
      omega
  · have hs : app.spawnAsteroids inp = app := by
      unfold Application.spawnAsteroids
      rw [if_neg (by simpa [MAX_AST] using h)]
    rw [hs]
    refine ⟨fun hp => absurd hp h, fun _ => ⟨rfl, rfl⟩, ?_, ?_, ?_⟩
    · constructor
      · intro hl; omega
      · intro hp; exact absurd hp h
    · omega
    · intro hl; exact hl

theorem C18_spawn_policy_witness :
    (sampleDead.spawnTimer ≥ sampleDead.spawnInterval ∧ sampleDead.asteroids.length < 150) ∧
    (sampleDead.spawnAsteroids sampleFrame).asteroids = sampleDead.asteroids ++
      [MakeAsteroid C_WIDTH C_HEIGHT sampleDead.currentShape false ⟨0, 0⟩ 0 sampleFrame.spawnDraw] ∧
    (sampleDead.spawnAsteroids sampleFrame).spawnTimer = 0 :=
  ⟨⟨by norm_num [sampleDead], by decide⟩,
    (C18_spawn_policy sampleDead sampleFrame).1 ⟨by norm_num [sampleDead], by decide⟩⟩

/-! ## Invariants of the frame loop -/

theorem MakeAsteroid_shape (w h : Int) (shape : AsteroidShape) (split : Bool) (pos : Vector2)
    (split_size : Int) (d : AsteroidDraw) :
    (MakeAsteroid w h shape split pos split_size d).GetShape = resolvedShape shape d := by
  rw [MakeAsteroid_eq]
  rfl

theorem MakeAsteroid_spawn_size (w h : Int) (shape : AsteroidShape) (pos : Vector2)
    (split_size : Int) (d : AsteroidDraw) :
    (MakeAsteroid w h shape false pos split_size d).GetSize = 2 ^ d.sizePick.val := by
  rw [MakeAsteroid_eq]
  simp [Asteroid.GetSize, Asteroid.init]

/-- A fresh spawn is well formed. -/
theorem MakeAsteroid_spawn_wellFormed (w h : Int) (shape : AsteroidShape) (pos : Vector2)
    (split_size : Int) (d : AsteroidDraw) :
    (MakeAsteroid w h shape false pos split_size d).wellFormed := by
  refine ⟨?_, ?_⟩
  · rw [MakeAsteroid_spawn_size]
    have h3 : d.sizePick.val < 3 := d.sizePick.isLt
    interval_cases d.sizePick.val <;> simp
  · rw [MakeAsteroid_shape]
    exact resolvedShape_ne_RANDOM shape d

/-- A split child of a well-formed parent of tier above 1 is well formed, of tier 1 or 2. -/
theorem MakeAsteroid_split_wellFormed (w h : Int) (shape : AsteroidShape) (pos : Vector2)
    (split_size : Int) (d : AsteroidDraw)
    (hs : split_size = 1 ∨ split_size = 2 ∨ split_size = 4) (h1 : 1 < split_size) :
    (MakeAsteroid w h shape true pos split_size d).wellFormed ∧
      ((MakeAsteroid w h shape true pos split_size d).GetSize = 1 ∨
        (MakeAsteroid w h shape true pos split_size d).GetSize = 2) := by
  have hsz := MakeAsteroid_split_size w h shape pos split_size d
  have hcases : (MakeAsteroid w h shape true pos split_size d).GetSize = 1 ∨
      (MakeAsteroid w h shape true pos split_size d).GetSize = 2 := by
    rw [hsz]
    rcases hs with rfl | rfl | rfl
    · exact absurd h1 (by decide)
    · left; decide
    · right; decide
  refine ⟨⟨?_, ?_⟩, hcases⟩
  · rcases hcases with h | h
    · exact Or.inl h
    · exact Or.inr (Or.inl h)
  · rw [MakeAsteroid_shape]
    exact resolvedShape_ne_RANDOM shape d

theorem TakeDamage_wellFormed (a : Asteroid) (dmg : Int) (h : a.wellFormed) :
    (a.TakeDamage dmg).wellFormed := by
  obtain ⟨hsz, _, hsh⟩ := TakeDamage_fields a dmg
  unfold Asteroid.wellFormed
  rw [hsz, hsh]
  exact h

/-- `Update` changes neither size, shape, hit points nor base damage. -/
theorem asteroid_Update_fields (r : Renderer) (a : Asteroid) (dt : ℚ) :
    (a.Update r dt).1.GetSize = a.GetSize ∧ (a.Update r dt).1.GetShape = a.GetShape ∧
      (a.Update r dt).1.starting_asteroid_hp = a.starting_asteroid_hp ∧
      (a.Update r dt).1.current_asteroid_hp = a.current_asteroid_hp ∧
      (a.Update r dt).1.baseDamage = a.baseDamage := by
  unfold Asteroid.Update
  dsimp only
  split <;> exact ⟨rfl, rfl, rfl, rfl, rfl⟩

theorem asteroid_Update_wellFormed (r : Renderer) (a : Asteroid) (dt : ℚ) (h : a.wellFormed) :
    (a.Update r dt).1.wellFormed := by
  obtain ⟨hsz, hsh, _⟩ := asteroid_Update_fields r a dt
  unfold Asteroid.wellFormed
  rw [hsz, hsh]
  exact h

/-- The scan keeps a collection of well-formed asteroids well formed. -/
theorem scanAsteroids_wellFormed (draws : Nat → AsteroidDraw) (p : Projectile) (score : Int)
    (drawn : Nat) (l : List Asteroid) :
    ∀ (acc : List Asteroid) (st : CollisionState),
      (∀ a ∈ acc ++ l, a.wellFormed) → scanAsteroids draws p score drawn acc l = some st →
      ∀ a ∈ st.asteroids, a.wellFormed := by
  induction l with
  | nil => intro acc st _ h; simp [scanAsteroids] at h
  | cons b bs ih =>
    intro acc st hwf h
    have hb : b.wellFormed := hwf b (by simp)
    have hacc : ∀ a ∈ acc, a.wellFormed := fun a ha => hwf a (by simp [ha])
    have hbs : ∀ a ∈ bs, a.wellFormed := fun a ha => hwf a (by simp [ha])
    have hb1 := TakeDamage_wellFormed b p.GetDamage hb
    rw [scanAsteroids] at h
    split at h
    · dsimp only at h
      split at h
      · split at h
        · rename_i hgt
          simp only [Option.some.injEq] at h
          subst h
          have hc := fun d => (MakeAsteroid_split_wellFormed C_WIDTH C_HEIGHT
            (b.TakeDamage p.GetDamage).GetShape (b.TakeDamage p.GetDamage).GetPosition
            (b.TakeDamage p.GetDamage).GetSize d hb1.1 hgt).1
          intro a ha
          simp only [List.mem_append, List.mem_cons, List.mem_singleton, List.not_mem_nil,
            or_false] at ha
          rcases ha with (ha | ha) | (rfl | rfl)
          · exact hacc a ha
          · exact hbs a ha
          · exact hc _
          · exact hc _
        · simp only [Option.some.injEq] at h
          subst h
          intro a ha
          simp only [List.mem_append] at ha
          rcases ha with ha | ha
          · exact hacc a ha
          · exact hbs a ha
      · simp only [Option.some.injEq] at h
        subst h
        intro a ha
        simp only [List.mem_append, List.mem_cons] at ha
        rcases ha with ha | rfl | ha
        · exact hacc a ha
        · exact hb1
        · exact hbs a ha
    · apply ih (acc ++ [b]) st _ h
      intro a ha
      apply hwf
      simpa using ha

theorem projectileAsteroidCollisions_wellFormed (draws : Nat → AsteroidDraw)
    (ps : List Projectile) :
    ∀ st : CollisionState, (∀ a ∈ st.asteroids, a.wellFormed) →
      ∀ a ∈ (projectileAsteroidCollisions draws ps st).2.asteroids, a.wellFormed := by
  induction ps with
  | nil => intro st h; simpa [projectileAsteroidCollisions] using h
  | cons p ps ih =>
    intro st h
    rw [projectileAsteroidCollisions]
    split
    · rename_i st1 hscan
      exact ih st1 (scanAsteroids_wellFormed draws p st.score st.drawn st.asteroids [] st1
        (by simpa using h) hscan)
    · exact ih st h

theorem ship_TakeDamage_constructorRates (s : Ship) (dmg : Int) (h : s.constructorRates) :
    (s.TakeDamage dmg).constructorRates := by
  unfold Ship.TakeDamage
  split
  · exact h
  · dsimp only
    split <;> exact h

theorem ship_Update_constructorRates (s : Ship) (dt : ℚ) (inp : FrameInput)
    (h : s.constructorRates) : (s.Update dt inp).constructorRates := by
  unfold Ship.Update
  split <;> exact h

theorem PlayerShip_constructorRates (w h tw : Int) : (PlayerShip w h tw).constructorRates :=
  ⟨rfl, rfl, rfl, rfl, rfl, rfl⟩

/-- The asteroid-ship step keeps the asteroids well formed and the rates of the ship. -/
theorem asteroidShipCollisions_invariant (r : Renderer) (dt : ℚ) (l : List Asteroid) :
    ∀ player : Ship, (∀ a ∈ l, a.wellFormed) → player.constructorRates →
      (∀ a ∈ (asteroidShipCollisions r dt player l).2, a.wellFormed) ∧
        (asteroidShipCollisions r dt player l).1.constructorRates := by
  induction l with
  | nil => intro player _ hr; exact ⟨by simp [asteroidShipCollisions], hr⟩
  | cons b bs ih =>
    intro player hwf hr
    have hb : b.wellFormed := hwf b (List.mem_cons_self _ _)
    have hbs : ∀ a ∈ bs, a.wellFormed := fun a ha => hwf a (List.mem_cons_of_mem _ ha)
    by_cases h : (player.IsAlive &&
        distanceLess player.GetPosition b.GetPosition (player.GetRadius + b.GetRadius)) = true
    · rw [asteroidShipCollisions_cons_hit r dt player b _ h]
      exact ih _ hbs (ship_TakeDamage_constructorRates player _ hr)
    · rw [asteroidShipCollisions_cons_miss r dt player b _ h]
      obtain ⟨h1, h2⟩ := ih player hbs hr
      split
      · refine ⟨?_, h2⟩
        intro a ha
        simp only [List.mem_cons] at ha
        rcases ha with rfl | ha
        · exact asteroid_Update_wellFormed r b dt hb
        · exact h1 a ha
      · exact ⟨h1, h2⟩

/-- Whenever the firing loop returns, it leaves a timer below the interval, and a
non-negative one when it started non-negative. -/
theorem volleyLoop_timer (player : Ship) (wt : WeaponType) (interval projSpeed : ℚ) :
    ∀ (fuel : Nat) (t : ℚ) (ps : List Projectile) (res : ℚ × List Projectile),
      volleyLoop player wt interval projSpeed fuel t ps = some res →
      res.1 < interval ∧ (0 ≤ t → 0 ≤ res.1) := by
  intro fuel
  induction fuel with
  | zero =>
    intro t ps res h
    rw [volleyLoop] at h
    split at h
    · simp at h
    · rename_i hlt
      simp only [Option.some.injEq] at h
      subst h
      exact ⟨not_le.mp hlt, fun h0 => h0⟩
  | succ f ih =>
    intro t ps res h
    rw [volleyLoop] at h
    split at h
    · rename_i hge
      split at h
      · simp at h
      · obtain ⟨h1, h2⟩ := ih _ _ res h
        exact ⟨h1, fun _ => h2 (by linarith)⟩
    · rename_i hlt
      simp only [Option.some.injEq] at h
      subst h
      exact ⟨not_le.mp hlt, fun h0 => h0⟩

/-- Value of `fmodf` on a positive quotient: the remainder of the floor division. -/
theorem fmodf_of_nonneg (x y : ℚ) (hx : 0 ≤ x) (hy : 0 < y) :
    fmodf x y = x - y * (⌊x / y⌋ : ℚ) ∧ 0 ≤ fmodf x y ∧ fmodf x y < y := by
  have hq : 0 ≤ x / y := div_nonneg hx (le_of_lt hy)
  have heq : fmodf x y = x - y * (⌊x / y⌋ : ℚ) := by
    unfold fmodf
    rw [if_pos hq]
  have h1 : (⌊x / y⌋ : ℚ) ≤ x / y := Int.floor_le _
  have h2 : x / y < (⌊x / y⌋ : ℚ) + 1 := Int.lt_floor_add_one _
  have h3 : y * (⌊x / y⌋ : ℚ) ≤ x := by
    have := mul_le_mul_of_nonneg_left h1 (le_of_lt hy)
    rwa [mul_div_cancel₀ x (ne_of_gt hy)] at this
  have h4 : x < y * ((⌊x / y⌋ : ℚ) + 1) := by
    have := mul_lt_mul_of_pos_left h2 hy
    rwa [mul_div_cancel₀ x (ne_of_gt hy)] at this
  rw [heq]
  exact ⟨rfl, by linarith, by linarith⟩

/-- Fire rates read from a ship with the rates of the constructor. -/
theorem GetFireRate_constructorRates (s : Ship) (wt : WeaponType) (hr : s.constructorRates)
    (hw : wt ≠ WeaponType.COUNT) :
    ∃ rate spacing : ℚ, s.GetFireRate wt = some rate ∧ s.GetSpacing wt = some spacing ∧
      0 < rate ∧ 0 < spacing ∧
      (wt = WeaponType.LASER → rate = 7 ∧ spacing = 80) ∧
      (wt = WeaponType.BULLET → rate = 14 ∧ spacing = 60) ∧
      (wt = WeaponType.SHOTGUN → rate = 10 ∧ spacing = 50) := by
  obtain ⟨h1, h2, h3, h4, h5, h6⟩ := hr
  cases wt with
  | LASER =>
    refine ⟨_, _, rfl, rfl, ?_, ?_, ?_, ?_, ?_⟩
    · rw [h1]; norm_num
    · rw [h4]; norm_num
    · intro _; exact ⟨h1, h4⟩
    · intro h; exact absurd h (by decide)
    · intro h; exact absurd h (by decide)
  | BULLET =>
    refine ⟨_, _, rfl, rfl, ?_, ?_, ?_, ?_, ?_⟩
    · rw [h2]; norm_num
    · rw [h5]; norm_num
    · intro h; exact absurd h (by decide)
    · intro _; exact ⟨h2, h5⟩
    · intro h; exact absurd h (by decide)
  | SHOTGUN =>
    refine ⟨_, _, rfl, rfl, ?_, ?_, ?_, ?_, ?_⟩
    · rw [h3]; norm_num
    · rw [h6]; norm_num
    · intro h; exact absurd h (by decide)
    · intro h; exact absurd h (by decide)
    · intro _; exact ⟨h3, h6⟩
  | COUNT => exact absurd rfl hw

/-- The shooting block keeps the shot timer non-negative. -/
theorem shooting_timer_nonneg (fuel : Nat) (player : Ship) (wt : WeaponType) (keySpace : Bool)
    (dt t : ℚ) (ps : List Projectile) (res : ℚ × List Projectile)
    (hr : player.constructorRates) (hw : wt ≠ WeaponType.COUNT) (hdt : 0 ≤ dt) (ht : 0 ≤ t)
    (h : shooting fuel player wt keySpace dt t ps = some res) : 0 ≤ res.1 := by
  obtain ⟨rate, spacing, hrate, hspacing, hpos, _, _⟩ :=
    GetFireRate_constructorRates player wt hr hw
  have hI : (0 : ℚ) < 1 / rate := one_div_pos.mpr hpos
  unfold shooting at h
  split at h
  · simp only [hrate, hspacing] at h
    exact (volleyLoop_timer player wt (1 / rate) (spacing * rate) fuel (t + dt) ps res h).2
      (by linarith)
  · simp only [hrate] at h
    split at h
    · simp only [Option.some.injEq] at h
      subst h
      exact (fmodf_of_nonneg t (1 / rate) ht hI).2.1
    · simp only [Option.some.injEq] at h
      subst h
      exact ht

/-- The weapon switch never selects `COUNT`. -/
theorem weaponSwitch_ne_COUNT (app : Application) (inp : FrameInput)
    (h : app.currentWeapon ≠ WeaponType.COUNT) :
    (app.weaponSwitch inp).currentWeapon ≠ WeaponType.COUNT := by
  unfold Application.weaponSwitch
  split
  · cases hw : app.currentWeapon <;> simp [hw, WeaponType.toInt, WeaponType.ofInt] at h ⊢
  · exact h

theorem restart_invariant (app : Application) (inp : FrameInput) (h : app.invariant) :
    (app.restart inp).invariant := by
  obtain ⟨h1, h2, h3, h4⟩ := h
  unfold Application.restart
  split
  · split
    · exact ⟨by simp, h2, PlayerShip_constructorRates _ _ _, h4⟩
    · exact ⟨h1, h2, h3, h4⟩
  · exact ⟨h1, h2, h3, h4⟩

theorem shapeSwitch_invariant (app : Application) (inp : FrameInput) (h : app.invariant) :
    (app.shapeSwitch inp).invariant := h

theorem weaponSwitch_invariant (app : Application) (inp : FrameInput) (h : app.invariant) :
    (app.weaponSwitch inp).invariant := by
  have hw := weaponSwitch_ne_COUNT app inp h.2.1
  obtain ⟨h1, _, h3, h4⟩ := h
  refine ⟨?_, hw, ?_, ?_⟩
  · unfold Application.weaponSwitch; split <;> exact h1
  · unfold Application.weaponSwitch; split <;> exact h3
  · unfold Application.weaponSwitch; split <;> exact h4

theorem spawnAsteroids_invariant (app : Application) (inp : FrameInput) (h : app.invariant) :
    (app.spawnAsteroids inp).invariant := by
  obtain ⟨h1, h2, h3, h4⟩ := h
  unfold Application.spawnAsteroids
  split
  · refine ⟨?_, h2, h3, h4⟩
    intro a ha
    simp only [List.mem_append, List.mem_singleton] at ha
    rcases ha with ha | rfl
    · exact h1 a ha
    · exact MakeAsteroid_spawn_wellFormed _ _ _ _ _ _
  · exact ⟨h1, h2, h3, h4⟩

theorem collideProjectiles_invariant (app : Application) (inp : FrameInput)
    (h : app.invariant) : (app.collideProjectiles inp).invariant := by
  obtain ⟨h1, h2, h3, h4⟩ := h
  exact ⟨projectileAsteroidCollisions_wellFormed inp.splitDraws app.projectiles
    ⟨app.asteroids, app.score, 0⟩ h1, h2, h3, h4⟩

theorem collideShip_invariant (app : Application) (inp : FrameInput) (h : app.invariant) :
    (app.collideShip inp).invariant := by
  obtain ⟨h1, h2, h3, h4⟩ := h
  obtain ⟨k1, k2⟩ := asteroidShipCollisions_invariant Renderer.Instance inp.dt app.asteroids
    app.player h1 h3
  exact ⟨k1, h2, k2, h4⟩

/-- The state entering the shooting block of a frame. -/
theorem frame_eq (fuel : Nat) (app : Application) (inp : FrameInput) :
    app.frame fuel inp =
      match shooting fuel
          (((({ app with
            spawnTimer := app.spawnTimer + inp.dt
            player := app.player.Update inp.dt inp } : Application).restart inp).shapeSwitch
              inp).weaponSwitch inp).player
          (((({ app with
            spawnTimer := app.spawnTimer + inp.dt
            player := app.player.Update inp.dt inp } : Application).restart inp).shapeSwitch
              inp).weaponSwitch inp).currentWeapon
          inp.keySpace inp.dt
          (((({ app with
            spawnTimer := app.spawnTimer + inp.dt
            player := app.player.Update inp.dt inp } : Application).restart inp).shapeSwitch
              inp).weaponSwitch inp).shotTimer
          (((({ app with
            spawnTimer := app.spawnTimer + inp.dt
            player := app.player.Update inp.dt inp } : Application).restart inp).shapeSwitch
              inp).weaponSwitch inp).projectiles with
      | none => none
      | some res =>
        some (Application.collideShip (Application.collideProjectiles
          { Application.spawnAsteroids
              { ((({ app with
                  spawnTimer := app.spawnTimer + inp.dt
                  player := app.player.Update inp.dt inp } : Application).restart inp).shapeSwitch
                    inp).weaponSwitch inp with shotTimer := res.1, projectiles := res.2 } inp with
            projectiles := updateProjectiles Renderer.Instance inp.dt
              (Application.spawnAsteroids
                { ((({ app with
                    spawnTimer := app.spawnTimer + inp.dt
                    player := app.player.Update inp.dt inp } : Application).restart
                      inp).shapeSwitch inp).weaponSwitch inp with
                  shotTimer := res.1, projectiles := res.2 } inp).projectiles } inp) inp) := by
  unfold Application.frame
  dsimp only
  split <;> simp_all

/-- Every frame of non-negative duration preserves the invariant. -/
theorem frame_invariant (fuel : Nat) (app app1 : Application) (inp : FrameInput)
    (h : app.invariant) (hdt : 0 ≤ inp.dt) (hf : app.frame fuel inp = some app1) :
    app1.invariant := by
  have h2 : ({ app with
      spawnTimer := app.spawnTimer + inp.dt
      player := app.player.Update inp.dt inp } : Application).invariant :=
    ⟨h.1, h.2.1, ship_Update_constructorRates _ _ _ h.2.2.1, h.2.2.2⟩
  have h3 := weaponSwitch_invariant _ inp (shapeSwitch_invariant _ inp (restart_invariant _ inp h2))
  rw [frame_eq] at hf
  split at hf
  · simp at hf
  · rename_i res hres
    simp only [Option.some.injEq] at hf
    subst hf
    have ht := shooting_timer_nonneg _ _ _ _ _ _ _ res h3.2.2.1 h3.2.1 hdt h3.2.2.2 hres
    apply collideShip_invariant
    apply collideProjectiles_invariant
    have h5 := spawnAsteroids_invariant _ inp
      (show Application.invariant
        { ((({ app with
            spawnTimer := app.spawnTimer + inp.dt
            player := app.player.Update inp.dt inp } : Application).restart inp).shapeSwitch
              inp).weaponSwitch inp with shotTimer := res.1, projectiles := res.2 } from
        ⟨h3.1, h3.2.1, h3.2.2.1, ht⟩)
    exact ⟨h5.1, h5.2.1, h5.2.2.1, h5.2.2.2⟩

theorem initial_invariant (tw : Int) (u : ℚ) : (Application.initial tw u).invariant :=
  ⟨by simp [Application.initial], by simp [Application.initial],
    PlayerShip_constructorRates _ _ _, le_refl _⟩

/-- Every reachable state satisfies the invariant. -/
theorem reachable_invariant (app : Application) (h : Reachable app) : app.invariant := by
  induction h with
  | initial tw u => exact initial_invariant tw u
  | frame fuel inp _ hdt hf ih => exact frame_invariant fuel _ _ inp ih hdt hf

theorem beforeShooting_invariant (app : Application) (inp : FrameInput) (h : app.invariant) :
    (app.beforeShooting inp).invariant := by
  have h2 : ({ app with
      spawnTimer := app.spawnTimer + inp.dt
      player := app.player.Update inp.dt inp } : Application).invariant :=
    ⟨h.1, h.2.1, ship_Update_constructorRates _ _ _ h.2.2.1, h.2.2.2⟩
  exact weaponSwitch_invariant _ inp (shapeSwitch_invariant _ inp (restart_invariant _ inp h2))

/-- C13: in every state reachable from the initial state by frames (with their spawns,
projectile kills and splits, ship collisions, culling and restarts) every live asteroid has
size tier 1, 2 or 4, and so has every asteroid of the collection on which the next frame runs
its collision block (after its restart and spawn); a fresh spawn has tier 1, 2 or 4; and when a
projectile destroys an asteroid of tier above 1 in a collection of such asteroids, each of the
two split children has tier 1 or 2, so tier 4 occurs on fresh spawns only. -/
theorem C13_size_tier_invariant :
    (∀ app : Application, Reachable app →
        ∀ a ∈ app.asteroids, a.GetSize = 1 ∨ a.GetSize = 2 ∨ a.GetSize = 4) ∧
      (∀ app : Application, Reachable app → ∀ inp : FrameInput,
        ∀ a ∈ (Application.spawnAsteroids (app.beforeShooting inp) inp).asteroids,
          a.GetSize = 1 ∨ a.GetSize = 2 ∨ a.GetSize = 4) ∧
      (∀ (w h : Int) (shape : AsteroidShape) (pos : Vector2) (split_size : Int)
          (d : AsteroidDraw),
        (MakeAsteroid w h shape false pos split_size d).GetSize = 1 ∨
        (MakeAsteroid w h shape false pos split_size d).GetSize = 2 ∨
        (MakeAsteroid w h shape false pos split_size d).GetSize = 4) ∧
      (∀ (draws : Nat → AsteroidDraw) (p : Projectile) (score : Int) (drawn : Nat)
          (pre : List Asteroid) (a : Asteroid) (rest : List Asteroid),
        (∀ b ∈ pre ++ a :: rest, b.GetSize = 1 ∨ b.GetSize = 2 ∨ b.GetSize = 4) →
        (∀ b ∈ pre, hits p b = false) → hits p a = true →
        (a.TakeDamage p.GetDamage).IsCrashed = true → 1 < a.GetSize →
        ∃ c1 c2 st, scanAsteroids draws p score drawn [] (pre ++ a :: rest) = some st ∧
          st.asteroids = pre ++ rest ++ [c1, c2] ∧
          (c1.GetSize = 1 ∨ c1.GetSize = 2) ∧ (c2.GetSize = 1 ∨ c2.GetSize = 2)) := by
  refine ⟨?_, ?_, ?_, ?_⟩
  · intro app hr a ha
    exact ((reachable_invariant app hr).1 a ha).1
  · intro app hr inp a ha
    exact ((spawnAsteroids_invariant _ inp
      (beforeShooting_invariant app inp (reachable_invariant app hr))).1 a ha).1
  · intro w h shape pos split_size d
    exact (MakeAsteroid_spawn_wellFormed w h shape pos split_size d).1
  · intro draws p score drawn pre a rest hsz hmiss hhit hcrash hgt
    have hscan := scanAsteroids_first_hit draws p score drawn pre a rest hmiss hhit
    obtain ⟨hsize, _, _⟩ := TakeDamage_fields a p.GetDamage
    have ha : a.GetSize = 1 ∨ a.GetSize = 2 ∨ a.GetSize = 4 := hsz a (by simp)
    have hgt1 : (a.TakeDamage p.GetDamage).GetSize > 1 := by rw [hsize]; exact hgt
    rw [if_pos hcrash, if_pos hgt1] at hscan
    refine ⟨_, _, _, hscan, rfl, ?_, ?_⟩
    · exact (MakeAsteroid_split_wellFormed _ _ _ _ _ _ (by rw [hsize]; exact ha) hgt1).2
    · exact (MakeAsteroid_split_wellFormed _ _ _ _ _ _ (by rw [hsize]; exact ha) hgt1).2

/-- C14: for every shape selector and every draw, the factory (a total function: its one
recursive call, for `RANDOM`, is on a resolved shape) returns an asteroid whose stored shape
is Triangle, Square or Pentagon, the requested one unless `RANDOM` was requested, with base
damage 5, 10, 15 respectively. No asteroid of a reachable state, nor of the collection on
which the next frame runs its collision block, has the shape `RANDOM`, and when a projectile
destroys an asteroid of a resolved shape and tier above 1, both split children have the shape
of the destroyed parent; the collision block does not read the selected shape. -/
theorem C14_shape_resolution :
    (∀ (w h : Int) (shape : AsteroidShape) (split : Bool) (pos : Vector2) (split_size : Int)
        (d : AsteroidDraw),
      ((MakeAsteroid w h shape split pos split_size d).GetShape = .TRIANGLE ∧
          (MakeAsteroid w h shape split pos split_size d).baseDamage = 5 ∨
        (MakeAsteroid w h shape split pos split_size d).GetShape = .SQUARE ∧
          (MakeAsteroid w h shape split pos split_size d).baseDamage = 10 ∨
        (MakeAsteroid w h shape split pos split_size d).GetShape = .PENTAGON ∧
          (MakeAsteroid w h shape split pos split_size d).baseDamage = 15) ∧
      (MakeAsteroid w h shape split pos split_size d).GetShape ≠ .RANDOM ∧
      (shape ≠ .RANDOM → (MakeAsteroid w h shape split pos split_size d).GetShape = shape)) ∧
    (∀ app : Application, Reachable app → ∀ a ∈ app.asteroids, a.GetShape ≠ .RANDOM) ∧
    (∀ app : Application, Reachable app → ∀ inp : FrameInput,
      ∀ a ∈ (Application.spawnAsteroids (app.beforeShooting inp) inp).asteroids,
        a.GetShape ≠ .RANDOM) ∧
    (∀ (draws : Nat → AsteroidDraw) (p : Projectile) (score : Int) (drawn : Nat)
        (pre : List Asteroid) (a : Asteroid) (rest : List Asteroid),
      a.GetShape ≠ .RANDOM → (∀ b ∈ pre, hits p b = false) → hits p a = true →
      (a.TakeDamage p.GetDamage).IsCrashed = true → 1 < a.GetSize →
      ∃ c1 c2 st, scanAsteroids draws p score drawn [] (pre ++ a :: rest) = some st ∧
        st.asteroids = pre ++ rest ++ [c1, c2] ∧
        c1.GetShape = a.GetShape ∧ c2.GetShape = a.GetShape) ∧
    (∀ (app : Application) (inp : FrameInput) (selector : AsteroidShape),
      (Application.collideProjectiles { app with currentShape := selector } inp).asteroids =
        (app.collideProjectiles inp).asteroids) := by
  refine ⟨?_, ?_, ?_, ?_, ?_⟩
  · intro w h shape split pos split_size d
    have hne := resolvedShape_ne_RANDOM shape d
    refine ⟨?_, ?_, ?_⟩
    · rw [MakeAsteroid_eq]
      simp only [Asteroid.GetShape, Asteroid.init]
      cases hr : resolvedShape shape d with
      | TRIANGLE => exact Or.inl ⟨rfl, rfl⟩
      | SQUARE => exact Or.inr (Or.inl ⟨rfl, rfl⟩)
      | PENTAGON => exact Or.inr (Or.inr ⟨rfl, rfl⟩)
      | RANDOM => exact absurd hr hne
    · rw [MakeAsteroid_shape]; exact hne
    · intro hs
      rw [MakeAsteroid_shape]
      cases shape with
      | TRIANGLE => rfl
      | SQUARE => rfl
      | PENTAGON => rfl
      | RANDOM => exact absurd rfl hs
  · intro app hr a ha
    exact ((reachable_invariant app hr).1 a ha).2
  · intro app hr inp a ha
    exact ((spawnAsteroids_invariant _ inp
      (beforeShooting_invariant app inp (reachable_invariant app hr))).1 a ha).2
  · intro draws p score drawn pre a rest hshape hmiss hhit hcrash hgt
    have hscan := scanAsteroids_first_hit draws p score drawn pre a rest hmiss hhit
    obtain ⟨hsize, _, hsh⟩ := TakeDamage_fields a p.GetDamage
    have hgt1 : (a.TakeDamage p.GetDamage).GetSize > 1 := by rw [hsize]; exact hgt
    rw [if_pos hcrash, if_pos hgt1] at hscan
    have hres : resolvedShape a.GetShape = fun _ => a.GetShape := by
      funext d
      cases hq : a.GetShape with
      | TRIANGLE => rfl
      | SQUARE => rfl
      | PENTAGON => rfl
      | RANDOM => exact absurd hq hshape
    refine ⟨_, _, _, hscan, rfl, ?_, ?_⟩
    · rw [MakeAsteroid_shape, hsh, hres]
    · rw [MakeAsteroid_shape, hsh, hres]
  · intro app inp selector
    rfl

/-! ## Hit points of split children -/

theorem TakeDamage_starting (a : Asteroid) (dmg : Int) :
    (a.TakeDamage dmg).starting_asteroid_hp = a.starting_asteroid_hp := by
  unfold Asteroid.TakeDamage
  split
  · rfl
  · dsimp only
    split <;> rfl

/-- Starting hit points of a factory-built asteroid: the factor of its shape times its own size
for a fresh spawn, times the size handed over by the parent for a split child. -/
theorem MakeAsteroid_starting (w h : Int) (shape : AsteroidShape) (split : Bool) (pos : Vector2)
    (split_size : Int) (d : AsteroidDraw) :
    (MakeAsteroid w h shape split pos split_size d).starting_asteroid_hp =
      if split then
        ((Asteroid.hpFactor (MakeAsteroid w h shape split pos split_size d).GetShape
          * split_size : Int) : ℚ)
      else
        ((Asteroid.hpFactor (MakeAsteroid w h shape split pos split_size d).GetShape
          * (MakeAsteroid w h shape split pos split_size d).GetSize : Int) : ℚ) := by
  rw [MakeAsteroid_eq]
  cases split <;> simp [Asteroid.init, Asteroid.GetShape, Asteroid.GetSize]

theorem sampleChild_eq :
    sampleChild =
      { shape := .TRIANGLE, crashed := false, starting_asteroid_hp := 400,
        current_asteroid_hp := 200,
        transform := { position := ⟨100, 110⟩, rotation := RandomFloat 0 0 360 },
        physics := { velocity := ⟨3, 4⟩, rotationSpeed := RandomFloat 0 50 240 },
        render := { size := 2 }, baseDamage := 5 } := by
  unfold sampleChild
  rw [MakeAsteroid_eq]
  norm_num [Asteroid.TakeDamage, Asteroid.init, resolvedShape, shapeBaseDamage, sampleDraw,
    Asteroid.hpFactor, Int.tdiv, Asteroid.ROT_MIN, Asteroid.ROT_MAX]

/-- C12, as stated, fails for a parent that is itself a split child: a tier-2 triangle born of
a tier-4 triangle has 400 starting hit points, and the two children pushed when a laser destroys
it have 200 starting and current hit points, half of 400. -/
theorem C12_counterexample :
    sampleChild = (MakeAsteroid C_WIDTH C_HEIGHT .TRIANGLE true ⟨100, 110⟩ 4 sampleDraw).TakeDamage
        200 ∧
      sampleChild.starting_asteroid_hp = 400 ∧ 1 < sampleChild.GetSize ∧
      hits sampleLaser sampleChild = true ∧
      (sampleChild.TakeDamage sampleLaser.GetDamage).IsCrashed = true ∧
      ∃ c1 c2 : Asteroid,
        scanAsteroids (fun _ => sampleDraw) sampleLaser 0 0 [] [sampleChild] =
          some ⟨[c1, c2], 14, 2⟩ ∧
        c1.starting_asteroid_hp = 200 ∧ c1.current_asteroid_hp = 200 ∧
        c2.starting_asteroid_hp = 200 ∧ c2.current_asteroid_hp = 200 ∧
        c1.starting_asteroid_hp ≠ sampleChild.starting_asteroid_hp ∧
        c2.starting_asteroid_hp ≠ sampleChild.starting_asteroid_hp := by
  have hhit : hits sampleLaser sampleChild = true := by
    have hr : sampleLaser.GetRadius = 2 := rfl
    rw [hits, hr, sampleChild_eq]
    norm_num [distanceLess, Vector2DistanceSqr, sampleLaser, Projectile.new,
      Projectile.GetPosition, Asteroid.GetPosition, Asteroid.GetRadius]
  have hdmg : sampleLaser.GetDamage = 200 := rfl
  have htd : sampleChild.TakeDamage 200 =
      { shape := .TRIANGLE, crashed := true, starting_asteroid_hp := 400,
        current_asteroid_hp := 0,
        transform := { position := ⟨100, 110⟩, rotation := RandomFloat 0 0 360 },
        physics := { velocity := ⟨3, 4⟩, rotationSpeed := RandomFloat 0 50 240 },
        render := { size := 2 }, baseDamage := 5 } := by
    rw [sampleChild_eq]
    norm_num [Asteroid.TakeDamage]
  have hcrash : (sampleChild.TakeDamage sampleLaser.GetDamage).IsCrashed = true := by
    rw [hdmg, htd]; rfl
  have hscan := scanAsteroids_first_hit (fun _ => sampleDraw) sampleLaser 0 0 [] sampleChild []
    (by simp) hhit
  have hsz : (sampleChild.TakeDamage sampleLaser.GetDamage).GetSize = 2 := by
    rw [hdmg, htd]; rfl
  rw [if_pos hcrash, if_pos (by rw [hsz]; decide), hsz] at hscan
  have hstart : sampleChild.starting_asteroid_hp = 400 := by rw [sampleChild_eq]
  have hc : ∀ d : AsteroidDraw,
      (MakeAsteroid C_WIDTH C_HEIGHT (sampleChild.TakeDamage sampleLaser.GetDamage).GetShape true
        (sampleChild.TakeDamage sampleLaser.GetDamage).GetPosition 2 d).starting_asteroid_hp
          = 200 := by
    intro d
    rw [MakeAsteroid_starting, MakeAsteroid_shape, hdmg, htd]
    norm_num [Asteroid.GetShape, resolvedShape, Asteroid.hpFactor]
  refine ⟨rfl, hstart, by rw [sampleChild_eq]; decide, hhit, hcrash,
    MakeAsteroid C_WIDTH C_HEIGHT (sampleChild.TakeDamage sampleLaser.GetDamage).GetShape true
      (sampleChild.TakeDamage sampleLaser.GetDamage).GetPosition 2 sampleDraw,
    MakeAsteroid C_WIDTH C_HEIGHT (sampleChild.TakeDamage sampleLaser.GetDamage).GetShape true
      (sampleChild.TakeDamage sampleLaser.GetDamage).GetPosition 2 sampleDraw,
    ?_, hc _, ?_, hc _, ?_, ?_, ?_⟩
  · simpa using hscan
  · rw [MakeAsteroid_full_hp]; exact hc _
  · rw [MakeAsteroid_full_hp]; exact hc _
  · rw [hc, hstart]; norm_num
  · rw [hc, hstart]; norm_num

/-- Repeated damage changes neither starting hit points, size nor shape. -/
theorem foldl_TakeDamage_fields (dmgs : List Int) :
    ∀ a : Asteroid,
      (dmgs.foldl Asteroid.TakeDamage a).starting_asteroid_hp = a.starting_asteroid_hp ∧
        (dmgs.foldl Asteroid.TakeDamage a).GetSize = a.GetSize ∧
        (dmgs.foldl Asteroid.TakeDamage a).GetShape = a.GetShape := by
  induction dmgs with
  | nil => intro a; exact ⟨rfl, rfl, rfl⟩
  | cons x xs ih =>
    intro a
    obtain ⟨h1, h2, h3⟩ := ih (a.TakeDamage x)
    obtain ⟨k2, _, k3⟩ := TakeDamage_fields a x
    simp only [List.foldl_cons]
    exact ⟨h1.trans (TakeDamage_starting a x), h2.trans k2, h3.trans k3⟩

/-- C12 (amended): when a projectile destroys an asteroid of a resolved shape and size tier
above 1, each of the two split children is created with starting and current hit points equal
to the hit-point factor of the shape times the size tier of the destroyed parent. That is the
starting hit points of the parent when the parent was a fresh spawn (whose starting hit points
are the factor times its own tier), and half of them when the parent was itself a split child
(whose starting hit points are the factor times twice its own tier). -/
theorem C12_children_hp (draws : Nat → AsteroidDraw) (p : Projectile) (score : Int)
    (drawn : Nat) (pre : List Asteroid) (a : Asteroid) (rest : List Asteroid)
    (hshape : a.GetShape ≠ AsteroidShape.RANDOM)
    (hmiss : ∀ b ∈ pre, hits p b = false) (hhit : hits p a = true)
    (hcrash : (a.TakeDamage p.GetDamage).IsCrashed = true) (hgt : 1 < a.GetSize) :
    (∃ c1 c2 st, scanAsteroids draws p score drawn [] (pre ++ a :: rest) = some st ∧
        st.asteroids = pre ++ rest ++ [c1, c2] ∧
        c1.starting_asteroid_hp = ((Asteroid.hpFactor a.GetShape * a.GetSize : Int) : ℚ) ∧
        c1.current_asteroid_hp = c1.starting_asteroid_hp ∧
        c2.starting_asteroid_hp = ((Asteroid.hpFactor a.GetShape * a.GetSize : Int) : ℚ) ∧
        c2.current_asteroid_hp = c2.starting_asteroid_hp ∧
        (a.starting_asteroid_hp = ((Asteroid.hpFactor a.GetShape * a.GetSize : Int) : ℚ) →
          c1.starting_asteroid_hp = a.starting_asteroid_hp ∧
          c2.starting_asteroid_hp = a.starting_asteroid_hp) ∧
        (a.starting_asteroid_hp = ((Asteroid.hpFactor a.GetShape * (2 * a.GetSize) : Int) : ℚ) →
          2 * c1.starting_asteroid_hp = a.starting_asteroid_hp ∧
          2 * c2.starting_asteroid_hp = a.starting_asteroid_hp)) ∧
      (∀ (w h : Int) (shape : AsteroidShape) (pos : Vector2) (split_size : Int)
          (d : AsteroidDraw) (dmgs : List Int),
        (dmgs.foldl Asteroid.TakeDamage
            (MakeAsteroid w h shape false pos split_size d)).starting_asteroid_hp =
          ((Asteroid.hpFactor (dmgs.foldl Asteroid.TakeDamage
              (MakeAsteroid w h shape false pos split_size d)).GetShape *
            (dmgs.foldl Asteroid.TakeDamage
              (MakeAsteroid w h shape false pos split_size d)).GetSize : Int) : ℚ)) ∧
      (∀ (w h : Int) (shape : AsteroidShape) (pos : Vector2) (d : AsteroidDraw)
          (dmgs : List Int),
        (dmgs.foldl Asteroid.TakeDamage (MakeAsteroid w h shape true pos 4 d)).GetSize = 2 ∧
        (dmgs.foldl Asteroid.TakeDamage
            (MakeAsteroid w h shape true pos 4 d)).starting_asteroid_hp =
          ((Asteroid.hpFactor (dmgs.foldl Asteroid.TakeDamage
              (MakeAsteroid w h shape true pos 4 d)).GetShape *
            (2 * (dmgs.foldl Asteroid.TakeDamage
              (MakeAsteroid w h shape true pos 4 d)).GetSize) : Int) : ℚ)) := by
  refine ⟨?_, ?_, ?_⟩
  · have hscan := scanAsteroids_first_hit draws p score drawn pre a rest hmiss hhit
    obtain ⟨hsize, _, hsh⟩ := TakeDamage_fields a p.GetDamage
    have hgt1 : (a.TakeDamage p.GetDamage).GetSize > 1 := by rw [hsize]; exact hgt
    rw [if_pos hcrash, if_pos hgt1] at hscan
    have hc : ∀ d : AsteroidDraw,
        (MakeAsteroid C_WIDTH C_HEIGHT (a.TakeDamage p.GetDamage).GetShape true
          (a.TakeDamage p.GetDamage).GetPosition (a.TakeDamage p.GetDamage).GetSize
            d).starting_asteroid_hp = ((Asteroid.hpFactor a.GetShape * a.GetSize : Int) : ℚ) := by
      intro d
      rw [MakeAsteroid_starting, MakeAsteroid_shape, hsh, hsize]
      have hres : resolvedShape a.GetShape d = a.GetShape := by
        cases hq : a.GetShape with
        | TRIANGLE => rfl
        | SQUARE => rfl
        | PENTAGON => rfl
        | RANDOM => exact absurd hq hshape
      rw [hres]
      rfl
    refine ⟨_, _, _, hscan, rfl, hc _, MakeAsteroid_full_hp _ _ _ _ _ _ _, hc _,
      MakeAsteroid_full_hp _ _ _ _ _ _ _, ?_, ?_⟩
    · intro hp
      rw [hc, hc, hp]
      exact ⟨rfl, rfl⟩
    · intro hp
      rw [hc, hc, hp]
      push_cast
      constructor <;> ring
  · intro w h shape pos split_size d dmgs
    obtain ⟨h1, h2, h3⟩ := foldl_TakeDamage_fields dmgs
      (MakeAsteroid w h shape false pos split_size d)
    rw [h1, h2, h3, MakeAsteroid_starting]
    rfl
  · intro w h shape pos d dmgs
    obtain ⟨h1, h2, h3⟩ := foldl_TakeDamage_fields dmgs (MakeAsteroid w h shape true pos 4 d)
    have hsz : (MakeAsteroid w h shape true pos 4 d).GetSize = 2 := by
      rw [MakeAsteroid_split_size]; decide
    rw [h1, h2, h3, hsz, MakeAsteroid_starting]
    exact ⟨rfl, rfl⟩

theorem C12_children_hp_witness :
    (sampleNear.GetShape ≠ AsteroidShape.RANDOM ∧ (∀ b ∈ [sampleFar], hits sampleLaser b = false) ∧
      hits sampleLaser sampleNear = true ∧
      (sampleNear.TakeDamage sampleLaser.GetDamage).IsCrashed = true ∧ 1 < sampleNear.GetSize) ∧
    ∃ c1 c2 st,
      scanAsteroids (fun _ => sampleDraw) sampleLaser 0 0 []
          ([sampleFar] ++ sampleNear :: [sampleBig]) = some st ∧
      st.asteroids = [sampleFar] ++ [sampleBig] ++ [c1, c2] ∧
      c1.starting_asteroid_hp =
        ((Asteroid.hpFactor sampleNear.GetShape * sampleNear.GetSize : Int) : ℚ) ∧
      c1.current_asteroid_hp = c1.starting_asteroid_hp ∧
      c2.starting_asteroid_hp =
        ((Asteroid.hpFactor sampleNear.GetShape * sampleNear.GetSize : Int) : ℚ) ∧
      c2.current_asteroid_hp = c2.starting_asteroid_hp ∧
      (sampleNear.starting_asteroid_hp =
          ((Asteroid.hpFactor sampleNear.GetShape * sampleNear.GetSize : Int) : ℚ) →
        c1.starting_asteroid_hp = sampleNear.starting_asteroid_hp ∧
        c2.starting_asteroid_hp = sampleNear.starting_asteroid_hp) ∧
      (sampleNear.starting_asteroid_hp =
          ((Asteroid.hpFactor sampleNear.GetShape * (2 * sampleNear.GetSize) : Int) : ℚ) →
        2 * c1.starting_asteroid_hp = sampleNear.starting_asteroid_hp ∧
        2 * c2.starting_asteroid_hp = sampleNear.starting_asteroid_hp) :=
  ⟨⟨by decide, sampleFar_miss, sampleNear_hit, sampleNear_crashes, by decide⟩,
    (C12_children_hp (fun _ => sampleDraw) sampleLaser 0 0 [sampleFar] sampleNear [sampleBig]
      (by decide) sampleFar_miss sampleNear_hit sampleNear_crashes (by decide)).1⟩

/-! ## The firing loop in `float` arithmetic -/

/-- An integer within a half of `x` is the nearest integer. -/
theorem roundHalfEven_eq (x : ℚ) (m : Int) (h1 : x - 1 / 2 < (m : ℚ))
    (h2 : (m : ℚ) < x + 1 / 2) : roundHalfEven x = m := by
  have hf1 : (⌊x⌋ : ℚ) ≤ x := Int.floor_le x
  have hf2 : x < (⌊x⌋ : ℚ) + 1 := Int.lt_floor_add_one x
  unfold roundHalfEven
  split
  · rename_i h
    have a : (⌊x⌋ : ℚ) - 1 < (m : ℚ) := by linarith
    have b : (m : ℚ) < (⌊x⌋ : ℚ) + 1 := by linarith
    have a1 : ⌊x⌋ - 1 < m := by exact_mod_cast a
    have b1 : m < ⌊x⌋ + 1 := by exact_mod_cast b
    omega
  · rename_i h
    split
    · rename_i h3
      have a : (⌊x⌋ : ℚ) < (m : ℚ) := by linarith
      have b : (m : ℚ) < (⌊x⌋ : ℚ) + 2 := by linarith
      have a1 : ⌊x⌋ < m := by exact_mod_cast a
      have b1 : m < ⌊x⌋ + 2 := by exact_mod_cast b
      omega
    · rename_i h3
      have e : x - (⌊x⌋ : ℚ) = 1 / 2 := le_antisymm (not_lt.mp h3) (not_lt.mp h)
      have a : (⌊x⌋ : ℚ) < (m : ℚ) := by linarith
      have b : (m : ℚ) < (⌊x⌋ : ℚ) + 1 := by linarith
      have a1 : ⌊x⌋ < m := by exact_mod_cast a
      have b1 : m < ⌊x⌋ + 1 := by exact_mod_cast b
      omega

/-- Halfway between two integers the even one is taken. -/
theorem roundHalfEven_tie (x : ℚ) (f m : Int) (h : x = (f : ℚ) + 1 / 2)
    (hm : (f % 2 = 0 ∧ m = f) ∨ (f % 2 = 1 ∧ m = f + 1)) : roundHalfEven x = m := by
  have hfl : ⌊x⌋ = f := by
    rw [Int.floor_eq_iff, h]
    constructor <;> linarith
  have e : x - (f : ℚ) = 1 / 2 := by rw [h]; ring
  unfold roundHalfEven
  rw [hfl, e, if_neg (lt_irrefl _), if_neg (lt_irrefl _)]
  rcases hm with ⟨h0, rfl⟩ | ⟨h1, rfl⟩
  · rw [if_pos h0]
  · rw [if_neg (by omega)]

/-- The binary exponent of a positive rational from its binade. -/
theorem log_two_eq (x : ℚ) (e : Int) (hx : 0 < x) (h1 : (2 : ℚ) ^ e ≤ x)
    (h2 : x < (2 : ℚ) ^ (e + 1)) : Int.log 2 x = e := by
  have a : e ≤ Int.log 2 x := by
    rw [← Int.zpow_le_iff_le_log (by norm_num) hx]; exact_mod_cast h1
  have b : Int.log 2 x < e + 1 := by
    rw [← Int.lt_zpow_iff_log_lt (by norm_num) hx]; exact_mod_cast h2
  omega

/-- How a `float` rounding is evaluated: for `x` in the binade of exponent `e`, the multiple
`m * 2 ^ (e - 23)` less than half a unit away from `x`. -/
theorem binary32_eq (x b : ℚ) (e m : Int) (hx : 0 < x) (he : -126 ≤ e) (h1 : (2 : ℚ) ^ e ≤ x)
    (h2 : x < (2 : ℚ) ^ (e + 1)) (h3 : x / 2 ^ (e - 23) - 1 / 2 < (m : ℚ))
    (h4 : (m : ℚ) < x / 2 ^ (e - 23) + 1 / 2) (hb : (m : ℚ) * 2 ^ (e - 23) = b) :
    binary32 x = b := by
  unfold binary32
  rw [if_neg (ne_of_gt hx), abs_of_pos hx, log_two_eq x e hx h1 h2, max_eq_left he,
    roundHalfEven_eq _ m h3 h4, hb]

/-- How a `float` rounding is evaluated halfway between two neighbours: the one with the even
significand is taken. -/
theorem binary32_tie (x b : ℚ) (e f m : Int) (hx : 0 < x) (he : -126 ≤ e)
    (h1 : (2 : ℚ) ^ e ≤ x) (h2 : x < (2 : ℚ) ^ (e + 1))
    (h3 : x / 2 ^ (e - 23) = (f : ℚ) + 1 / 2)
    (hm : (f % 2 = 0 ∧ m = f) ∨ (f % 2 = 1 ∧ m = f + 1))
    (hb : (m : ℚ) * 2 ^ (e - 23) = b) : binary32 x = b := by
  unfold binary32
  rw [if_neg (ne_of_gt hx), abs_of_pos hx, log_two_eq x e hx h1 h2, max_eq_left he,
    roundHalfEven_tie _ f m h3 hm, hb]

/-- The rounded firing loop along a given sequence of timer values: when each value is at least
the interval and is followed by the rounded difference, and the last one is below the interval,
the loop returns exactly when it has fuel for one iteration per step, with that last value and
one volley per step. -/
theorem volleyLoop32_steps (player : Ship) (wt : WeaponType) (interval projSpeed : ℚ)
    (hw : wt ≠ WeaponType.COUNT) :
    ∀ (ts : List ℚ) (t : ℚ) (ps : List Projectile),
      List.Chain (fun a b => interval ≤ a ∧ binary32 (a - interval) = b) t ts →
      (t :: ts).getLast (List.cons_ne_nil t ts) < interval →
      (∃ new : List Projectile, new.length = ts.length * pelletsPerVolley wt ∧
        ∀ fuel : Nat, ts.length ≤ fuel →
          volleyLoop32 player wt interval projSpeed fuel t ps =
            some ((t :: ts).getLast (List.cons_ne_nil t ts), ps ++ new)) ∧
      ∀ fuel : Nat, fuel < ts.length →
        volleyLoop32 player wt interval projSpeed fuel t ps = none := by
  intro ts
  induction ts with
  | nil =>
    intro t ps _ hlast
    simp only [List.getLast_singleton] at hlast ⊢
    refine ⟨⟨[], by simp, fun fuel _ => ?_⟩, fun fuel hf => by simp at hf⟩
    cases fuel <;> rw [volleyLoop32, if_neg (not_le.mpr hlast), List.append_nil]
  | cons t1 ts ih =>
    intro t ps hch hlast
    rw [List.chain_cons] at hch
    obtain ⟨⟨hge, hstep⟩, hch1⟩ := hch
    obtain ⟨v, hv, hvl⟩ := emitVolley_spec player wt projSpeed ps hw
    have hlast1 : (t1 :: ts).getLast (List.cons_ne_nil t1 ts) < interval := by
      simpa [List.getLast_cons_cons] using hlast
    obtain ⟨⟨new, hlen, hsome⟩, hnone⟩ := ih t1 (ps ++ v) hch1 hlast1
    have hl : (t :: t1 :: ts).getLast (List.cons_ne_nil t (t1 :: ts)) =
        (t1 :: ts).getLast (List.cons_ne_nil t1 ts) := by
      simp [List.getLast_cons_cons]
    refine ⟨⟨v ++ new, ?_, ?_⟩, ?_⟩
    · rw [List.length_append, hlen, hvl, List.length_cons]; ring
    · intro fuel hf
      obtain ⟨f, rfl⟩ : ∃ f, fuel = f + 1 := ⟨fuel - 1, by simp at hf; omega⟩
      rw [volleyLoop32, if_pos hge]
      simp only [hv, hstep]
      rw [hsome f (by simp at hf; omega), hl, List.append_assoc]
    · intro fuel hf
      cases fuel with
      | zero => rw [volleyLoop32, if_pos hge]
      | succ f =>
        rw [volleyLoop32, if_pos hge]
        simp only [hv, hstep]
        exact hnone f (by simp at hf; omega)

/-- The rounded firing loop at a timer value that the subtraction leaves unchanged: the loop
condition stays true, and no amount of fuel lets the loop return. -/
theorem volleyLoop32_absorbed (player : Ship) (wt : WeaponType) (interval projSpeed t : ℚ)
    (hge : interval ≤ t) (hfix : binary32 (t - interval) = t) :
    ∀ (fuel : Nat) (ps : List Projectile),
      volleyLoop32 player wt interval projSpeed fuel t ps = none := by
  intro fuel
  induction fuel with
  | zero => intro ps; rw [volleyLoop32, if_pos hge]
  | succ f ih =>
    intro ps
    rw [volleyLoop32, if_pos hge]
    cases emitVolley player wt projSpeed ps with
    | none => rfl
    | some l =>
      simp only [hfix]
      exact ih l

/-- The `float` intervals of Laser and Shotgun: both are above the exact quotient. -/
theorem binary32_intervals :
    binary32 (1 / 7) = 9586981 / 67108864 ∧ binary32 (1 / 10) = 13421773 / 134217728 ∧
      (1 / 7 : ℚ) < 9586981 / 67108864 ∧ (1 / 10 : ℚ) < 13421773 / 134217728 :=
  ⟨binary32_eq _ _ (-3) 9586981 (by norm_num) (by norm_num) (by norm_num) (by norm_num)
      (by norm_num) (by norm_num) (by norm_num),
    binary32_eq _ _ (-4) 13421773 (by norm_num) (by norm_num) (by norm_num) (by norm_num)
      (by norm_num) (by norm_num) (by norm_num), by norm_num, by norm_num⟩

/-- The `float` shooting block with fire held and the ship alive is the `float` firing loop on
the rounded sum `shotTimer + dt`. -/
theorem shooting32_held (fuel : Nat) (player : Ship) (wt : WeaponType) (rate spacing dt t : ℚ)
    (ps : List Projectile) (halive : player.IsAlive = true)
    (hrate : player.GetFireRate wt = some rate) (hspacing : player.GetSpacing wt = some spacing) :
    shooting32 fuel player wt true dt t ps =
      volleyLoop32 player wt (binary32 (1 / rate)) (binary32 (spacing * rate)) fuel
        (binary32 (t + dt)) ps := by
  unfold shooting32
  simp only [halive, Bool.and_self, if_true, hrate, hspacing]

/-- The `float` shooting block when fire is not held or the ship is dead: the fold with the
rounded interval. -/
theorem shooting32_idle (fuel : Nat) (player : Ship) (wt : WeaponType) (rate : ℚ)
    (keySpace : Bool) (dt t : ℚ) (ps : List Projectile)
    (hrate : player.GetFireRate wt = some rate)
    (hidle : (player.IsAlive && keySpace) = false) :
    shooting32 fuel player wt keySpace dt t ps =
      some (if t > binary32 (1 / rate) then fmodf t (binary32 (1 / rate)) else t, ps) := by
  unfold shooting32
  simp only [hidle, Bool.false_eq_true, if_false, hrate]
  split <;> rfl

/-- Timer values of the `float` firing loop for Shotgun (interval `binary32 (1 / 10)`) started
at 1 s: nine subtractions, each rounded. -/
theorem shotgun_second_trace :
    List.Chain
      (fun a b : ℚ => 13421773 / 134217728 ≤ a ∧ binary32 (a - 13421773 / 134217728) = b)
      1 [7549747 / 8388608, 3355443 / 4194304, 5872025 / 8388608, 1258291 / 2097152,
        16777213 / 33554432, 6710885 / 16777216, 10066327 / 33554432, 1677721 / 8388608,
        13421763 / 134217728] :=
  List.Chain.cons ⟨by norm_num,
    binary32_eq _ _ (-1) 15099494 (by norm_num) (by norm_num) (by norm_num)
      (by norm_num) (by norm_num) (by norm_num) (by norm_num)⟩ <|
  List.Chain.cons ⟨by norm_num,
    binary32_eq _ _ (-1) 13421772 (by norm_num) (by norm_num) (by norm_num)
      (by norm_num) (by norm_num) (by norm_num) (by norm_num)⟩ <|
  List.Chain.cons ⟨by norm_num,
    binary32_eq _ _ (-1) 11744050 (by norm_num) (by norm_num) (by norm_num)
      (by norm_num) (by norm_num) (by norm_num) (by norm_num)⟩ <|
  List.Chain.cons ⟨by norm_num,
    binary32_eq _ _ (-1) 10066328 (by norm_num) (by norm_num) (by norm_num)
      (by norm_num) (by norm_num) (by norm_num) (by norm_num)⟩ <|
  List.Chain.cons ⟨by norm_num,
    binary32_eq _ _ (-2) 16777213 (by norm_num) (by norm_num) (by norm_num)
      (by norm_num) (by norm_num) (by norm_num) (by norm_num)⟩ <|
  List.Chain.cons ⟨by norm_num,
    binary32_eq _ _ (-2) 13421770 (by norm_num) (by norm_num) (by norm_num)
      (by norm_num) (by norm_num) (by norm_num) (by norm_num)⟩ <|
  List.Chain.cons ⟨by norm_num,
    binary32_eq _ _ (-2) 10066327 (by norm_num) (by norm_num) (by norm_num)
      (by norm_num) (by norm_num) (by norm_num) (by norm_num)⟩ <|
  List.Chain.cons ⟨by norm_num,
    binary32_tie _ _ (-3) 13421767 13421768 (by norm_num) (by norm_num) (by norm_num)
      (by norm_num) (by norm_num) (by decide) (by norm_num)⟩ <|
  List.Chain.cons ⟨by norm_num,
    binary32_eq _ _ (-4) 13421763 (by norm_num) (by norm_num) (by norm_num)
      (by norm_num) (by norm_num) (by norm_num) (by norm_num)⟩ <|
  List.Chain.nil

/-- Timer values of the `float` firing loop for Laser (interval `binary32 (1 / 7)`) started at
1 s: seven subtractions, each rounded. -/
theorem laser_second_trace :
    List.Chain
      (fun a b : ℚ => 9586981 / 67108864 ≤ a ∧ binary32 (a - 9586981 / 67108864) = b)
      1 [14380471 / 16777216, 5991863 / 8388608, 9586981 / 16777216, 1797559 / 4194304,
        4793491 / 16777216, 9586983 / 67108864, 1 / 33554432] :=
  List.Chain.cons ⟨by norm_num,
    binary32_eq _ _ (-1) 14380471 (by norm_num) (by norm_num) (by norm_num)
      (by norm_num) (by norm_num) (by norm_num) (by norm_num)⟩ <|
  List.Chain.cons ⟨by norm_num,
    binary32_eq _ _ (-1) 11983726 (by norm_num) (by norm_num) (by norm_num)
      (by norm_num) (by norm_num) (by norm_num) (by norm_num)⟩ <|
  List.Chain.cons ⟨by norm_num,
    binary32_eq _ _ (-1) 9586981 (by norm_num) (by norm_num) (by norm_num)
      (by norm_num) (by norm_num) (by norm_num) (by norm_num)⟩ <|
  List.Chain.cons ⟨by norm_num,
    binary32_tie _ _ (-2) 14380471 14380472 (by norm_num) (by norm_num) (by norm_num)
      (by norm_num) (by norm_num) (by decide) (by norm_num)⟩ <|
  List.Chain.cons ⟨by norm_num,
    binary32_tie _ _ (-2) 9586981 9586982 (by norm_num) (by norm_num) (by norm_num)
      (by norm_num) (by norm_num) (by decide) (by norm_num)⟩ <|
  List.Chain.cons ⟨by norm_num,
    binary32_eq _ _ (-3) 9586983 (by norm_num) (by norm_num) (by norm_num)
      (by norm_num) (by norm_num) (by norm_num) (by norm_num)⟩ <|
  List.Chain.cons ⟨by norm_num,
    binary32_eq _ _ (-25) 8388608 (by norm_num) (by norm_num) (by norm_num)
      (by norm_num) (by norm_num) (by norm_num) (by norm_num)⟩ <|
  List.Chain.nil

/-- Timer values of the `float` firing loop for Shotgun started at the `float` nearest to 2.6 s:
twenty-six subtractions, each rounded. -/
theorem shotgun_resume_trace :
    List.Chain
      (fun a b : ℚ => 13421773 / 134217728 ≤ a ∧ binary32 (a - 13421773 / 134217728) = b)
      (5452595 / 2097152) [5 / 2, 5033165 / 2097152, 2411725 / 1048576, 4613735 / 2097152,
        1101005 / 524288, 4194305 / 2097152, 15938359 / 8388608, 7549749 / 4194304, 14260637
        / 8388608, 838861 / 524288, 12582915 / 8388608, 5872027 / 4194304, 10905193 /
        8388608, 2516583 / 2097152, 9227471 / 8388608, 4194305 / 4194304, 7549749 / 8388608,
        838861 / 1048576, 5872027 / 8388608, 2516583 / 4194304, 4194305 / 8388608, 13421777
        / 33554432, 5033167 / 16777216, 6710891 / 33554432, 13421791 / 134217728, 9 /
        67108864] :=
  List.Chain.cons ⟨by norm_num,
    binary32_eq _ _ 1 10485760 (by norm_num) (by norm_num) (by norm_num)
      (by norm_num) (by norm_num) (by norm_num) (by norm_num)⟩ <|
  List.Chain.cons ⟨by norm_num,
    binary32_eq _ _ 1 10066330 (by norm_num) (by norm_num) (by norm_num)
      (by norm_num) (by norm_num) (by norm_num) (by norm_num)⟩ <|
  List.Chain.cons ⟨by norm_num,
    binary32_eq _ _ 1 9646900 (by norm_num) (by norm_num) (by norm_num)
      (by norm_num) (by norm_num) (by norm_num) (by norm_num)⟩ <|
  List.Chain.cons ⟨by norm_num,
    binary32_eq _ _ 1 9227470 (by norm_num) (by norm_num) (by norm_num)
      (by norm_num) (by norm_num) (by norm_num) (by norm_num)⟩ <|
  List.Chain.cons ⟨by norm_num,
    binary32_eq _ _ 1 8808040 (by norm_num) (by norm_num) (by norm_num)
      (by norm_num) (by norm_num) (by norm_num) (by norm_num)⟩ <|
  List.Chain.cons ⟨by norm_num,
    binary32_eq _ _ 1 8388610 (by norm_num) (by norm_num) (by norm_num)
      (by norm_num) (by norm_num) (by norm_num) (by norm_num)⟩ <|
  List.Chain.cons ⟨by norm_num,
    binary32_eq _ _ 0 15938359 (by norm_num) (by norm_num) (by norm_num)
      (by norm_num) (by norm_num) (by norm_num) (by norm_num)⟩ <|
  List.Chain.cons ⟨by norm_num,
    binary32_eq _ _ 0 15099498 (by norm_num) (by norm_num) (by norm_num)
      (by norm_num) (by norm_num) (by norm_num) (by norm_num)⟩ <|
  List.Chain.cons ⟨by norm_num,
    binary32_eq _ _ 0 14260637 (by norm_num) (by norm_num) (by norm_num)
      (by norm_num) (by norm_num) (by norm_num) (by norm_num)⟩ <|
  List.Chain.cons ⟨by norm_num,
    binary32_eq _ _ 0 13421776 (by norm_num) (by norm_num) (by norm_num)
      (by norm_num) (by norm_num) (by norm_num) (by norm_num)⟩ <|
  List.Chain.cons ⟨by norm_num,
    binary32_eq _ _ 0 12582915 (by norm_num) (by norm_num) (by norm_num)
      (by norm_num) (by norm_num) (by norm_num) (by norm_num)⟩ <|
  List.Chain.cons ⟨by norm_num,
    binary32_eq _ _ 0 11744054 (by norm_num) (by norm_num) (by norm_num)
      (by norm_num) (by norm_num) (by norm_num) (by norm_num)⟩ <|
  List.Chain.cons ⟨by norm_num,
    binary32_eq _ _ 0 10905193 (by norm_num) (by norm_num) (by norm_num)
      (by norm_num) (by norm_num) (by norm_num) (by norm_num)⟩ <|
  List.Chain.cons ⟨by norm_num,
    binary32_eq _ _ 0 10066332 (by norm_num) (by norm_num) (by norm_num)
      (by norm_num) (by norm_num) (by norm_num) (by norm_num)⟩ <|
  List.Chain.cons ⟨by norm_num,
    binary32_eq _ _ 0 9227471 (by norm_num) (by norm_num) (by norm_num)
      (by norm_num) (by norm_num) (by norm_num) (by norm_num)⟩ <|
  List.Chain.cons ⟨by norm_num,
    binary32_eq _ _ 0 8388610 (by norm_num) (by norm_num) (by norm_num)
      (by norm_num) (by norm_num) (by norm_num) (by norm_num)⟩ <|
  List.Chain.cons ⟨by norm_num,
    binary32_eq _ _ (-1) 15099498 (by norm_num) (by norm_num) (by norm_num)
      (by norm_num) (by norm_num) (by norm_num) (by norm_num)⟩ <|
  List.Chain.cons ⟨by norm_num,
    binary32_eq _ _ (-1) 13421776 (by norm_num) (by norm_num) (by norm_num)
      (by norm_num) (by norm_num) (by norm_num) (by norm_num)⟩ <|
  List.Chain.cons ⟨by norm_num,
    binary32_eq _ _ (-1) 11744054 (by norm_num) (by norm_num) (by norm_num)
      (by norm_num) (by norm_num) (by norm_num) (by norm_num)⟩ <|
  List.Chain.cons ⟨by norm_num,
    binary32_eq _ _ (-1) 10066332 (by norm_num) (by norm_num) (by norm_num)
      (by norm_num) (by norm_num) (by norm_num) (by norm_num)⟩ <|
  List.Chain.cons ⟨by norm_num,
    binary32_eq _ _ (-1) 8388610 (by norm_num) (by norm_num) (by norm_num)
      (by norm_num) (by norm_num) (by norm_num) (by norm_num)⟩ <|
  List.Chain.cons ⟨by norm_num,
    binary32_eq _ _ (-2) 13421777 (by norm_num) (by norm_num) (by norm_num)
      (by norm_num) (by norm_num) (by norm_num) (by norm_num)⟩ <|
  List.Chain.cons ⟨by norm_num,
    binary32_eq _ _ (-2) 10066334 (by norm_num) (by norm_num) (by norm_num)
      (by norm_num) (by norm_num) (by norm_num) (by norm_num)⟩ <|
  List.Chain.cons ⟨by norm_num,
    binary32_tie _ _ (-3) 13421781 13421782 (by norm_num) (by norm_num) (by norm_num)
      (by norm_num) (by norm_num) (by decide) (by norm_num)⟩ <|
  List.Chain.cons ⟨by norm_num,
    binary32_eq _ _ (-4) 13421791 (by norm_num) (by norm_num) (by norm_num)
      (by norm_num) (by norm_num) (by norm_num) (by norm_num)⟩ <|
  List.Chain.cons ⟨by norm_num,
    binary32_eq _ _ (-23) 9437184 (by norm_num) (by norm_num) (by norm_num)
      (by norm_num) (by norm_num) (by norm_num) (by norm_num)⟩ <|
  List.Chain.nil

/-! ## Volleys, the firing loop and the timer fold -/

/-- C16 (evaluation of the volley): a Shotgun volley appends three projectiles at `x`, `x + 20`,
`x + 40` and the same `y`, with velocities `(+v, -v)`, `(0, -v)`, `(-v, -v)` in that order,
so for a positive speed the leftmost pellet goes right and the rightmost goes left; a
Laser or Bullet volley appends one projectile of velocity `(0, -v)`. For the fresh ship with
Shotgun, one tick of 1/10 s from timer 0 pushes pellets at 700, 720, 740 with horizontal
velocities 500, 0, -500. -/
theorem C16_volley_evaluated (player : Ship) (projSpeed : ℚ) (ps : List Projectile) :
    emitVolley player .SHOTGUN projSpeed ps =
        some (ps ++
          [Projectile.new ⟨player.GetPosition.x, player.GetPosition.y - player.GetRadius⟩
              ⟨projSpeed, -projSpeed⟩ 5 .SHOTGUN,
            Projectile.new ⟨player.GetPosition.x + 20, player.GetPosition.y - player.GetRadius⟩
              ⟨0, -projSpeed⟩ 5 .SHOTGUN,
            Projectile.new
              ⟨player.GetPosition.x + 20 + 20, player.GetPosition.y - player.GetRadius⟩
              ⟨-projSpeed, -projSpeed⟩ 5 .SHOTGUN]) ∧
      emitVolley player .LASER projSpeed ps =
        some (ps ++
          [Projectile.new ⟨player.GetPosition.x, player.GetPosition.y - player.GetRadius⟩
            ⟨0, -projSpeed⟩ 200 .LASER]) ∧
      emitVolley player .BULLET projSpeed ps =
        some (ps ++
          [Projectile.new ⟨player.GetPosition.x, player.GetPosition.y - player.GetRadius⟩
            ⟨0, -projSpeed⟩ 10 .BULLET]) ∧
      shooting 1 sampleShip .SHOTGUN true (1 / 10) 0 [] =
        some (0, [Projectile.new ⟨700, 375⟩ ⟨500, -500⟩ 5 .SHOTGUN,
          Projectile.new ⟨720, 375⟩ ⟨0, -500⟩ 5 .SHOTGUN,
          Projectile.new ⟨740, 375⟩ ⟨-500, -500⟩ 5 .SHOTGUN]) ∧
      (0 : ℚ) < (Projectile.new ⟨700, 375⟩ ⟨500, -500⟩ 5 .SHOTGUN).physics.velocity.x ∧
      (Projectile.new ⟨740, 375⟩ ⟨-500, -500⟩ 5 .SHOTGUN).physics.velocity.x < 0 := by
  refine ⟨rfl, rfl, rfl, ?_, by norm_num [Projectile.new], by norm_num [Projectile.new]⟩
  have h1 : ((0 : ℚ) + 1 / 10 ≥ 1 / 10) := by norm_num
  have h2 : ¬ ((0 : ℚ) + 1 / 10 - 1 / 10 ≥ 1 / 10) := by norm_num
  have h3 : (0 : ℚ) + 1 / 10 - 1 / 10 = 0 := by norm_num
  simp only [shooting, sampleShip, PlayerShip, Ship.IsAlive, Ship.GetFireRate,
    Ship.GetSpacing, Bool.and_self, if_true, volleyLoop, h1, h2, h3, if_false, emitVolley,
    MakeProjectile, Option.bind_eq_bind, Option.some_bind, List.nil_append, Ship.GetPosition,
    Ship.GetRadius, C_WIDTH, C_HEIGHT]
  norm_num

/-- With too little fuel the firing loop does not return. -/
theorem volleyLoop_none (player : Ship) (wt : WeaponType) (interval projSpeed : ℚ)
    (hI : 0 < interval) :
    ∀ (fuel : Nat) (t : ℚ) (ps : List Projectile), ((fuel : ℚ) + 1) * interval ≤ t →
      volleyLoop player wt interval projSpeed fuel t ps = none := by
  intro fuel
  induction fuel with
  | zero =>
    intro t ps ht
    simp only [Nat.cast_zero, zero_add, one_mul] at ht
    rw [volleyLoop, if_pos ht]
  | succ f ih =>
    intro t ps ht
    push_cast at ht
    have hge : t ≥ interval := by nlinarith
    rw [volleyLoop, if_pos hge]
    split
    · rfl
    · exact ih _ _ (by linarith)

/-- More fuel does not change what the firing loop returns. -/
theorem volleyLoop_mono (player : Ship) (wt : WeaponType) (interval projSpeed : ℚ) :
    ∀ (fuel : Nat) (t : ℚ) (ps : List Projectile) (res : ℚ × List Projectile),
      volleyLoop player wt interval projSpeed fuel t ps = some res →
      ∀ fuel1 : Nat, fuel ≤ fuel1 →
        volleyLoop player wt interval projSpeed fuel1 t ps = some res := by
  intro fuel
  induction fuel with
  | zero =>
    intro t ps res h fuel1 _
    rw [volleyLoop] at h
    split at h
    · simp at h
    · rename_i hlt
      cases fuel1 with
      | zero => rw [volleyLoop, if_neg hlt]; exact h
      | succ g => rw [volleyLoop, if_neg hlt]; exact h
  | succ f ih =>
    intro t ps res h fuel1 hf
    obtain ⟨g, rfl⟩ : ∃ g, fuel1 = g + 1 := ⟨fuel1 - 1, by omega⟩
    rw [volleyLoop] at h ⊢
    split at h
    · rename_i hge
      rw [if_pos hge]
      split at h
      · simp at h
      · exact ih _ _ res h g (by omega)
    · rename_i hlt
      rw [if_neg hlt]
      exact h

/-- The firing loop from a non-negative timer: it needs exactly `⌊t / interval⌋` iterations,
each appending one volley, and leaves the timer in `[0, interval)`. -/
theorem volleyLoop_exact (player : Ship) (wt : WeaponType) (interval projSpeed t : ℚ)
    (ps : List Projectile) (hw : wt ≠ WeaponType.COUNT) (hI : 0 < interval) (ht : 0 ≤ t) :
    ∃ (n : Nat) (new : List Projectile), (n : Int) = ⌊t / interval⌋ ∧
      new.length = n * pelletsPerVolley wt ∧
      0 ≤ t - (n : ℚ) * interval ∧ t - (n : ℚ) * interval < interval ∧
      ∀ fuel : Nat,
        (n ≤ fuel → volleyLoop player wt interval projSpeed fuel t ps
          = some (t - (n : ℚ) * interval, ps ++ new)) ∧
        (fuel < n → volleyLoop player wt interval projSpeed fuel t ps = none) := by
  have hq : 0 ≤ t / interval := div_nonneg ht (le_of_lt hI)
  have hfl : 0 ≤ ⌊t / interval⌋ := Int.floor_nonneg.mpr hq
  obtain ⟨n, hn⟩ := Int.eq_ofNat_of_zero_le hfl
  have h1 : ((n : Int) : ℚ) ≤ t / interval := by rw [← hn]; exact Int.floor_le _
  have h2 : t / interval < ((n : Int) : ℚ) + 1 := by rw [← hn]; exact Int.lt_floor_add_one _
  have h1' : (n : ℚ) * interval ≤ t := by
    have := (le_div_iff₀ hI).mp h1
    simpa using this
  have h2' : t < ((n : ℚ) + 1) * interval := by
    have := (div_lt_iff₀ hI).mp h2
    simpa using this
  obtain ⟨k, new, hk, hloop, hlen, hlt, hnn⟩ :=
    volleyLoop_spec player wt interval projSpeed hw n t ps h2'
  have hkn : k = n := by
    have hge : 0 ≤ t - (k : ℚ) * interval := hnn ht
    have hle : (n : ℚ) * interval < ((k : ℚ) + 1) * interval := by linarith
    have : (n : ℚ) < (k : ℚ) + 1 := lt_of_mul_lt_mul_right hle (le_of_lt hI)
    have hn1 : n < k + 1 := by exact_mod_cast this
    omega
  subst hkn
  refine ⟨k, new, hn.symm, hlen, hnn ht, hlt, ?_⟩
  intro fuel
  constructor
  · intro hf
    exact volleyLoop_mono player wt interval projSpeed k t ps _ hloop fuel hf
  · intro hf
    apply volleyLoop_none player wt interval projSpeed hI
    have hfq : (fuel : ℚ) + 1 ≤ (k : ℚ) := by exact_mod_cast hf
    nlinarith

/-- The shooting block with fire held, for every fuel: the firing loop at the speed
`spacing * rate` on the advanced timer. -/
theorem shooting_held_fuel (player : Ship) (wt : WeaponType) (rate dt t : ℚ)
    (ps : List Projectile) (halive : player.IsAlive = true) (hw : wt ≠ WeaponType.COUNT)
    (hrate : player.GetFireRate wt = some rate) :
    ∃ spacing : ℚ, player.GetSpacing wt = some spacing ∧
      ∀ fuel : Nat, shooting fuel player wt true dt t ps =
        volleyLoop player wt (1 / rate) (spacing * rate) fuel (t + dt) ps := by
  have hsp : ∃ spacing, player.GetSpacing wt = some spacing := by
    cases wt with
    | LASER => exact ⟨_, rfl⟩
    | BULLET => exact ⟨_, rfl⟩
    | SHOTGUN => exact ⟨_, rfl⟩
    | COUNT => exact absurd rfl hw
  obtain ⟨spacing, hspacing⟩ := hsp
  refine ⟨spacing, hspacing, fun fuel => ?_⟩
  unfold shooting
  simp only [halive, Bool.and_self, if_true, hrate, hspacing]

/-- The shooting block when fire is not held or the ship is dead: the timer is folded when it
exceeds the interval, and the projectiles are untouched. -/
theorem shooting_idle (fuel : Nat) (player : Ship) (wt : WeaponType) (rate : ℚ)
    (keySpace : Bool) (dt t : ℚ) (ps : List Projectile)
    (hrate : player.GetFireRate wt = some rate)
    (hidle : (player.IsAlive && keySpace) = false) :
    shooting fuel player wt keySpace dt t ps =
      some (if t > 1 / rate then fmodf t (1 / rate) else t, ps) := by
  unfold shooting
  simp only [hidle, Bool.false_eq_true, if_false, hrate]
  split <;> rfl

/-- C15, as stated, fails when the timer equals the interval: with Bullet selected
(interval 1/14 s) and a timer of 1/14 s left over from a slower weapon, a tick without fire
leaves the timer at 1/14, which is not below the interval and is not `t mod I = 0`; resuming
fire with a tick of 1/28 s then emits one volley, while `⌊(0 + 1/28) / (1/14)⌋ = 0`. Its bound
on the volleys also fails for the `float` arithmetic of the program: with Shotgun, a timer of 0
(which the tick without fire leaves at 0) and fire resumed with a tick of 5452595 / 2097152 s
(the `float` nearest to 2.6 s), the loop runs 26 times, while `⌊(0 + dt) / I⌋ = 25` for the
interval read as `1 / 10` and as the `float` `binary32 (1 / 10)`. -/
theorem C15_counterexample :
    sampleShip.GetFireRate .BULLET = some 14 ∧ (0 : ℚ) ≤ 1 / 14 ∧
      shooting 0 sampleShip .BULLET false (1 / 60) (1 / 14) [] = some (1 / 14, []) ∧
      ¬ ((1 / 14 : ℚ) < 1 / 14) ∧
      (1 / 14 : ℚ) - (1 / 14) * (⌊(1 / 14 : ℚ) / (1 / 14)⌋ : ℚ) = 0 ∧
      shooting 1 sampleShip .BULLET true (1 / 28) (1 / 14) [] =
        some (1 / 28, [Projectile.new ⟨700, 375⟩ ⟨0, -840⟩ 10 .BULLET]) ∧
      ⌊((0 : ℚ) + 1 / 28) / (1 / 14)⌋ = 0 ∧
      sampleShip.GetFireRate .SHOTGUN = some 10 ∧
      binary32 (13 / 5) = 5452595 / 2097152 ∧
      shooting32 0 sampleShip .SHOTGUN false (1 / 64) 0 [] = some (0, []) ∧
      shooting32 25 sampleShip .SHOTGUN true (5452595 / 2097152) 0 [] = none ∧
      (∃ ps : List Projectile, ps.length = 26 * pelletsPerVolley .SHOTGUN ∧
        shooting32 26 sampleShip .SHOTGUN true (5452595 / 2097152) 0 [] =
          some (9 / 67108864, ps)) ∧
      ⌊((0 : ℚ) + 5452595 / 2097152) / (1 / 10)⌋ = 25 ∧
      ⌊((0 : ℚ) + 5452595 / 2097152) / binary32 (1 / 10)⌋ = 25 := by
  obtain ⟨_, hS, _, _⟩ := binary32_intervals
  have hdt : binary32 ((0 : ℚ) + 5452595 / 2097152) = 5452595 / 2097152 :=
    binary32_eq _ _ 1 10905190 (by norm_num) (by norm_num) (by norm_num) (by norm_num)
      (by norm_num) (by norm_num) (by norm_num)
  have hs : WeaponType.SHOTGUN ≠ WeaponType.COUNT := by decide
  obtain ⟨⟨ps, hlen, hsome⟩, hnone⟩ := volleyLoop32_steps sampleShip .SHOTGUN
    (13421773 / 134217728) (binary32 (50 * 10)) hs _ (5452595 / 2097152) []
    shotgun_resume_trace (by norm_num)
  refine ⟨rfl, by norm_num, ?_, by norm_num, by norm_num, ?_, by norm_num, rfl, ?_, ?_, ?_,
    ⟨ps, hlen, ?_⟩, ?_, ?_⟩
  · rw [shooting_idle 0 sampleShip .BULLET 14 false (1 / 60) (1 / 14) [] rfl rfl]
    norm_num
  · have h1 : ((1 / 14 : ℚ) + 1 / 28 ≥ 1 / 14) := by norm_num
    have h2 : ¬ ((1 / 14 : ℚ) + 1 / 28 - 1 / 14 ≥ 1 / 14) := by norm_num
    have h3 : (1 / 14 : ℚ) + 1 / 28 - 1 / 14 = 1 / 28 := by norm_num
    have hb : ¬ (WeaponType.BULLET = WeaponType.SHOTGUN) := by decide
    simp only [shooting, sampleShip, PlayerShip, Ship.IsAlive, Ship.GetFireRate,
      Ship.GetSpacing, Bool.and_self, if_true, volleyLoop, h1, h2, h3, hb, if_false, emitVolley,
      MakeProjectile, Option.bind_eq_bind, Option.some_bind, List.nil_append, Ship.GetPosition,
      Ship.GetRadius, C_WIDTH, C_HEIGHT]
    norm_num
  · exact binary32_eq _ _ 1 10905190 (by norm_num) (by norm_num) (by norm_num) (by norm_num)
      (by norm_num) (by norm_num) (by norm_num)
  · rw [shooting32_idle 0 sampleShip .SHOTGUN 10 false (1 / 64) 0 [] rfl rfl, hS]
    norm_num
  · rw [shooting32_held 25 sampleShip .SHOTGUN 10 50 _ 0 [] rfl rfl rfl, hS, hdt]
    exact hnone 25 (by norm_num)
  · rw [shooting32_held 26 sampleShip .SHOTGUN 10 50 _ 0 [] rfl rfl rfl, hS, hdt,
      hsome 26 (by norm_num)]
    simp
  · rw [Int.floor_eq_iff]; norm_num
  · rw [hS, Int.floor_eq_iff]; norm_num

/-- C15 (amended), in exact arithmetic: for a non-negative shot timer `t` and a weapon of
interval `I = 1 / rate`, a tick in which fire is not held, or the ship is dead, leaves the
projectiles as they are and the timer at `t mod I`, which is below `I`, whenever `t ≠ I`; at
`t = I` the guard `shotTimer > maxInterval` leaves it at `I`. In all cases the timer `t1` left
is in `[0, I]`, and resuming fire with a tick `dt2 ≥ 0` emits at most `⌊(t1 + dt2) / I⌋`
volleys: the shooting block returns with `n ≤ ⌊(t1 + dt2) / I⌋` volleys appended. -/
theorem C15_timer_fold (fuel : Nat) (player : Ship) (wt : WeaponType) (rate : ℚ)
    (keySpace : Bool) (dt t : ℚ) (ps : List Projectile)
    (hrate : player.GetFireRate wt = some rate) (hpos : 0 < rate)
    (hidle : (player.IsAlive && keySpace) = false) (ht : 0 ≤ t) :
    ∃ t1 : ℚ, shooting fuel player wt keySpace dt t ps = some (t1, ps) ∧
      (t ≠ 1 / rate → t1 = t - (1 / rate) * (⌊t / (1 / rate)⌋ : ℚ) ∧ t1 < 1 / rate) ∧
      (t = 1 / rate → t1 = 1 / rate) ∧ 0 ≤ t1 ∧ t1 ≤ 1 / rate ∧
      ∀ (shooter : Ship) (dt2 : ℚ), shooter.IsAlive = true →
        shooter.GetFireRate wt = some rate → 0 ≤ dt2 →
        ∃ (n : Nat) (new : List Projectile), (n : Int) ≤ ⌊(t1 + dt2) / (1 / rate)⌋ ∧
          new.length = n * pelletsPerVolley wt ∧
          ∀ fuel2 : Nat, n ≤ fuel2 →
            shooting fuel2 shooter wt true dt2 t1 ps =
              some (t1 + dt2 - (n : ℚ) * (1 / rate), ps ++ new) := by
  have hI : (0 : ℚ) < 1 / rate := one_div_pos.mpr hpos
  have hw : wt ≠ WeaponType.COUNT := by
    intro h; subst h; simp [Ship.GetFireRate] at hrate
  obtain ⟨hf1, hf2, hf3⟩ := fmodf_of_nonneg t (1 / rate) ht hI
  refine ⟨if t > 1 / rate then fmodf t (1 / rate) else t,
    shooting_idle fuel player wt rate keySpace dt t ps hrate hidle, ?_, ?_, ?_, ?_, ?_⟩
  · intro hne
    by_cases hgt : t > 1 / rate
    · rw [if_pos hgt]
      exact ⟨hf1, hf3⟩
    · rw [if_neg hgt]
      have hlt : t < 1 / rate := lt_of_le_of_ne (not_lt.mp hgt) hne
      have hfl : ⌊t / (1 / rate)⌋ = 0 := by
        rw [Int.floor_eq_iff]
        refine ⟨by simpa using div_nonneg ht (le_of_lt hI), ?_⟩
        rw [div_lt_iff₀ hI]
        simpa using hlt
      rw [hfl]
      exact ⟨by simp, hlt⟩
  · intro heq
    rw [if_neg (by rw [heq]; exact lt_irrefl _)]
    exact heq
  · split
    · exact hf2
    · exact ht
  · split
    · exact le_of_lt hf3
    · rename_i hgt; exact not_lt.mp hgt
  · intro shooter dt2 halive hrate2 hdt2
    have ht1 : 0 ≤ (if t > 1 / rate then fmodf t (1 / rate) else t) := by
      split
      · exact hf2
      · exact ht
    obtain ⟨spacing, _, hshoot⟩ := shooting_held_fuel shooter wt rate dt2
        (if t > 1 / rate then fmodf t (1 / rate) else t) ps halive hw hrate2
    obtain ⟨n, new, hn, hlen, _, _, hfuel⟩ := volleyLoop_exact shooter wt (1 / rate)
      (spacing * rate)
      ((if t > 1 / rate then fmodf t (1 / rate) else t) + dt2) ps hw hI (by linarith)
    refine ⟨n, new, le_of_eq hn, hlen, ?_⟩
    intro fuel2 hf
    rw [hshoot fuel2]
    exact (hfuel fuel2).1 hf

theorem C15_timer_fold_witness :
    (sampleShip.GetFireRate .BULLET = some 14 ∧ (0 : ℚ) < 14 ∧
      (sampleDead.player.IsAlive && true) = false ∧ (0 : ℚ) ≤ 1 / 10) ∧
    ∃ t1 : ℚ, shooting 0 sampleDead.player .BULLET true (1 / 60) (1 / 10) [] = some (t1, []) ∧
      ((1 / 10 : ℚ) ≠ 1 / 14 →
        t1 = 1 / 10 - (1 / 14) * (⌊(1 / 10 : ℚ) / (1 / 14)⌋ : ℚ) ∧ t1 < 1 / 14) :=
  ⟨⟨rfl, by norm_num, rfl, by norm_num⟩,
    (C15_timer_fold 0 sampleDead.player .BULLET 14 true (1 / 60) (1 / 10) [] rfl (by norm_num)
      rfl (by norm_num)).elim (fun t1 h => ⟨t1, h.1, h.2.1⟩)⟩

/-- A frame returns exactly when its shooting block does. -/
theorem frame_isSome (fuel : Nat) (app : Application) (inp : FrameInput)
    (res : ℚ × List Projectile)
    (h : shooting fuel (app.beforeShooting inp).player (app.beforeShooting inp).currentWeapon
      inp.keySpace inp.dt (app.beforeShooting inp).shotTimer
      (app.beforeShooting inp).projectiles = some res) :
    (app.frame fuel inp).isSome = true := by
  rw [frame_eq]
  unfold Application.beforeShooting at h
  rw [h]
  rfl

theorem weaponSwitch_presses (presses : List FrameInput) :
    ∀ app : Application, app.currentWeapon ≠ WeaponType.COUNT →
      (presses.foldl Application.weaponSwitch app).currentWeapon ≠ WeaponType.COUNT := by
  induction presses with
  | nil => intro app h; exact h
  | cons inp rest ih =>
    intro app h
    simp only [List.foldl_cons]
    exact ih _ (weaponSwitch_ne_COUNT app inp h)

/-- C20, as stated, fails for the `float` arithmetic of the program. With the fresh ship, a
shot timer of 0 and fire held: with Laser and a tick of 5 000 000 s, `shotTimer -= interval`
rounds back to 5 000 000, the loop condition stays true, and the loop returns for no amount of
fuel; with Shotgun and a tick of 1 s the loop ends after 9 iterations, while
`⌊(0 + 1) / (1 / 10)⌋ = 10`; with Laser and a tick of 1 s the loop ends after 7 iterations,
while with the rounded interval `⌊(0 + 1) / binary32 (1 / 7)⌋ = 6`. -/
theorem C20_counterexample :
    sampleShip.IsAlive = true ∧ sampleShip.GetFireRate .LASER = some 7 ∧
      sampleShip.GetFireRate .SHOTGUN = some 10 ∧
      binary32 (1 / 7) = 9586981 / 67108864 ∧ binary32 (1 / 10) = 13421773 / 134217728 ∧
      (∀ fuel : Nat, shooting32 fuel sampleShip .LASER true 5000000 0 [] = none) ∧
      shooting32 8 sampleShip .SHOTGUN true 1 0 [] = none ∧
      (∃ ps : List Projectile, ps.length = 9 * pelletsPerVolley .SHOTGUN ∧
        shooting32 9 sampleShip .SHOTGUN true 1 0 [] = some (13421763 / 134217728, ps)) ∧
      ⌊((0 : ℚ) + 1) / (1 / 10)⌋ = 10 ∧
      shooting32 6 sampleShip .LASER true 1 0 [] = none ∧
      (∃ ps : List Projectile, ps.length = 7 * pelletsPerVolley .LASER ∧
        shooting32 7 sampleShip .LASER true 1 0 [] = some (1 / 33554432, ps)) ∧
      ⌊((0 : ℚ) + 1) / binary32 (1 / 7)⌋ = 6 := by
  obtain ⟨hL, hS, _, _⟩ := binary32_intervals
  have hbig : binary32 ((0 : ℚ) + 5000000) = 5000000 :=
    binary32_eq _ _ 22 10000000 (by norm_num) (by norm_num) (by norm_num) (by norm_num)
      (by norm_num) (by norm_num) (by norm_num)
  have habs : binary32 ((5000000 : ℚ) - 9586981 / 67108864) = 5000000 :=
    binary32_eq _ _ 22 10000000 (by norm_num) (by norm_num) (by norm_num) (by norm_num)
      (by norm_num) (by norm_num) (by norm_num)
  have hone : binary32 ((0 : ℚ) + 1) = 1 :=
    binary32_eq _ _ 0 8388608 (by norm_num) (by norm_num) (by norm_num) (by norm_num)
      (by norm_num) (by norm_num) (by norm_num)
  have hl : WeaponType.LASER ≠ WeaponType.COUNT := by decide
  have hs : WeaponType.SHOTGUN ≠ WeaponType.COUNT := by decide
  obtain ⟨⟨psS, hlenS, hsomeS⟩, hnoneS⟩ := volleyLoop32_steps sampleShip .SHOTGUN
    (13421773 / 134217728) (binary32 (50 * 10)) hs _ 1 [] shotgun_second_trace (by norm_num)
  obtain ⟨⟨psL, hlenL, hsomeL⟩, hnoneL⟩ := volleyLoop32_steps sampleShip .LASER
    (9586981 / 67108864) (binary32 (80 * 7)) hl _ 1 [] laser_second_trace (by norm_num)
  refine ⟨rfl, rfl, rfl, hL, hS, ?_, ?_, ⟨psS, hlenS, ?_⟩, by norm_num, ?_, ⟨psL, hlenL, ?_⟩, ?_⟩
  · intro fuel
    rw [shooting32_held fuel sampleShip .LASER 7 80 5000000 0 [] rfl rfl rfl, hL, hbig]
    exact volleyLoop32_absorbed sampleShip .LASER _ _ 5000000 (by norm_num) habs fuel []
  · rw [shooting32_held 8 sampleShip .SHOTGUN 10 50 1 0 [] rfl rfl rfl, hS, hone]
    exact hnoneS 8 (by norm_num)
  · rw [shooting32_held 9 sampleShip .SHOTGUN 10 50 1 0 [] rfl rfl rfl, hS, hone,
      hsomeS 9 (by norm_num)]
    simp
  · rw [shooting32_held 6 sampleShip .LASER 7 80 1 0 [] rfl rfl rfl, hL, hone]
    exact hnoneL 6 (by norm_num)
  · rw [shooting32_held 7 sampleShip .LASER 7 80 1 0 [] rfl rfl rfl, hL, hone,
      hsomeL 7 (by norm_num)]
    simp
  · rw [hL, Int.floor_eq_iff]
    norm_num

/-- C20 (amended), in exact arithmetic: from the weapon Laser, any number of weapon switches
leaves a weapon other than `COUNT`. In every reachable state, for every frame of duration
`dt ≥ 0`, the state entering the shooting block has a real weapon, so `GetFireRate`,
`GetSpacing` and `MakeProjectile` have a value, the fire rate and the interval `1 / rate` are
positive, and the shot timer is non-negative; the firing loop started on `shotTimer + dt`
returns exactly when it is given fuel for `⌊(shotTimer + dt) / interval⌋` iterations, appends
that many volleys and leaves a timer in `[0, interval)`; with that fuel the frame returns. -/
theorem C20_firing_total :
    (∀ (app : Application) (presses : List FrameInput), app.currentWeapon = WeaponType.LASER →
      (presses.foldl Application.weaponSwitch app).currentWeapon ≠ WeaponType.COUNT) ∧
    (∀ app : Application, Reachable app → ∀ inp : FrameInput, 0 ≤ inp.dt →
      (app.beforeShooting inp).currentWeapon ≠ WeaponType.COUNT ∧
      ∃ rate spacing : ℚ,
        (app.beforeShooting inp).player.GetFireRate (app.beforeShooting inp).currentWeapon
          = some rate ∧
        (app.beforeShooting inp).player.GetSpacing (app.beforeShooting inp).currentWeapon
          = some spacing ∧
        (∀ pos vel : Vector2,
          ∃ q, MakeProjectile (app.beforeShooting inp).currentWeapon pos vel = some q) ∧
        0 < rate ∧ 0 < 1 / rate ∧ 0 ≤ (app.beforeShooting inp).shotTimer ∧
        ∃ (n : Nat) (new : List Projectile),
          (n : Int) = ⌊((app.beforeShooting inp).shotTimer + inp.dt) / (1 / rate)⌋ ∧
          new.length = n * pelletsPerVolley (app.beforeShooting inp).currentWeapon ∧
          0 ≤ (app.beforeShooting inp).shotTimer + inp.dt - (n : ℚ) * (1 / rate) ∧
          (app.beforeShooting inp).shotTimer + inp.dt - (n : ℚ) * (1 / rate) < 1 / rate ∧
          ∀ fuel : Nat,
            (n ≤ fuel →
              volleyLoop (app.beforeShooting inp).player (app.beforeShooting inp).currentWeapon
                  (1 / rate) (spacing * rate) fuel ((app.beforeShooting inp).shotTimer + inp.dt)
                  (app.beforeShooting inp).projectiles =
                some ((app.beforeShooting inp).shotTimer + inp.dt - (n : ℚ) * (1 / rate),
                  (app.beforeShooting inp).projectiles ++ new) ∧
              (app.frame fuel inp).isSome = true) ∧
            (fuel < n →
              volleyLoop (app.beforeShooting inp).player (app.beforeShooting inp).currentWeapon
                  (1 / rate) (spacing * rate) fuel ((app.beforeShooting inp).shotTimer + inp.dt)
                  (app.beforeShooting inp).projectiles = none)) := by
  refine ⟨?_, ?_⟩
  · intro app presses h
    exact weaponSwitch_presses presses app (by rw [h]; decide)
  · intro app hr inp hdt
    obtain ⟨_, hw, hrates, ht⟩ := beforeShooting_invariant app inp (reachable_invariant app hr)
    obtain ⟨rate, spacing, hrate, hspacing, hpos, _, _⟩ :=
      GetFireRate_constructorRates _ _ hrates hw
    have hI : (0 : ℚ) < 1 / rate := one_div_pos.mpr hpos
    obtain ⟨n, new, hn, hlen, h0, h1, hfuel⟩ :=
      volleyLoop_exact (app.beforeShooting inp).player (app.beforeShooting inp).currentWeapon
        (1 / rate) (spacing * rate) ((app.beforeShooting inp).shotTimer + inp.dt)
        (app.beforeShooting inp).projectiles hw hI (by linarith)
    refine ⟨hw, rate, spacing, hrate, hspacing, ?_, hpos, hI, ht, n, new, hn, hlen, h0, h1, ?_⟩
    · intro pos vel
      cases hq : (app.beforeShooting inp).currentWeapon with
      | LASER => exact ⟨_, rfl⟩
      | BULLET => exact ⟨_, rfl⟩
      | SHOTGUN => exact ⟨_, rfl⟩
      | COUNT => exact absurd hq hw
    · intro fuel
      refine ⟨fun hf => ⟨(hfuel fuel).1 hf, ?_⟩, (hfuel fuel).2⟩
      by_cases hfire : ((app.beforeShooting inp).player.IsAlive && inp.keySpace) = true
      · have hal : (app.beforeShooting inp).player.IsAlive = true := by
          simp only [Bool.and_eq_true] at hfire; exact hfire.1
        have hsp : inp.keySpace = true := by
          simp only [Bool.and_eq_true] at hfire; exact hfire.2
        obtain ⟨spacing2, hspacing2, hshoot⟩ := shooting_held_fuel
          (app.beforeShooting inp).player (app.beforeShooting inp).currentWeapon rate inp.dt
          (app.beforeShooting inp).shotTimer (app.beforeShooting inp).projectiles hal hw hrate
        have hs2 : spacing2 = spacing := by
          rw [hspacing] at hspacing2
          exact (Option.some.inj hspacing2).symm
        subst hs2
        apply frame_isSome fuel app inp
        rw [hsp, hshoot fuel]
        exact (hfuel fuel).1 hf
      · have hidle : ((app.beforeShooting inp).player.IsAlive && inp.keySpace) = false := by
          simpa using hfire
        exact frame_isSome fuel app inp _
          (shooting_idle fuel _ _ rate inp.keySpace inp.dt _ _ hrate hidle)

/-! ## Score of a lineage -/

theorem totalScorePotential_append (l1 l2 : List Asteroid) :
    totalScorePotential (l1 ++ l2) = totalScorePotential l1 + totalScorePotential l2 := by
  simp [totalScorePotential]

theorem totalDescendantPotential_append (l1 l2 : List Asteroid) :
    totalDescendantPotential (l1 ++ l2) =
      totalDescendantPotential l1 + totalDescendantPotential l2 := by
  simp [totalDescendantPotential]

theorem totalScorePotential_cons (a : Asteroid) (l : List Asteroid) :
    totalScorePotential (a :: l) = scorePotential a.GetSize + totalScorePotential l := by
  simp [totalScorePotential]

theorem totalDescendantPotential_cons (a : Asteroid) (l : List Asteroid) :
    totalDescendantPotential (a :: l) =
      descendantPotential a.GetSize + totalDescendantPotential l := by
  simp [totalDescendantPotential]

/-- A well-formed asteroid has a score potential of at least 5. -/
theorem scorePotential_pos (a : Asteroid) (h : a.wellFormed) : 5 ≤ scorePotential a.GetSize := by
  rcases h.1 with h1 | h1 | h1 <;> rw [h1] <;> decide

theorem totalScorePotential_nonneg (l : List Asteroid) (h : ∀ a ∈ l, a.wellFormed) :
    0 ≤ totalScorePotential l := by
  induction l with
  | nil => simp [totalScorePotential]
  | cons a l ih =>
    rw [totalScorePotential_cons]
    have := scorePotential_pos a (h a (List.mem_cons_self _ _))
    have := ih (fun b hb => h b (List.mem_cons_of_mem _ hb))
    omega

theorem totalScorePotential_eq_zero (l : List Asteroid) (h : ∀ a ∈ l, a.wellFormed)
    (h0 : totalScorePotential l = 0) : l = [] := by
  cases l with
  | nil => rfl
  | cons a l =>
    rw [totalScorePotential_cons] at h0
    have := scorePotential_pos a (h a (List.mem_cons_self _ _))
    have := totalScorePotential_nonneg l (fun b hb => h b (List.mem_cons_of_mem _ hb))
    omega

/-- The scan moves potential into score and into created children, one for one. -/
theorem scanAsteroids_potential (draws : Nat → AsteroidDraw) (p : Projectile) (score : Int)
    (drawn : Nat) (l : List Asteroid) :
    ∀ (acc : List Asteroid) (st : CollisionState),
      (∀ a ∈ acc ++ l, a.wellFormed) → scanAsteroids draws p score drawn acc l = some st →
      st.score + totalScorePotential st.asteroids = score + totalScorePotential (acc ++ l) ∧
        st.drawn + totalDescendantPotential st.asteroids =
          drawn + totalDescendantPotential (acc ++ l) := by
  induction l with
  | nil => intro acc st _ h; simp [scanAsteroids] at h
  | cons b bs ih =>
    intro acc st hwf h
    have hb : b.wellFormed := hwf b (by simp)
    obtain ⟨hsz, _, _⟩ := TakeDamage_fields b p.GetDamage
    rw [scanAsteroids] at h
    split at h
    · dsimp only at h
      split at h
      · split at h
        · rename_i hgt
          simp only [Option.some.injEq] at h
          subst h
          have hc1 := MakeAsteroid_split_size C_WIDTH C_HEIGHT
            (b.TakeDamage p.GetDamage).GetShape (b.TakeDamage p.GetDamage).GetPosition
            (b.TakeDamage p.GetDamage).GetSize (draws drawn)
          have hc2 := MakeAsteroid_split_size C_WIDTH C_HEIGHT
            (b.TakeDamage p.GetDamage).GetShape (b.TakeDamage p.GetDamage).GetPosition
            (b.TakeDamage p.GetDamage).GetSize (draws (drawn + 1))
          simp only [totalScorePotential_append, totalScorePotential_cons,
            totalDescendantPotential_append, totalDescendantPotential_cons, hc1, hc2]
          rw [hsz] at hgt ⊢
          rcases hb.1 with h1 | h1 | h1
          · rw [h1] at hgt; exact absurd hgt (by decide)
          · rw [h1]
            simp [totalScorePotential, totalDescendantPotential, scorePotential,
              descendantPotential, Int.tdiv]
            constructor <;> ring
          · rw [h1]
            simp [totalScorePotential, totalDescendantPotential, scorePotential,
              descendantPotential, Int.tdiv]
            constructor <;> ring
        · rename_i hle
          simp only [Option.some.injEq] at h
          subst h
          simp only [totalScorePotential_append, totalScorePotential_cons,
            totalDescendantPotential_append, totalDescendantPotential_cons]
          rw [hsz] at hle ⊢
          rcases hb.1 with h1 | h1 | h1
          · rw [h1]
            simp [scorePotential, descendantPotential]
            ring
          · rw [h1] at hle; exact absurd (by decide) hle
          · rw [h1] at hle; exact absurd (by decide) hle
      · simp only [Option.some.injEq] at h
        subst h
        simp only [totalScorePotential_append, totalScorePotential_cons,
          totalDescendantPotential_append, totalDescendantPotential_cons, hsz]
        exact ⟨trivial, trivial⟩
    · have := ih (acc ++ [b]) st (by intro a ha; apply hwf; simpa using ha) h
      simpa using this

theorem projectileAsteroidCollisions_potential (draws : Nat → AsteroidDraw)
    (ps : List Projectile) :
    ∀ st : CollisionState, (∀ a ∈ st.asteroids, a.wellFormed) →
      (projectileAsteroidCollisions draws ps st).2.score +
          totalScorePotential (projectileAsteroidCollisions draws ps st).2.asteroids =
        st.score + totalScorePotential st.asteroids ∧
      (projectileAsteroidCollisions draws ps st).2.drawn +
          totalDescendantPotential (projectileAsteroidCollisions draws ps st).2.asteroids =
        st.drawn + totalDescendantPotential st.asteroids := by
  induction ps with
  | nil => intro st _; exact ⟨rfl, rfl⟩
  | cons p ps ih =>
    intro st h
    rw [projectileAsteroidCollisions]
    split
    · rename_i st1 hscan
      have hwf := scanAsteroids_wellFormed draws p st.score st.drawn st.asteroids [] st1
        (by simpa using h) hscan
      obtain ⟨k1, k2⟩ := scanAsteroids_potential draws p st.score st.drawn st.asteroids [] st1
        (by simpa using h) hscan
      obtain ⟨j1, j2⟩ := ih st1 hwf
      simp only [List.nil_append] at k1 k2
      exact ⟨j1.trans k1, j2.trans k2⟩
    · exact ih st h

/-- The asteroid-ship step creates no potential: each asteroid it removes takes away at least
5 of score potential, and without a removal the potentials are unchanged. -/
theorem asteroidShipCollisions_potential (r : Renderer) (dt : ℚ) (l : List Asteroid) :
    ∀ player : Ship, (∀ a ∈ l, a.wellFormed) →
      totalScorePotential (asteroidShipCollisions r dt player l).2 +
          5 * ((l.length - (asteroidShipCollisions r dt player l).2.length : Nat) : Int)
        ≤ totalScorePotential l ∧
      ((asteroidShipCollisions r dt player l).2.length = l.length →
        totalScorePotential (asteroidShipCollisions r dt player l).2 = totalScorePotential l) ∧
      totalDescendantPotential (asteroidShipCollisions r dt player l).2
        ≤ totalDescendantPotential l := by
  induction l with
  | nil =>
    intro player _
    simp [asteroidShipCollisions, totalScorePotential, totalDescendantPotential]
  | cons b bs ih =>
    intro player hwf
    have hb : b.wellFormed := hwf b (List.mem_cons_self _ _)
    have hbs : ∀ a ∈ bs, a.wellFormed := fun a ha => hwf a (List.mem_cons_of_mem _ ha)
    have hpos := scorePotential_pos b hb
    have hremoved : ∀ s : Ship,
        totalScorePotential (asteroidShipCollisions r dt s bs).2 +
            5 * (((b :: bs).length - (asteroidShipCollisions r dt s bs).2.length : Nat) : Int)
          ≤ totalScorePotential (b :: bs) ∧
        ((asteroidShipCollisions r dt s bs).2.length = (b :: bs).length →
          totalScorePotential (asteroidShipCollisions r dt s bs).2
            = totalScorePotential (b :: bs)) ∧
        totalDescendantPotential (asteroidShipCollisions r dt s bs).2
          ≤ totalDescendantPotential (b :: bs) := by
      intro s
      obtain ⟨i1, _, i3⟩ := ih s hbs
      have hlen := asteroidShipCollisions_length r dt bs s
      rw [totalScorePotential_cons, totalDescendantPotential_cons]
      refine ⟨?_, ?_, ?_⟩
      · simp only [List.length_cons]
        have hcast : (((bs.length + 1 - (asteroidShipCollisions r dt s bs).2.length : Nat)) : Int)
            = ((bs.length - (asteroidShipCollisions r dt s bs).2.length : Nat) : Int) + 1 := by
          omega
        rw [hcast]
        omega
      · intro heq
        simp only [List.length_cons] at heq
        omega
      · omega
    by_cases h : (player.IsAlive &&
        distanceLess player.GetPosition b.GetPosition (player.GetRadius + b.GetRadius)) = true
    · rw [asteroidShipCollisions_cons_hit r dt player b _ h]
      exact hremoved _
    · rw [asteroidShipCollisions_cons_miss r dt player b _ h]
      split
      · obtain ⟨i1, i2, i3⟩ := ih player hbs
        obtain ⟨u1, _, _⟩ := asteroid_Update_fields r b dt
        simp only [totalScorePotential_cons, totalDescendantPotential_cons, u1,
          List.length_cons]
        refine ⟨?_, ?_, ?_⟩
        · have hcast : ((bs.length + 1 - ((asteroidShipCollisions r dt player bs).2.length + 1)
              : Nat) : Int)
              = ((bs.length - (asteroidShipCollisions r dt player bs).2.length : Nat) : Int) := by
            omega
          rw [hcast]
          omega
        · intro heq
          have := i2 (by omega)
          omega
        · omega
      · exact hremoved _

theorem asteroidShipCollisions_wellFormed (r : Renderer) (dt : ℚ) (l : List Asteroid) :
    ∀ player : Ship, (∀ a ∈ l, a.wellFormed) →
      ∀ a ∈ (asteroidShipCollisions r dt player l).2, a.wellFormed := by
  induction l with
  | nil => intro player _; simp [asteroidShipCollisions]
  | cons b bs ih =>
    intro player hwf
    have hb : b.wellFormed := hwf b (List.mem_cons_self _ _)
    have hbs : ∀ a ∈ bs, a.wellFormed := fun a ha => hwf a (List.mem_cons_of_mem _ ha)
    by_cases h : (player.IsAlive &&
        distanceLess player.GetPosition b.GetPosition (player.GetRadius + b.GetRadius)) = true
    · rw [asteroidShipCollisions_cons_hit r dt player b _ h]
      exact ih _ hbs
    · rw [asteroidShipCollisions_cons_miss r dt player b _ h]
      split
      · intro a ha
        simp only [List.mem_cons] at ha
        rcases ha with rfl | ha
        · exact asteroid_Update_wellFormed r b dt hb
        · exact ih player hbs a ha
      · exact ih player hbs

theorem totalScorePotential_length (l : List Asteroid) (hwf : ∀ a ∈ l, a.wellFormed) :
    5 * (l.length : Int) ≤ totalScorePotential l := by
  induction l with
  | nil => simp [totalScorePotential]
  | cons a l ih =>
    rw [totalScorePotential_cons]
    have := scorePotential_pos a (hwf a (List.mem_cons_self _ _))
    have := ih (fun b hb => hwf b (List.mem_cons_of_mem _ hb))
    simp only [List.length_cons]
    push_cast
    omega

theorem lineageStep_accounted (size0 : Int) (st : LineageState) (e : LineageEvent)
    (h : st.accounted size0) : (lineageStep st e).accounted size0 := by
  obtain ⟨hwf, h1, h2, h3⟩ := h
  cases e with
  | shots draws ps =>
    have hw := projectileAsteroidCollisions_wellFormed draws ps
      ⟨st.asteroids, st.score, st.drawn⟩ hwf
    obtain ⟨k1, k2⟩ := projectileAsteroidCollisions_potential draws ps
      ⟨st.asteroids, st.score, st.drawn⟩ hwf
    simp only at k1 k2
    refine ⟨hw, ?_, ?_, ?_⟩
    · simp only [lineageStep]; omega
    · intro hl
      have := h2 hl
      simp only [lineageStep]; omega
    · simp only [lineageStep]; omega
  | contact dt player =>
    obtain ⟨k1, k2, k3⟩ := asteroidShipCollisions_potential Renderer.Instance dt st.asteroids
      player hwf
    have hw := asteroidShipCollisions_wellFormed Renderer.Instance dt st.asteroids player hwf
    have hlen := asteroidShipCollisions_length Renderer.Instance dt st.asteroids player
    refine ⟨hw, ?_, ?_, ?_⟩
    · simp only [lineageStep]
      push_cast
      omega
    · intro hl
      simp only [lineageStep] at hl ⊢
      have hl0 : st.lost = 0 := by omega
      have heq : (asteroidShipCollisions Renderer.Instance dt player st.asteroids).2.length
          = st.asteroids.length := by omega
      rw [k2 heq]
      exact h2 hl0
    · simp only [lineageStep]; omega
  | cleared =>
    have hnn := totalScorePotential_nonneg st.asteroids hwf
    have hlen := totalScorePotential_length st.asteroids hwf
    refine ⟨by simp [lineageStep], ?_, ?_, ?_⟩
    · simp only [lineageStep, totalScorePotential, List.map_nil, List.sum_nil]
      push_cast
      omega
    · intro hl
      simp only [lineageStep] at hl ⊢
      have hl0 : st.lost = 0 := by omega
      have hlen0 : st.asteroids.length = 0 := by omega
      have hnil : st.asteroids = [] := List.length_eq_zero.mp hlen0
      have := h2 hl0
      rw [hnil] at this
      simpa [totalScorePotential] using this
    · simp only [lineageStep, totalDescendantPotential, List.map_nil, List.sum_nil]
      omega

theorem lineageRun_accounted (a0 : Asteroid) (h0 : a0.wellFormed) (events : List LineageEvent) :
    (lineageRun a0 events).accounted a0.GetSize := by
  have hinit : LineageState.accounted a0.GetSize ⟨[a0], 0, 0, 0⟩ := by
    refine ⟨?_, ?_, ?_, ?_⟩
    · intro a ha
      rw [List.mem_singleton] at ha
      rw [ha]; exact h0
    · simp [totalScorePotential]
    · intro _; simp [totalScorePotential]
    · rcases h0.1 with h1 | h1 | h1 <;>
        simp [totalDescendantPotential, h1, descendantPotential]
  have hfold : ∀ (evs : List LineageEvent) (st : LineageState), st.accounted a0.GetSize →
      (evs.foldl lineageStep st).accounted a0.GetSize := by
    intro evs
    induction evs with
    | nil => intro st h; exact h
    | cons e es ih =>
      intro st h
      simp only [List.foldl_cons]
      exact ih _ (lineageStep_accounted _ st e h)
  exact hfold events _ hinit

/-- Bound, equality case and size of a lineage in terms of the potentials. -/
theorem lineageRun_bound (a0 : Asteroid) (h0 : a0.wellFormed) (events : List LineageEvent) :
    (lineageRun a0 events).score ≤ scorePotential a0.GetSize ∧
      ((lineageRun a0 events).score = scorePotential a0.GetSize ↔
        (lineageRun a0 events).asteroids = [] ∧ (lineageRun a0 events).lost = 0) ∧
      1 + (lineageRun a0 events).drawn ≤ 1 + descendantPotential a0.GetSize := by
  obtain ⟨hwf, h1, h2, h3⟩ := lineageRun_accounted a0 h0 events
  have hnn := totalScorePotential_nonneg _ hwf
  refine ⟨by omega, ?_, by omega⟩
  constructor
  · intro heq
    have hz : totalScorePotential (lineageRun a0 events).asteroids = 0 := by omega
    exact ⟨totalScorePotential_eq_zero _ hwf hz, by omega⟩
  · rintro ⟨hnil, hl⟩
    have := h2 hl
    rw [hnil] at this
    simpa [totalScorePotential] using this

/-- C19: for every fresh spawn of size tier `s` and every sequence of events of its lineage
(projectile hits through the collision block, runs of the asteroid-ship block, restarts), the
score awarded for the asteroid and its descendants is at most 5 for `s = 1`, 24 for `s = 2` and
76 for `s = 4`, with equality exactly when no asteroid of the lineage is left and none was
removed otherwise than by a projectile; the lineage holds at most 1, 3 and 7 asteroids
(the spawn and the split children created); and a destroyed asteroid of tier 1 produces no
child. -/
theorem C19_lineage_score_bound (w h : Int) (shape : AsteroidShape) (pos : Vector2)
    (split_size : Int) (d : AsteroidDraw) (events : List LineageEvent) :
    ((MakeAsteroid w h shape false pos split_size d).GetSize = 1 →
        (lineageRun (MakeAsteroid w h shape false pos split_size d) events).score ≤ 5 ∧
        ((lineageRun (MakeAsteroid w h shape false pos split_size d) events).score = 5 ↔
          (lineageRun (MakeAsteroid w h shape false pos split_size d) events).asteroids = [] ∧
          (lineageRun (MakeAsteroid w h shape false pos split_size d) events).lost = 0) ∧
        1 + (lineageRun (MakeAsteroid w h shape false pos split_size d) events).drawn ≤ 1) ∧
      ((MakeAsteroid w h shape false pos split_size d).GetSize = 2 →
        (lineageRun (MakeAsteroid w h shape false pos split_size d) events).score ≤ 24 ∧
        ((lineageRun (MakeAsteroid w h shape false pos split_size d) events).score = 24 ↔
          (lineageRun (MakeAsteroid w h shape false pos split_size d) events).asteroids = [] ∧
          (lineageRun (MakeAsteroid w h shape false pos split_size d) events).lost = 0) ∧
        1 + (lineageRun (MakeAsteroid w h shape false pos split_size d) events).drawn ≤ 3) ∧
      ((MakeAsteroid w h shape false pos split_size d).GetSize = 4 →
        (lineageRun (MakeAsteroid w h shape false pos split_size d) events).score ≤ 76 ∧
        ((lineageRun (MakeAsteroid w h shape false pos split_size d) events).score = 76 ↔
          (lineageRun (MakeAsteroid w h shape false pos split_size d) events).asteroids = [] ∧
          (lineageRun (MakeAsteroid w h shape false pos split_size d) events).lost = 0) ∧
        1 + (lineageRun (MakeAsteroid w h shape false pos split_size d) events).drawn ≤ 7) ∧
      ((MakeAsteroid w h shape false pos split_size d).GetSize = 1 ∨
        (MakeAsteroid w h shape false pos split_size d).GetSize = 2 ∨
        (MakeAsteroid w h shape false pos split_size d).GetSize = 4) ∧
      (∀ (draws : Nat → AsteroidDraw) (p : Projectile) (score : Int) (drawn : Nat)
          (pre : List Asteroid) (a : Asteroid) (rest : List Asteroid),
        (∀ b ∈ pre, hits p b = false) → hits p a = true →
        (a.TakeDamage p.GetDamage).IsCrashed = true → a.GetSize = 1 →
        scanAsteroids draws p score drawn [] (pre ++ a :: rest) =
          some ⟨pre ++ rest, score + 5, drawn⟩) := by
  have h0 := MakeAsteroid_spawn_wellFormed w h shape pos split_size d
  obtain ⟨b1, b2, b3⟩ := lineageRun_bound _ h0 events
  refine ⟨?_, ?_, ?_, h0.1, ?_⟩
  · intro hs
    rw [hs] at b1 b2 b3
    exact ⟨b1, b2, b3⟩
  · intro hs
    rw [hs] at b1 b2 b3
    exact ⟨b1, b2, b3⟩
  · intro hs
    rw [hs] at b1 b2 b3
    exact ⟨b1, b2, b3⟩
  · intro draws p score drawn pre a rest hmiss hhit hcrash hs
    have hscan := scanAsteroids_first_hit draws p score drawn pre a rest hmiss hhit
    obtain ⟨hsz, _, _⟩ := TakeDamage_fields a p.GetDamage
    rw [if_pos hcrash, hsz, hs, if_neg (by decide)] at hscan
    exact hscan

/-- The bound of a tier-2 lineage is reached: three laser hits destroy a fresh medium triangle
and its two children, for 14 + 5 + 5 = 24 points, leaving no asteroid. -/
theorem lineage_tight_example :
    sampleSpawn.GetSize = 2 ∧
      lineageRun sampleSpawn [.shots (fun _ => sampleDraw) [sampleShot, sampleShot, sampleShot]]
        = ⟨[], 24, 2, 0⟩ := by
  have hl : ¬ (WeaponType.LASER = WeaponType.BULLET) := by decide
  constructor
  · unfold sampleSpawn
    rw [MakeAsteroid_spawn_size]
    rfl
  · simp only [lineageRun, List.foldl, lineageStep, projectileAsteroidCollisions, scanAsteroids,
      sampleSpawn, MakeAsteroid_eq]
    norm_num [Asteroid.init, Asteroid.TakeDamage, Asteroid.IsCrashed, Asteroid.GetSize,
      Asteroid.GetShape, Asteroid.GetPosition, Asteroid.GetRadius, Asteroid.hpFactor,
      resolvedShape, shapeBaseDamage, sampleDraw, sampleShot, Projectile.new,
      Projectile.GetPosition, Projectile.GetRadius, Projectile.GetDamage, distanceLess,
      Vector2DistanceSqr, RandomFloat, C_WIDTH, C_HEIGHT, Int.tdiv, hl, MakeAsteroid_eq,
      projectileAsteroidCollisions, scanAsteroids]

/-! ## Spacing of consecutive shots -/

/-- The firing loop below the interval does nothing. -/
theorem volleyLoop_idle (player : Ship) (wt : WeaponType) (interval projSpeed t : ℚ)
    (ps : List Projectile) (fuel : Nat) (h : t < interval) :
    volleyLoop player wt interval projSpeed fuel t ps = some (t, ps) := by
  cases fuel with
  | zero => rw [volleyLoop, if_neg (not_le.mpr h)]
  | succ f => rw [volleyLoop, if_neg (not_le.mpr h)]

/-- The firing loop between one and two intervals emits one volley. -/
theorem volleyLoop_once (player : Ship) (wt : WeaponType) (interval projSpeed t : ℚ)
    (ps v : List Projectile) (fuel : Nat) (h1 : interval ≤ t) (h2 : t - interval < interval)
    (hv : emitVolley player wt projSpeed ps = some v) :
    volleyLoop player wt interval projSpeed (fuel + 1) t ps = some (t - interval, v) := by
  rw [volleyLoop, if_pos h1]
  simp only [hv]
  exact volleyLoop_idle player wt interval projSpeed (t - interval) v fuel h2

/-- The straight-up projectile of a volley: the only one for Laser and Bullet, the middle
pellet for Shotgun. -/
theorem emitVolley_straightUp (player : Ship) (wt : WeaponType) (v : ℚ) (ps : List Projectile)
    (hw : wt ≠ WeaponType.COUNT) (hv : 0 < v) :
    ∃ (vol : List Projectile) (q : Projectile),
      emitVolley player wt v ps = some (ps ++ vol) ∧ vol.filter straightUp = [q] ∧
      q.physics.velocity = ⟨0, -v⟩ ∧
      q.transform.position =
        ⟨if wt = WeaponType.SHOTGUN then player.GetPosition.x + 20 else player.GetPosition.x,
          player.GetPosition.y - player.GetRadius⟩ := by
  have hne : ¬ (v = 0) := ne_of_gt hv
  have hne2 : ¬ (-v = 0) := by simpa using hne
  cases wt with
  | LASER =>
    refine ⟨_, Projectile.new ⟨player.GetPosition.x, player.GetPosition.y - player.GetRadius⟩
      ⟨0, -v⟩ 200 .LASER, rfl, ?_, rfl, rfl⟩
    simp [straightUp, Projectile.new]
  | BULLET =>
    refine ⟨_, Projectile.new ⟨player.GetPosition.x, player.GetPosition.y - player.GetRadius⟩
      ⟨0, -v⟩ 10 .BULLET, rfl, ?_, rfl, rfl⟩
    simp [straightUp, Projectile.new]
  | SHOTGUN =>
    refine ⟨_, Projectile.new ⟨player.GetPosition.x + 20, player.GetPosition.y - player.GetRadius⟩
      ⟨0, -v⟩ 5 .SHOTGUN, rfl, ?_, rfl, rfl⟩
    simp [straightUp, Projectile.new, List.filter, hne, hne2]
  | COUNT => exact absurd rfl hw

/-- The projectile update block moves every projectile and keeps those in bounds. -/
theorem updateProjectiles_eq (r : Renderer) (dt : ℚ) (l : List Projectile) :
    updateProjectiles r dt l =
      (l.filter (fun p => !(p.Update r dt).2)).map (fun p => (p.Update r dt).1) := by
  induction l with
  | nil => rfl
  | cons p ps ih =>
    rw [updateProjectiles]
    cases hu : (p.Update r dt).2 <;> simp [hu, ih]

/-- `Projectile::Update` keeps the velocity. -/
theorem projectile_Update_velocity (r : Renderer) (p : Projectile) (dt : ℚ) :
    (p.Update r dt).1.physics = p.physics := by
  unfold Projectile.Update
  dsimp only
  split <;> rfl

/-- Position after `Projectile::Update`. -/
theorem projectile_Update_position (r : Renderer) (p : Projectile) (dt : ℚ) :
    (p.Update r dt).1.transform.position =
      ⟨p.transform.position.x + p.physics.velocity.x * dt,
        p.transform.position.y + p.physics.velocity.y * dt⟩ := by
  unfold Projectile.Update Vector2Add Vector2Scale
  dsimp only
  split <;> rfl

/-- The projectile update block commutes with the selection of the straight-up projectiles. -/
theorem updateProjectiles_filter_straightUp (r : Renderer) (dt : ℚ) (l : List Projectile) :
    (updateProjectiles r dt l).filter straightUp =
      updateProjectiles r dt (l.filter straightUp) := by
  induction l with
  | nil => rfl
  | cons p ps ih =>
    have hs : straightUp (p.Update r dt).1 = straightUp p := by
      unfold straightUp
      rw [projectile_Update_velocity]
    rw [updateProjectiles]
    cases hu : (p.Update r dt).2 <;> cases hp : straightUp p <;>
      simp [hu, hp, hs, ih, List.filter, updateProjectiles]

/-- In a column of spaced shots the ordinates grow along the list. -/
theorem spacedBy_head_le (s v xc : ℚ) (hs : 0 ≤ s) :
    ∀ (l : List Projectile) (a : Projectile), List.Chain' (spacedBy s v xc) (a :: l) →
      ∀ b ∈ l, a.transform.position.y ≤ b.transform.position.y := by
  intro l
  induction l with
  | nil => intro a _ b hb; simp at hb
  | cons c l ih =>
    intro a hch b hb
    rw [List.chain'_cons] at hch
    have hac : a.transform.position.y ≤ c.transform.position.y := by
      rw [hch.1.1]; linarith
    rcases List.mem_cons.mp hb with rfl | hb
    · exact hac
    · exact le_trans hac (ih c hch.2 b hb)

/-- In a column of spaced shots the last one has the largest ordinate. -/
theorem spacedBy_le_last (s v xc : ℚ) (hs : 0 ≤ s) :
    ∀ (l : List Projectile), List.Chain' (spacedBy s v xc) l →
      ∀ L ∈ l.getLast?, ∀ b ∈ l, b.transform.position.y ≤ L.transform.position.y := by
  intro l
  induction l with
  | nil => intro _ L hL; simp at hL
  | cons a l ih =>
    intro hch L hL b hb
    cases l with
    | nil =>
      simp only [List.getLast?_singleton, Option.mem_def, Option.some.injEq] at hL
      simp only [List.mem_singleton] at hb
      rw [hb, hL]
    | cons c l =>
      have hL2 : L ∈ (c :: l).getLast? := by
        simpa [List.getLast?_cons_cons] using hL
      have hLmem : L ∈ c :: l := List.mem_of_mem_getLast? hL2
      rcases List.mem_cons.mp hb with rfl | hb
      · exact spacedBy_head_le s v xc hs (c :: l) b hch L hLmem
      · exact ih (List.chain'_cons'.mp hch).2 L hL2 b hb

/-- Filtering a column by a predicate that passes from a shot to every later one keeps a
final segment of the column. -/
theorem filter_suffix_of_upward (K : Projectile → Bool) (s v xc : ℚ) (hs : 0 ≤ s) :
    ∀ (l : List Projectile), List.Chain' (spacedBy s v xc) l →
      (∀ a ∈ l, ∀ b ∈ l, a.transform.position.y ≤ b.transform.position.y →
        K a = true → K b = true) →
      l.filter K <:+ l := by
  intro l
  induction l with
  | nil => intro _ _; simp
  | cons a l ih =>
    intro hch hup
    have hup1 : ∀ x ∈ l, ∀ y ∈ l, x.transform.position.y ≤ y.transform.position.y →
        K x = true → K y = true :=
      fun x hx y hy => hup x (List.mem_cons_of_mem _ hx) y (List.mem_cons_of_mem _ hy)
    cases hK : K a with
    | true =>
      have hall : ∀ b ∈ l, K b = true := fun b hb =>
        hup a (List.mem_cons_self _ _) b (List.mem_cons_of_mem _ hb)
          (spacedBy_head_le s v xc hs l a hch b hb) hK
      rw [List.filter_cons_of_pos hK, List.filter_eq_self.mpr hall]
    | false =>
      rw [List.filter_cons_of_neg (by simp [hK])]
      exact (ih (List.chain'_cons'.mp hch).2 hup1).trans (List.suffix_cons a l)

/-- Whether a shot of the column survives the update, in terms of its position. -/
theorem column_Update_flag (r : Renderer) (dt v xc : ℚ) (p : Projectile)
    (hv : p.physics.velocity = ⟨0, -v⟩) (hx : p.transform.position.x = xc) :
    (!(p.Update r dt).2) = true ↔
      (0 ≤ xc ∧ xc ≤ (r.screenW : ℚ) ∧ 0 ≤ p.transform.position.y - v * dt ∧
        p.transform.position.y - v * dt ≤ (r.screenH : ℚ)) := by
  rw [Bool.not_eq_true', ← Bool.not_eq_true, projectile_Update_flag, hv, hx]
  simp only [zero_mul, add_zero, neg_mul]
  constructor
  · intro h
    push_neg at h
    exact ⟨h.1, h.2.1, by linarith [h.2.2.1], by linarith [h.2.2.2]⟩
  · rintro ⟨h1, h2, h3, h4⟩
    push_neg
    exact ⟨h1, h2, by linarith, by linarith⟩

/-- The update of a shot of the column: the same column, `v * dt` higher. -/
theorem column_Update_moved (r : Renderer) (dt s v xc : ℚ) (p q : Projectile)
    (h : spacedBy s v xc p q) :
    spacedBy s v xc (p.Update r dt).1 (q.Update r dt).1 ∧
      (q.Update r dt).1.transform.position.y = q.transform.position.y - v * dt := by
  obtain ⟨hy, hvp, hvq, hxp, hxq⟩ := h
  refine ⟨⟨?_, ?_, ?_, ?_, ?_⟩, ?_⟩
  · rw [projectile_Update_position, projectile_Update_position, hvp, hvq, hy]
    ring
  · rw [projectile_Update_velocity]; exact hvp
  · rw [projectile_Update_velocity]; exact hvq
  · rw [projectile_Update_position, hvp, hxp]; simp
  · rw [projectile_Update_position, hvq, hxq]; simp
  · rw [projectile_Update_position, hvq]
    simp only
    ring

/-- The projectile update block on a column of spaced shots: the shots kept are a final segment
of the column, moved up by `v * dt`; when one is kept, the last of the column is. -/
theorem column_update (r : Renderer) (dt s v xc : ℚ) (hs : 0 ≤ s) (F1 : List Projectile)
    (hch : List.Chain' (spacedBy s v xc) F1)
    (hcol : ∀ p ∈ F1, p.physics.velocity = ⟨0, -v⟩ ∧ p.transform.position.x = xc)
    (he : ∀ L ∈ F1.getLast?,
      L.transform.position.y - v * dt ≤ (r.screenH : ℚ) ∨ F1 = [L]) :
    List.Chain' (spacedBy s v xc) (updateProjectiles r dt F1) ∧
      (∀ p ∈ updateProjectiles r dt F1,
        p.physics.velocity = ⟨0, -v⟩ ∧ p.transform.position.x = xc) ∧
      (∀ L1 ∈ (updateProjectiles r dt F1).getLast?, ∃ L ∈ F1.getLast?,
        L1.transform.position.y = L.transform.position.y - v * dt ∧
        L1.transform.position.y ≤ (r.screenH : ℚ)) := by
  have hup : ∀ a ∈ F1, ∀ b ∈ F1, a.transform.position.y ≤ b.transform.position.y →
      (!(a.Update r dt).2) = true → (!(b.Update r dt).2) = true := by
    intro a ha b hb hab hKa
    rw [column_Update_flag r dt v xc a (hcol a ha).1 (hcol a ha).2] at hKa
    rw [column_Update_flag r dt v xc b (hcol b hb).1 (hcol b hb).2]
    obtain ⟨k1, k2, k3, _⟩ := hKa
    have hne : F1 ≠ [] := List.ne_nil_of_mem ha
    obtain ⟨L, hL⟩ : ∃ L, F1.getLast? = some L := by
      cases hq : F1.getLast? with
      | none => exact absurd (List.getLast?_eq_none_iff.mp hq) hne
      | some L => exact ⟨L, rfl⟩
    rcases he L hL with hle | hsingle
    · have hbL := spacedBy_le_last s v xc hs F1 hch L hL b hb
      exact ⟨k1, k2, by linarith, by linarith⟩
    · rw [hsingle] at ha hb
      rw [List.mem_singleton] at ha hb
      rw [hb, ← ha]
      exact ⟨k1, k2, k3, by assumption⟩
  have hsuf := filter_suffix_of_upward (fun p => !(p.Update r dt).2) s v xc hs F1 hch hup
  have hchS := hch.suffix hsuf
  have hmemS : ∀ p ∈ F1.filter (fun p => !(p.Update r dt).2), p ∈ F1 :=
    fun p hp => (List.mem_filter.mp hp).1
  rw [updateProjectiles_eq]
  refine ⟨?_, ?_, ?_⟩
  · rw [List.chain'_map]
    exact hchS.imp (fun p q h => (column_Update_moved r dt s v xc p q h).1)
  · intro p1 hp1
    obtain ⟨p, hp, rfl⟩ := List.mem_map.mp hp1
    obtain ⟨hv, hx⟩ := hcol p (hmemS p hp)
    refine ⟨by rw [projectile_Update_velocity]; exact hv, ?_⟩
    rw [projectile_Update_position, hv, hx]
    simp
  · intro L1 hL1
    rw [List.getLast?_map] at hL1
    obtain ⟨L0, hL0, rfl⟩ := Option.mem_map.mp hL1
    have hL0S : L0 ∈ F1.filter (fun p => !(p.Update r dt).2) := List.mem_of_mem_getLast? hL0
    have hneS : F1.filter (fun p => !(p.Update r dt).2) ≠ [] := List.ne_nil_of_mem hL0S
    obtain ⟨l0, hl0⟩ := hsuf
    have hlast : F1.getLast? = (F1.filter (fun p => !(p.Update r dt).2)).getLast? := by
      conv_lhs => rw [← hl0]
      exact List.getLast?_append_of_ne_nil l0 hneS
    obtain ⟨hv, hx⟩ := hcol L0 (hmemS L0 hL0S)
    have hK := (List.mem_filter.mp hL0S).2
    rw [column_Update_flag r dt v xc L0 hv hx] at hK
    refine ⟨L0, by rw [hlast]; exact hL0, ?_, ?_⟩
    · rw [projectile_Update_position, hv]
      simp only
      ring
    · rw [projectile_Update_position, hv]
      simp only
      linarith [hK.2.2.2]

/-- One frame with fire held, when the interval is `m` tick durations: a volley is emitted
exactly when `m` ticks have passed since the last one, and the column of straight-up shots
stays a column of shots `spacing` apart. -/
theorem fireTick_columnInvariant (fuel : Nat) (r : Renderer) (player : Ship) (wt : WeaponType)
    (rate spacing tau : ℚ) (m k : Nat) (st : ℚ × List Projectile)
    (halive : player.IsAlive = true) (hrate : player.GetFireRate wt = some rate)
    (hspacing : player.GetSpacing wt = some spacing) (hpos : 0 < rate) (hsp : 0 < spacing)
    (hm : 1 ≤ m) (hfuel : 1 ≤ fuel) (htau0 : 0 ≤ tau) (htau : tau < 1 / rate / (m : ℚ))
    (hk : k < m) (h : columnInvariant r player wt spacing rate (1 / rate / (m : ℚ)) tau k st) :
    ∃ st1, fireTick fuel r player wt (1 / rate / (m : ℚ)) st = some st1 ∧
      columnInvariant r player wt spacing rate (1 / rate / (m : ℚ)) tau
        (if k + 1 = m then 0 else k + 1) st1 := by
  have hw : wt ≠ WeaponType.COUNT := by
    intro hc; subst hc; simp [Ship.GetFireRate] at hrate
  have hmq : (0 : ℚ) < (m : ℚ) := by exact_mod_cast hm
  have hI : (0 : ℚ) < 1 / rate := one_div_pos.mpr hpos
  have hdt : (0 : ℚ) < 1 / rate / (m : ℚ) := div_pos hI hmq
  have hmdt : (m : ℚ) * (1 / rate / (m : ℚ)) = 1 / rate := by field_simp; ring
  have hv : 0 < spacing * rate := mul_pos hsp hpos
  have hstep : (m : ℚ) * (spacing * rate * (1 / rate / (m : ℚ))) = spacing := by
    field_simp; ring
  have hδ : 0 < spacing * rate * (1 / rate / (m : ℚ)) := mul_pos hv hdt
  obtain ⟨ht, hch, hcol, hlast, hbound⟩ := h
  obtain ⟨spacing2, hspacing2, hshoot⟩ := shooting_held_fuel player wt rate
    (1 / rate / (m : ℚ)) st.1 st.2 halive hw hrate
  have hs2 : spacing2 = spacing := by
    rw [hspacing] at hspacing2; exact (Option.some.inj hspacing2).symm
  subst hs2
  have hkq : (k : ℚ) + 1 ≤ (m : ℚ) := by exact_mod_cast hk
  by_cases hkm : k + 1 = m
  · -- a volley is due
    have hkq2 : (k : ℚ) + 1 = (m : ℚ) := by exact_mod_cast hkm
    obtain ⟨vol, q, hemit, hfilter, hqv, hqp⟩ :=
      emitVolley_straightUp player wt (spacing2 * rate) st.2 hw hv
    obtain ⟨f, rfl⟩ : ∃ f, fuel = f + 1 := ⟨fuel - 1, by omega⟩
    have hsum : st.1 + 1 / rate / (m : ℚ) = tau + 1 / rate := by
      have e : ((k : ℚ) + 1) * (1 / rate / (m : ℚ)) = 1 / rate := by rw [hkq2]; exact hmdt
      rw [ht]; linarith
    have hloop := volleyLoop_once player wt (1 / rate) (spacing2 * rate)
      (st.1 + 1 / rate / (m : ℚ)) st.2 (st.2 ++ vol) f (by rw [hsum]; linarith)
      (by
        rw [hsum]
        have : 1 / rate / (m : ℚ) ≤ 1 / rate :=
          div_le_self (le_of_lt hI) (by exact_mod_cast hm)
        linarith) hemit
    refine ⟨(st.1 + 1 / rate / (m : ℚ) - 1 / rate,
      updateProjectiles r (1 / rate / (m : ℚ)) (st.2 ++ vol)), ?_, ?_⟩
    · unfold fireTick
      rw [hshoot, hloop]
    · rw [if_pos hkm]
      have hF1 : (st.2 ++ vol).filter straightUp = st.2.filter straightUp ++ [q] := by
        rw [List.filter_append, hfilter]
      have hqy : q.transform.position.y = player.GetPosition.y - player.GetRadius := by
        rw [hqp]
      have hqx : q.transform.position.x =
          (if wt = WeaponType.SHOTGUN then player.GetPosition.x + 20
            else player.GetPosition.x) := by rw [hqp]
      have hch1 : List.Chain' (spacedBy spacing2 (spacing2 * rate)
          (if wt = WeaponType.SHOTGUN then player.GetPosition.x + 20 else player.GetPosition.x))
          (st.2.filter straightUp ++ [q]) := by
        apply List.Chain'.append hch (List.chain'_singleton q)
        intro L hL y hy
        simp only [List.head?_cons, Option.mem_def, Option.some.injEq] at hy
        subst hy
        have hLm := hcol L (List.mem_of_mem_getLast? hL)
        refine ⟨?_, hLm.1, hqv, hLm.2, hqx⟩
        rw [hqy, hlast L hL, hkq2, hstep]
        ring
      have hcol1 : ∀ p ∈ st.2.filter straightUp ++ [q],
          p.physics.velocity = ⟨0, -(spacing2 * rate)⟩ ∧ p.transform.position.x =
            (if wt = WeaponType.SHOTGUN then player.GetPosition.x + 20
              else player.GetPosition.x) := by
        intro p hp
        rcases List.mem_append.mp hp with hp | hp
        · exact hcol p hp
        · rw [List.mem_singleton] at hp
          rw [hp]; exact ⟨hqv, hqx⟩
      have hlastq : (st.2.filter straightUp ++ [q]).getLast? = some q := by
        rw [List.getLast?_append_of_ne_nil _ (by simp)]
        rfl
      have he1 : ∀ L ∈ (st.2.filter straightUp ++ [q]).getLast?,
          L.transform.position.y - spacing2 * rate * (1 / rate / (m : ℚ)) ≤ (r.screenH : ℚ) ∨
            st.2.filter straightUp ++ [q] = [L] := by
        intro L hL
        rw [hlastq] at hL
        simp only [Option.mem_def, Option.some.injEq] at hL
        subst hL
        by_cases hnil : st.2.filter straightUp = []
        · right; rw [hnil]; rfl
        · left; rw [hqy]; exact hbound hnil
      obtain ⟨c1, c2, c3⟩ := column_update r (1 / rate / (m : ℚ)) spacing2 (spacing2 * rate) _
        (le_of_lt hsp) _ hch1 hcol1 he1
      refine ⟨?_, ?_, ?_, ?_, ?_⟩
      · show st.1 + 1 / rate / (m : ℚ) - 1 / rate = tau + ((0 : Nat) : ℚ) * (1 / rate / (m : ℚ))
        rw [hsum]; simp
      · show List.Chain' _ ((updateProjectiles r _ (st.2 ++ vol)).filter straightUp)
        rw [updateProjectiles_filter_straightUp, hF1]; exact c1
      · show ∀ p ∈ (updateProjectiles r _ (st.2 ++ vol)).filter straightUp, _
        rw [updateProjectiles_filter_straightUp, hF1]; exact c2
      · show ∀ L ∈ ((updateProjectiles r _ (st.2 ++ vol)).filter straightUp).getLast?, _
        rw [updateProjectiles_filter_straightUp, hF1]
        intro L1 hL1
        obtain ⟨L, hL, hy, _⟩ := c3 L1 hL1
        rw [hlastq] at hL
        simp only [Option.mem_def, Option.some.injEq] at hL
        subst hL
        rw [hy, hqy]
        push_cast
        ring
      · show (updateProjectiles r _ (st.2 ++ vol)).filter straightUp ≠ [] → _
        rw [updateProjectiles_filter_straightUp, hF1]
        intro hne
        obtain ⟨L1, hL1⟩ : ∃ L1, (updateProjectiles r (1 / rate / (m : ℚ))
            (st.2.filter straightUp ++ [q])).getLast? = some L1 := by
          cases hq : (updateProjectiles r (1 / rate / (m : ℚ))
              (st.2.filter straightUp ++ [q])).getLast? with
          | none => exact absurd (List.getLast?_eq_none_iff.mp hq) hne
          | some L1 => exact ⟨L1, rfl⟩
        obtain ⟨L, hL, hy, hH⟩ := c3 L1 hL1
        rw [hlastq] at hL
        simp only [Option.mem_def, Option.some.injEq] at hL
        subst hL
        rw [hy, hqy] at hH
        exact hH
  · -- no volley in this tick
    have hk1 : k + 1 < m := by omega
    have hkq1 : (k : ℚ) + 2 ≤ (m : ℚ) := by exact_mod_cast hk1
    have hlt : st.1 + 1 / rate / (m : ℚ) < 1 / rate := by
      have h3 : ((k : ℚ) + 2) * (1 / rate / (m : ℚ)) ≤ (m : ℚ) * (1 / rate / (m : ℚ)) :=
        mul_le_mul_of_nonneg_right hkq1 (le_of_lt hdt)
      rw [ht]
      linarith
    have hloop := volleyLoop_idle player wt (1 / rate) (spacing2 * rate)
      (st.1 + 1 / rate / (m : ℚ)) st.2 fuel hlt
    refine ⟨(st.1 + 1 / rate / (m : ℚ), updateProjectiles r (1 / rate / (m : ℚ)) st.2), ?_, ?_⟩
    · unfold fireTick
      rw [hshoot, hloop]
    · rw [if_neg hkm]
      have he1 : ∀ L ∈ (st.2.filter straightUp).getLast?,
          L.transform.position.y - spacing2 * rate * (1 / rate / (m : ℚ)) ≤ (r.screenH : ℚ) ∨
            st.2.filter straightUp = [L] := by
        intro L hL
        left
        have hne : st.2.filter straightUp ≠ [] := List.ne_nil_of_mem (List.mem_of_mem_getLast? hL)
        have hb := hbound hne
        rw [hlast L hL]
        have hk0 : (0 : ℚ) ≤ (k : ℚ) := Nat.cast_nonneg k
        nlinarith
      obtain ⟨c1, c2, c3⟩ := column_update r (1 / rate / (m : ℚ)) spacing2 (spacing2 * rate) _
        (le_of_lt hsp) _ hch hcol he1
      refine ⟨?_, ?_, ?_, ?_, ?_⟩
      · show st.1 + 1 / rate / (m : ℚ) = tau + ((k + 1 : Nat) : ℚ) * (1 / rate / (m : ℚ))
        rw [ht]; push_cast; ring
      · show List.Chain' _ ((updateProjectiles r _ st.2).filter straightUp)
        rw [updateProjectiles_filter_straightUp]; exact c1
      · show ∀ p ∈ (updateProjectiles r _ st.2).filter straightUp, _
        rw [updateProjectiles_filter_straightUp]; exact c2
      · show ∀ L ∈ ((updateProjectiles r _ st.2).filter straightUp).getLast?, _
        rw [updateProjectiles_filter_straightUp]
        intro L1 hL1
        obtain ⟨L, hL, hy, _⟩ := c3 L1 hL1
        rw [hy, hlast L hL]
        push_cast
        ring
      · show (updateProjectiles r _ st.2).filter straightUp ≠ [] → _
        rw [updateProjectiles_filter_straightUp]
        intro hne
        apply hbound
        intro hnil
        rw [hnil] at hne
        exact hne rfl

/-- Any number of frames with fire held keeps the column of straight-up shots spaced. -/
theorem fireRun_columnInvariant (fuel : Nat) (r : Renderer) (player : Ship) (wt : WeaponType)
    (rate spacing tau : ℚ) (m : Nat)
    (halive : player.IsAlive = true) (hrate : player.GetFireRate wt = some rate)
    (hspacing : player.GetSpacing wt = some spacing) (hpos : 0 < rate) (hsp : 0 < spacing)
    (hm : 1 ≤ m) (hfuel : 1 ≤ fuel) (htau0 : 0 ≤ tau) (htau : tau < 1 / rate / (m : ℚ)) :
    ∀ (n k : Nat) (st : ℚ × List Projectile), k < m →
      columnInvariant r player wt spacing rate (1 / rate / (m : ℚ)) tau k st →
      ∃ (st1 : ℚ × List Projectile) (k1 : Nat), k1 < m ∧
        fireRun fuel r player wt (1 / rate / (m : ℚ)) n st = some st1 ∧
        columnInvariant r player wt spacing rate (1 / rate / (m : ℚ)) tau k1 st1 := by
  intro n
  induction n with
  | zero => intro k st hk h; exact ⟨st, k, hk, rfl, h⟩
  | succ n ih =>
    intro k st hk h
    obtain ⟨st1, htick, hinv⟩ := fireTick_columnInvariant fuel r player wt rate spacing tau m k
      st halive hrate hspacing hpos hsp hm hfuel htau0 htau hk h
    have hk1 : (if k + 1 = m then 0 else k + 1) < m := by
      split
      · omega
      · omega
    obtain ⟨st2, k2, hk2, hrun, hinv2⟩ := ih _ st1 hk1 hinv
    refine ⟨st2, k2, hk2, ?_, hinv2⟩
    rw [fireRun, htick]
    exact hrun

/-- A volley is pushed at the end of the collection, whatever the collection holds. -/
theorem emitVolley_append (player : Ship) (wt : WeaponType) (v : ℚ)
    (ps0 ps : List Projectile) :
    emitVolley player wt v (ps0 ++ ps) =
      (emitVolley player wt v ps).map (fun l => ps0 ++ l) := by
  cases wt <;> simp [emitVolley, MakeProjectile]

/-- The firing loop does not read the projectiles already in the collection. -/
theorem volleyLoop_append (player : Ship) (wt : WeaponType) (interval projSpeed : ℚ)
    (ps0 : List Projectile) :
    ∀ (fuel : Nat) (t : ℚ) (ps : List Projectile),
      volleyLoop player wt interval projSpeed fuel t (ps0 ++ ps) =
        (volleyLoop player wt interval projSpeed fuel t ps).map
          (fun res => (res.1, ps0 ++ res.2)) := by
  intro fuel
  induction fuel with
  | zero =>
    intro t ps
    rw [volleyLoop, volleyLoop]
    split <;> rfl
  | succ f ih =>
    intro t ps
    rw [volleyLoop, volleyLoop]
    split
    · rw [emitVolley_append]
      cases hv : emitVolley player wt projSpeed ps with
      | none => rfl
      | some l => exact ih _ l
    · rfl

/-- The shooting block does not read the projectiles already in the collection. -/
theorem shooting_append (fuel : Nat) (player : Ship) (wt : WeaponType) (keySpace : Bool)
    (dt t : ℚ) (ps0 ps : List Projectile) :
    shooting fuel player wt keySpace dt t (ps0 ++ ps) =
      (shooting fuel player wt keySpace dt t ps).map (fun res => (res.1, ps0 ++ res.2)) := by
  unfold shooting
  split
  · cases player.GetFireRate wt with
    | none => rfl
    | some rate =>
      cases player.GetSpacing wt with
      | none => rfl
      | some spacing => exact volleyLoop_append player wt _ _ ps0 fuel _ ps
  · cases player.GetFireRate wt with
    | none => rfl
    | some rate =>
      dsimp only
      split <;> rfl

/-- One frame with fire held treats the projectiles already in the collection and the ones it
emits separately. -/
theorem fireTick_append (fuel : Nat) (r : Renderer) (player : Ship) (wt : WeaponType) (dt t : ℚ)
    (ps0 ps : List Projectile) :
    fireTick fuel r player wt dt (t, ps0 ++ ps) =
      (fireTick fuel r player wt dt (t, ps)).map
        (fun st => (st.1, updateProjectiles r dt ps0 ++ st.2)) := by
  unfold fireTick
  dsimp only
  rw [shooting_append]
  cases shooting fuel player wt true dt t ps with
  | none => rfl
  | some res =>
    simp only [Option.map_some', updateProjectiles_append]

/-- A run with fire held from a collection `ps0 ++ ps`: the projectiles of `ps0` are moved and
culled by the update block of every frame, and the rest is the run from `ps`. -/
theorem fireRun_append (fuel : Nat) (r : Renderer) (player : Ship) (wt : WeaponType) (dt : ℚ) :
    ∀ (n : Nat) (t : ℚ) (ps0 ps : List Projectile),
      fireRun fuel r player wt dt n (t, ps0 ++ ps) =
        (fireRun fuel r player wt dt n (t, ps)).map
          (fun st => (st.1, (updateProjectiles r dt)^[n] ps0 ++ st.2)) := by
  intro n
  induction n with
  | zero => intro t ps0 ps; rfl
  | succ n ih =>
    intro t ps0 ps
    rw [fireRun, fireRun, fireTick_append]
    cases fireTick fuel r player wt dt (t, ps) with
    | none => rfl
    | some st1 =>
      simp only [Option.map_some']
      rw [ih st1.1 (updateProjectiles r dt ps0) st1.2, Function.iterate_succ_apply]

/-- A run with fire held from a shot timer in `[0, 1 / rate)`, with ticks of which the
interval is a whole multiple: the collection is what the update blocks leave of the starting
one, followed by the projectiles emitted in the run, whose straight-up members are `spacing`
apart; the timer stays in `[0, 1 / rate)`. -/
theorem fireRun_spaced_nonneg (fuel : Nat) (r : Renderer) (player : Ship) (wt : WeaponType)
    (rate spacing t0 : ℚ) (m n : Nat) (ps0 : List Projectile)
    (halive : player.IsAlive = true) (hrate : player.GetFireRate wt = some rate)
    (hspacing : player.GetSpacing wt = some spacing) (hpos : 0 < rate) (hsp : 0 < spacing)
    (hm : 1 ≤ m) (hfuel : 1 ≤ fuel) (ht0 : 0 ≤ t0) (ht1 : t0 < 1 / rate) :
    ∃ (t : ℚ) (new : List Projectile),
      fireRun fuel r player wt (1 / rate / (m : ℚ)) n (t0, ps0) =
        some (t, (updateProjectiles r (1 / rate / (m : ℚ)))^[n] ps0 ++ new) ∧
      0 ≤ t ∧ t < 1 / rate ∧
      List.Chain' (fun p q => q.transform.position.y = p.transform.position.y + spacing)
        (new.filter straightUp) ∧
      (∀ p ∈ new.filter straightUp, p.physics.velocity = ⟨0, -(spacing * rate)⟩) := by
  have hmq : (0 : ℚ) < (m : ℚ) := by exact_mod_cast hm
  have hI : (0 : ℚ) < 1 / rate := one_div_pos.mpr hpos
  have hdt : (0 : ℚ) < 1 / rate / (m : ℚ) := div_pos hI hmq
  have hmdt : (m : ℚ) * (1 / rate / (m : ℚ)) = 1 / rate := by field_simp; ring
  -- the timer at the start is `tau + k0 * dt` with `0 ≤ tau < dt` and `k0 < m`
  have hq : 0 ≤ t0 / (1 / rate / (m : ℚ)) := div_nonneg ht0 (le_of_lt hdt)
  obtain ⟨k0, hk0⟩ := Int.eq_ofNat_of_zero_le (Int.floor_nonneg.mpr hq)
  have hf1 : ((k0 : Int) : ℚ) ≤ t0 / (1 / rate / (m : ℚ)) := by
    rw [← hk0]; exact Int.floor_le _
  have hf2 : t0 / (1 / rate / (m : ℚ)) < ((k0 : Int) : ℚ) + 1 := by
    rw [← hk0]; exact Int.lt_floor_add_one _
  have hf1' : (k0 : ℚ) * (1 / rate / (m : ℚ)) ≤ t0 := by
    have := (le_div_iff₀ hdt).mp hf1
    simpa using this
  have hf2' : t0 < ((k0 : ℚ) + 1) * (1 / rate / (m : ℚ)) := by
    have := (div_lt_iff₀ hdt).mp hf2
    simpa using this
  have hk0m : k0 < m := by
    have h1 : (k0 : ℚ) * (1 / rate / (m : ℚ)) < (m : ℚ) * (1 / rate / (m : ℚ)) := by
      rw [hmdt]; linarith
    have h2 : (k0 : ℚ) < (m : ℚ) := lt_of_mul_lt_mul_right h1 (le_of_lt hdt)
    exact_mod_cast h2
  have hinit : columnInvariant r player wt spacing rate (1 / rate / (m : ℚ))
      (t0 - (k0 : ℚ) * (1 / rate / (m : ℚ))) k0 (t0, []) := by
    refine ⟨by simp, ?_, ?_, ?_, ?_⟩
    · simp
    · intro p hp; simp at hp
    · intro L hL; simp at hL
    · intro hne; simp at hne
  obtain ⟨st1, k1, hk1, hrun, hinv⟩ := fireRun_columnInvariant fuel r player wt rate spacing
    (t0 - (k0 : ℚ) * (1 / rate / (m : ℚ))) m halive hrate hspacing hpos hsp hm hfuel
    (by linarith) (by linarith) n k0 (t0, []) hk0m hinit
  obtain ⟨ht, hch, hcol, _, _⟩ := hinv
  have hk1q : (k1 : ℚ) + 1 ≤ (m : ℚ) := by exact_mod_cast hk1
  have hk1dt : ((k1 : ℚ) + 1) * (1 / rate / (m : ℚ)) ≤ 1 / rate :=
    le_of_le_of_eq (mul_le_mul_of_nonneg_right hk1q (le_of_lt hdt)) hmdt
  have hk1nn : 0 ≤ (k1 : ℚ) * (1 / rate / (m : ℚ)) :=
    mul_nonneg (Nat.cast_nonneg k1) (le_of_lt hdt)
  refine ⟨st1.1, st1.2, ?_, ?_, ?_, hch.imp (fun p q h => h.1), fun p hp => (hcol p hp).1⟩
  · have happ := fireRun_append fuel r player wt (1 / rate / (m : ℚ)) n t0 ps0 []
    rw [List.append_nil, hrun] at happ
    exact happ
  · rw [ht]; linarith
  · rw [ht]; linarith

/-- A run with fire held from any shot timer below the interval: as `fireRun_spaced_nonneg`,
a negative timer first rising, without a volley, by one tick per frame. -/
theorem fireRun_spaced (fuel : Nat) (r : Renderer) (player : Ship) (wt : WeaponType)
    (rate spacing : ℚ) (m : Nat)
    (halive : player.IsAlive = true) (hrate : player.GetFireRate wt = some rate)
    (hspacing : player.GetSpacing wt = some spacing) (hpos : 0 < rate) (hsp : 0 < spacing)
    (hm : 1 ≤ m) (hfuel : 1 ≤ fuel) :
    ∀ (n : Nat) (t0 : ℚ) (ps0 : List Projectile), t0 < 1 / rate →
      ∃ (t : ℚ) (new : List Projectile),
        fireRun fuel r player wt (1 / rate / (m : ℚ)) n (t0, ps0) =
          some (t, (updateProjectiles r (1 / rate / (m : ℚ)))^[n] ps0 ++ new) ∧
        t < 1 / rate ∧ (0 ≤ t0 → 0 ≤ t) ∧
        List.Chain' (fun p q => q.transform.position.y = p.transform.position.y + spacing)
          (new.filter straightUp) ∧
        (∀ p ∈ new.filter straightUp, p.physics.velocity = ⟨0, -(spacing * rate)⟩) := by
  have hw : wt ≠ WeaponType.COUNT := by
    intro hc; subst hc; simp [Ship.GetFireRate] at hrate
  have hmq : (0 : ℚ) < (m : ℚ) := by exact_mod_cast hm
  have hI : (0 : ℚ) < 1 / rate := one_div_pos.mpr hpos
  have hdtI : 1 / rate / (m : ℚ) ≤ 1 / rate := div_le_self (le_of_lt hI) (by exact_mod_cast hm)
  intro n
  induction n with
  | zero =>
    intro t0 ps0 ht1
    exact ⟨t0, [], by simp [fireRun], ht1, fun h => h, by simp, by simp⟩
  | succ n ih =>
    intro t0 ps0 ht1
    by_cases ht0 : 0 ≤ t0
    · obtain ⟨t, new, h1, h2, h3, h4, h5⟩ := fireRun_spaced_nonneg fuel r player wt rate spacing
        t0 m (n + 1) ps0 halive hrate hspacing hpos hsp hm hfuel ht0 ht1
      exact ⟨t, new, h1, h3, fun _ => h2, h4, h5⟩
    · have hneg : t0 < 0 := not_le.mp ht0
      obtain ⟨spacing2, _, hshoot⟩ := shooting_held_fuel player wt rate (1 / rate / (m : ℚ))
        t0 ps0 halive hw hrate
      have hlt : t0 + 1 / rate / (m : ℚ) < 1 / rate := by linarith
      have htick : fireTick fuel r player wt (1 / rate / (m : ℚ)) (t0, ps0) =
          some (t0 + 1 / rate / (m : ℚ), updateProjectiles r (1 / rate / (m : ℚ)) ps0) := by
        unfold fireTick
        dsimp only
        rw [hshoot fuel, volleyLoop_idle player wt (1 / rate) (spacing2 * rate)
          (t0 + 1 / rate / (m : ℚ)) ps0 fuel hlt]
      obtain ⟨t, new, h1, h2, _, h4, h5⟩ := ih (t0 + 1 / rate / (m : ℚ))
        (updateProjectiles r (1 / rate / (m : ℚ)) ps0) hlt
      refine ⟨t, new, ?_, h2, fun h => absurd h ht0, h4, h5⟩
      rw [fireRun, htick, Function.iterate_succ_apply]
      exact h1

/-- C17, as stated, fails in two ways. When the interval is not a whole number of ticks: with
the fresh ship, Laser (interval 1/7 s, spacing 80) and ticks of 1/10 s, fire held from timer 0,
the second and third ticks each emit a laser, and at the end of the third tick the two live
lasers are at `y = 263` and `y = 319`, 56 px apart. When the shot timer at the start is not
below the interval: with Bullet (interval 1/14 s, spacing 60), ticks of 1/14 s and a timer of
1/14 s at the start, the first tick emits two bullets from the same muzzle position, and at the
end of that tick both are at `y = 315`, 0 px apart. -/
theorem C17_counterexample :
    sampleShip.IsAlive = true ∧ sampleShip.GetFireRate .LASER = some 7 ∧
      sampleShip.GetSpacing .LASER = some 80 ∧ (0 : ℚ) < 1 / 10 ∧ (1 / 10 : ℚ) ≤ 1 / 7 ∧
      fireRun 1 Renderer.Instance sampleShip .LASER (1 / 10) 3 (0, []) =
        some (1 / 70, [Projectile.new ⟨700, 263⟩ ⟨0, -560⟩ 200 .LASER,
          Projectile.new ⟨700, 319⟩ ⟨0, -560⟩ 200 .LASER]) ∧
      (Projectile.new ⟨700, 319⟩ ⟨0, -560⟩ 200 .LASER).transform.position.y -
          (Projectile.new ⟨700, 263⟩ ⟨0, -560⟩ 200 .LASER).transform.position.y ≠ 80 ∧
      sampleShip.GetFireRate .BULLET = some 14 ∧ sampleShip.GetSpacing .BULLET = some 60 ∧
      (0 : ℚ) < 1 / 14 ∧ (1 / 14 : ℚ) ≤ 1 / 14 ∧
      fireRun 2 Renderer.Instance sampleShip .BULLET (1 / 14) 1 (1 / 14, []) =
        some (0, [Projectile.new ⟨700, 315⟩ ⟨0, -840⟩ 10 .BULLET,
          Projectile.new ⟨700, 315⟩ ⟨0, -840⟩ 10 .BULLET]) ∧
      (Projectile.new ⟨700, 315⟩ ⟨0, -840⟩ 10 .BULLET).transform.position.y -
          (Projectile.new ⟨700, 315⟩ ⟨0, -840⟩ 10 .BULLET).transform.position.y ≠ 60 := by
  have hl : ¬ (WeaponType.LASER = WeaponType.SHOTGUN) := by decide
  have hb : ¬ (WeaponType.BULLET = WeaponType.SHOTGUN) := by decide
  refine ⟨rfl, rfl, rfl, by norm_num, by norm_num, ?_, by norm_num [Projectile.new], rfl, rfl,
    by norm_num, le_refl _, ?_, by norm_num [Projectile.new]⟩
  · simp only [fireRun, fireTick, shooting, sampleShip, PlayerShip, Ship.IsAlive,
      Ship.GetFireRate, Ship.GetSpacing, Bool.and_self, if_true]
    norm_num [volleyLoop, emitVolley, MakeProjectile, updateProjectiles, Projectile.Update,
      Projectile.new, Vector2Add, Vector2Scale, Ship.GetPosition, Ship.GetRadius, C_WIDTH,
      C_HEIGHT, Renderer.Instance, hl]
  · simp only [fireRun, fireTick, shooting, sampleShip, PlayerShip, Ship.IsAlive,
      Ship.GetFireRate, Ship.GetSpacing, Bool.and_self, if_true]
    norm_num [volleyLoop, emitVolley, MakeProjectile, updateProjectiles, Projectile.Update,
      Projectile.new, Vector2Add, Vector2Scale, Ship.GetPosition, Ship.GetRadius, C_WIDTH,
      C_HEIGHT, Renderer.Instance, hb]

/-- C17 (amended): the straight-up projectile of a volley has speed `spacing * rate`
(560, 840 and 500 px/s for Laser, Bullet and Shotgun with the rates of the constructor). With
the ship alive and not moving, fire held on every tick starting from a shot timer `t0` below
the interval `1 / rate` and any projectile collection `ps0`, and a tick duration `dt` of which
the interval is a whole multiple (`dt = (1 / rate) / m`, `m ≥ 1`), at the end of every tick the
collection is what the update blocks leave of `ps0` followed by the projectiles emitted since
the start; the straight-up ones among these, in emission order, are each exactly `spacing` px
below the one before, and the shot timer is again below the interval, and non-negative when
`t0` is (projectiles leave the collection through the bounds test only; exact arithmetic). -/
theorem C17_shot_spacing (fuel : Nat) (r : Renderer) (player : Ship) (wt : WeaponType)
    (rate spacing t0 : ℚ) (m n : Nat) (ps0 : List Projectile)
    (halive : player.IsAlive = true) (hrate : player.GetFireRate wt = some rate)
    (hspacing : player.GetSpacing wt = some spacing) (hpos : 0 < rate) (hsp : 0 < spacing)
    (hm : 1 ≤ m) (hfuel : 1 ≤ fuel) (ht1 : t0 < 1 / rate) :
    (∀ ps : List Projectile, ∃ (vol : List Projectile) (q : Projectile),
        emitVolley player wt (spacing * rate) ps = some (ps ++ vol) ∧
        vol.filter straightUp = [q] ∧ q.physics.velocity = ⟨0, -(spacing * rate)⟩) ∧
      (player.constructorRates →
        (wt = WeaponType.LASER → spacing * rate = 560) ∧
        (wt = WeaponType.BULLET → spacing * rate = 840) ∧
        (wt = WeaponType.SHOTGUN → spacing * rate = 500)) ∧
      ∃ (t : ℚ) (new : List Projectile),
        fireRun fuel r player wt (1 / rate / (m : ℚ)) n (t0, ps0) =
          some (t, (updateProjectiles r (1 / rate / (m : ℚ)))^[n] ps0 ++ new) ∧
        t < 1 / rate ∧ (0 ≤ t0 → 0 ≤ t) ∧
        List.Chain' (fun p q => q.transform.position.y = p.transform.position.y + spacing)
          (new.filter straightUp) ∧
        (∀ p ∈ new.filter straightUp, p.physics.velocity = ⟨0, -(spacing * rate)⟩) := by
  have hw : wt ≠ WeaponType.COUNT := by
    intro hc; subst hc; simp [Ship.GetFireRate] at hrate
  refine ⟨?_, ?_, ?_⟩
  · intro ps
    obtain ⟨vol, q, h1, h2, h3, _⟩ :=
      emitVolley_straightUp player wt (spacing * rate) ps hw (mul_pos hsp hpos)
    exact ⟨vol, q, h1, h2, h3⟩
  · intro hrates
    obtain ⟨rate2, spacing2, hr2, hs2, _, _, hL, hB, hS⟩ :=
      GetFireRate_constructorRates player wt hrates hw
    have e1 : rate2 = rate := by rw [hrate] at hr2; exact (Option.some.inj hr2).symm
    have e2 : spacing2 = spacing := by rw [hspacing] at hs2; exact (Option.some.inj hs2).symm
    subst e1 e2
    refine ⟨?_, ?_, ?_⟩
    · intro h; obtain ⟨a, b⟩ := hL h; rw [a, b]; norm_num
    · intro h; obtain ⟨a, b⟩ := hB h; rw [a, b]; norm_num
    · intro h; obtain ⟨a, b⟩ := hS h; rw [a, b]; norm_num
  · exact fireRun_spaced fuel r player wt rate spacing m halive hrate hspacing hpos hsp hm hfuel
      n t0 ps0 ht1

theorem C17_shot_spacing_witness :
    (sampleShip.IsAlive = true ∧ sampleShip.GetFireRate .LASER = some 7 ∧
      sampleShip.GetSpacing .LASER = some 80 ∧ (0 : ℚ) < 7 ∧ (0 : ℚ) < 80 ∧ 1 ≤ 2 ∧ 1 ≤ 1 ∧
      (1 / 10 : ℚ) < 1 / 7) ∧
    ∃ (t : ℚ) (new : List Projectile),
      fireRun 1 Renderer.Instance sampleShip .LASER (1 / 7 / ((2 : Nat) : ℚ)) 5
          (1 / 10, [sampleLaser]) =
        some (t, (updateProjectiles Renderer.Instance (1 / 7 / ((2 : Nat) : ℚ)))^[5]
          [sampleLaser] ++ new) ∧
      t < 1 / 7 ∧ ((0 : ℚ) ≤ 1 / 10 → 0 ≤ t) ∧
      List.Chain' (fun p q => q.transform.position.y = p.transform.position.y + 80)
        (new.filter straightUp) ∧
      (∀ p ∈ new.filter straightUp, p.physics.velocity = ⟨0, -(80 * 7)⟩) :=
  ⟨⟨rfl, rfl, rfl, by norm_num, by norm_num, by decide, le_refl _, by norm_num⟩,
    (C17_shot_spacing 1 Renderer.Instance sampleShip .LASER 7 80 (1 / 10) 2 5 [sampleLaser]
      rfl rfl rfl (by norm_num) (by norm_num) (by decide) (le_refl _) (by norm_num)).2.2⟩

end AsteroidGame
